import Mathlib

/-!
# Dialog engine of the Chinese-learning LINE bot

A shallow embedding of `handlers/message.go`: the per-user session record, the
lexical classifiers (`parseGrade`, `parseSemester`, `parseLesson`,
`isChineseCharacter`), the cumulative aggregator and the dialog state machine
(`handleTextMessage` and the handlers it dispatches to).

Modelling conventions.

* A Go `string` received from the chat channel is valid UTF-8; it is a Lean
  `String` (a list of code points). `[]rune(text)` is `text.data`.
* Go `int` is 64 bit. The handlers never do arithmetic on the integer fields,
  they only store and compare them, so they are `Int`; the only place where the
  64-bit range is visible is `parseLesson`, which fails on a numeral outside it.
* The Firestore document of one user is `Option UserState`; `getUserState`
  yields the all-default record when the document is absent. A handler does not
  touch the store directly: it returns the list of store operations it issues,
  in program order, together with the reply it sends. `applyOps` replays the
  operations on the store. Reads, writes and deletes of the document succeed
  (a failed write or delete is only logged by the Go code and leaves the
  document as it was).
* The lesson catalog is an input of the handler (`Firestore.lessons`): either
  a transport error or the list of documents of the collection.
* The practice service (`services/practice.go`) and the text utilities
  (`utils/string.go`) follow the dialog engine. The practice service takes the
  character lookup, the clock and the permutation of `rand.Shuffle` from a
  `PracticeEnv`; its integer additions are wrapped to 64 bits (`wrapInt`).
-/

namespace LineBot

/-! ## Session record -/

/-- The Go struct `UserState`, fields in declaration order. -/
structure UserState where
  Mode : String
  Publisher : String
  Grade : Int
  Semester : Int
  Lesson : Int
  Step : Int
  PreferredPublisher : String
  PreferredGrade : Int
  PreferredSemester : Int
deriving DecidableEq, Repr

/-- The zero value `&UserState{}`. -/
def emptyState : UserState :=
  { Mode := "", Publisher := "", Grade := 0, Semester := 0, Lesson := 0, Step := 0,
    PreferredPublisher := "", PreferredGrade := 0, PreferredSemester := 0 }

/-- The document `user_states/<userID>`: absent or holding a record. -/
abbrev Store := Option UserState

/-- `getUserState`: the stored record, or the empty record when there is none. -/
def getUserState (store : Store) : UserState :=
  match store with
  | some state => state
  | none => emptyState

/-- A store operation issued by a handler: `setUserState` or `clearUserState`. -/
inductive StoreOp where
  | set (state : UserState)
  | clear
deriving DecidableEq, Repr

/-- Effect of one store operation on the document. -/
def applyOp (_store : Store) (op : StoreOp) : Store :=
  match op with
  | StoreOp.set state => some state
  | StoreOp.clear => none

/-- Effect of a sequence of store operations, in program order. -/
def applyOps (store : Store) (ops : List StoreOp) : Store :=
  ops.foldl applyOp store

/-! ## Replies -/

/-- A quick-reply button: `linebot.MessageAction` with its label and text. -/
structure QuickReplyButton where
  Label : String
  Text : String
deriving DecidableEq, Repr

/-- The message sent back: `replyMessage` or `replyMessageWithQuickReply`. -/
inductive Reply where
  | text (body : String)
  | withQuickReply (body : String) (items : List QuickReplyButton)
deriving DecidableEq, Repr

/-- What handling one event does: store operations issued, then the reply. -/
structure Outcome where
  ops : List StoreOp
  reply : Reply
deriving DecidableEq, Repr

/-- `replyMessage` without any store operation before it. -/
def replyMessage (body : String) : Outcome :=
  { ops := [], reply := Reply.text body }

/-! ## Text helpers of the Go runtime -/

/-- Go `unicode.IsSpace` (the same set as the `space` table of package `fmt`). -/
def isSpace (c : Char) : Bool :=
  let n := c.toNat
  (0x0009 ≤ n && n ≤ 0x000d) || n == 0x0020 || n == 0x0085 || n == 0x00a0 ||
  n == 0x1680 || (0x2000 ≤ n && n ≤ 0x200a) || (0x2028 ≤ n && n ≤ 0x2029) ||
  n == 0x202f || n == 0x205f || n == 0x3000

/-- Go `strings.TrimSpace`: drop leading and trailing white space. -/
def TrimSpace (s : String) : String :=
  String.mk ((s.data.dropWhile isSpace).reverse.dropWhile isSpace).reverse

/-- The verb `%d` of `fmt.Sprintf` on an `int`. -/
def fmtInt (n : Int) : String :=
  match n with
  | Int.ofNat m => Nat.repr m
  | Int.negSucc m => "-" ++ Nat.repr (m + 1)

/-- Range table of the script Han (Go `unicode.Han`), as used by `\p{Han}`. -/
def hanRanges : List (Nat × Nat) :=
  [ (0x2e80, 0x2e99), (0x2e9b, 0x2ef3), (0x2f00, 0x2fd5), (0x3005, 0x3005),
    (0x3007, 0x3007), (0x3021, 0x3029), (0x3038, 0x303b), (0x3400, 0x4dbf),
    (0x4e00, 0x9fff), (0xf900, 0xfa6d), (0xfa70, 0xfad9), (0x16fe2, 0x16fe3),
    (0x16ff0, 0x16ff1), (0x20000, 0x2a6df), (0x2a700, 0x2b739), (0x2b740, 0x2b81d),
    (0x2b820, 0x2cea1), (0x2ceb0, 0x2ebe0), (0x2f800, 0x2fa1d), (0x30000, 0x3134a),
    (0x31350, 0x323af) ]

/-- Membership of a code point in the script Han. -/
def isHan (c : Char) : Bool :=
  hanRanges.any (fun r => r.1 ≤ c.toNat && c.toNat ≤ r.2)

/-! ## Lexical classifiers -/

/-- `parseGrade`: a closed lookup of the digits 1..6 and their CJK numerals. -/
def parseGrade (text : String) : Int :=
  if text = "1" ∨ text = "一" then 1
  else if text = "2" ∨ text = "二" then 2
  else if text = "3" ∨ text = "三" then 3
  else if text = "4" ∨ text = "四" then 4
  else if text = "5" ∨ text = "五" then 5
  else if text = "6" ∨ text = "六" then 6
  else 0

/-- `parseSemester`: a closed lookup. -/
def parseSemester (text : String) : Int :=
  if text = "1" ∨ text = "上" ∨ text = "上學期" then 1
  else if text = "2" ∨ text = "下" ∨ text = "下學期" then 2
  else 0

/-- `SkipSpace` of the scanner behind `fmt.Sscanf` (newlines are not space
there): `none` is the error "unexpected newline". -/
def skipSpace : List Char → Option (List Char)
  | [] => some []
  | c :: rest =>
    if c = '\r' ∧ rest.head? = some '\n' then skipSpace rest
    else if c = '\n' then none
    else if isSpace c then skipSpace rest
    else some (c :: rest)

/-- Whether a code point is one of `0123456789`. -/
def isDecimalDigit (c : Char) : Bool :=
  '0'.toNat ≤ c.toNat && c.toNat ≤ '9'.toNat

/-- Value of a run of decimal digits. -/
def digitsValue (ds : List Char) : Nat :=
  ds.foldl (fun acc c => acc * 10 + (c.toNat - '0'.toNat)) 0

/-- `fmt.Sscanf(text, "%d", &n)`: skip leading space, accept one sign, then a
non-empty run of decimal digits; what follows the run is left unread. `none`
is any scan error, among them a value outside the 64-bit range. -/
def sscanfInt (text : String) : Option Int :=
  match skipSpace text.data with
  | none => none
  | some rest =>
    let neg := rest.head? = some '-'
    let body := if rest.head? = some '+' ∨ rest.head? = some '-' then rest.tail else rest
    let ds := body.takeWhile isDecimalDigit
    if ds = [] then none
    else
      let v : Int := if neg then -(digitsValue ds : Int) else (digitsValue ds : Int)
      if -(2 ^ 63 : Int) ≤ v ∧ v < (2 ^ 63 : Int) then some v else none

/-- `parseLesson`: the scanned integer, 0 on a scan error. -/
def parseLesson (text : String) : Int :=
  match sscanfInt text with
  | some lesson => lesson
  | none => 0

/-- `isChineseCharacter`: the text matches `[\p{Han}]+` somewhere and has at
most 10 code points. -/
def isChineseCharacter (text : String) : Bool :=
  text.data.any isHan && decide (text.data.length ≤ 10)

/-! ## Lesson catalog and cumulative aggregator -/

/-- A dynamically typed Firestore value, as far as the type assertions of
`getCumulativeCharacters` tell values apart: `int64`, `string`,
`[]interface{}`, `map[string]interface{}`, and every other type. -/
inductive FsValue where
  | int (n : Int)
  | str (s : String)
  | arr (items : List FsValue)
  | map (fields : List (String × FsValue))
  | other

/-- The result of `doc.Data()`: field name to value (first binding counts). -/
abbrev DocData := List (String × FsValue)

/-- The catalog side of the Firestore client: reading the collection `lessons`
either fails with an error text or yields its documents. -/
structure Firestore where
  lessons : Except String (List DocData)

/-- The query `Where("publisher", "==", publisher)` followed by `GetAll`. -/
def queryLessons (fs : Firestore) (publisher : String) : Except String (List DocData) :=
  match fs.lessons with
  | Except.error err => Except.error err
  | Except.ok docs =>
    Except.ok (docs.filter (fun data =>
      match data.lookup "publisher" with
      | some (FsValue.str p) => decide (p = publisher)
      | _ => false))

/-- The assignment `allCharacters[charStr] = true` on the key set of the map. -/
def insertChar (allCharacters : List String) (charStr : String) : List String :=
  if charStr ∈ allCharacters then allCharacters else allCharacters ++ [charStr]

/-- One round of the inner loop over the `characters` list of a lesson. -/
def addCharacter (allCharacters : List String) (charInterface : FsValue) : List String :=
  match charInterface with
  | FsValue.map charMap =>
    match charMap.lookup "character" with
    | some (FsValue.str charStr) => insertChar allCharacters charStr
    | _ => allCharacters
  | FsValue.str charStr => insertChar allCharacters charStr
  | _ => allCharacters

/-- The condition `isInRange` of `getCumulativeCharacters`. -/
def isInRange (lessonGrade lessonSemester lessonNumber grade semester lesson : Int) : Bool :=
  decide (lessonGrade < grade) ||
  (decide (lessonGrade = grade) && decide (lessonSemester < semester)) ||
  (decide (lessonGrade = grade) && decide (lessonSemester = semester) &&
    decide (lessonNumber ≤ lesson))

/-- One round of the loop over the documents of the query. -/
def addLesson (grade semester lesson : Int) (allCharacters : List String)
    (data : DocData) : List String :=
  match data.lookup "grade" with
  | some (FsValue.int lessonGrade) =>
    match data.lookup "semester" with
    | some (FsValue.int lessonSemester) =>
      match data.lookup "lesson" with
      | some (FsValue.int lessonNumber) =>
        if isInRange lessonGrade lessonSemester lessonNumber grade semester lesson then
          match data.lookup "characters" with
          | some (FsValue.arr chars) => chars.foldl addCharacter allCharacters
          | _ => allCharacters
        else allCharacters
      | _ => allCharacters
    | _ => allCharacters
  | _ => allCharacters

/-- `getCumulativeCharacters`. The Go map `allCharacters` is its list of keys
in order of first insertion (Go leaves the order of the result unspecified; its
only consumer, `contains`, does not depend on it). -/
def getCumulativeCharacters (fs : Firestore) (publisher : String)
    (grade semester lesson : Int) : Except String (List String) :=
  match queryLessons fs publisher with
  | Except.error err => Except.error ("failed to query lessons: " ++ err)
  | Except.ok docs => Except.ok (docs.foldl (addLesson grade semester lesson) [])

/-- `contains`: linear search in a slice of strings. -/
def contains : List String → String → Bool
  | [], _ => false
  | s :: slice, item => if s = item then true else contains slice item

/-- The loop of `performCumulativeQuery` that sorts the code points of the
query into `learnedChars` and `notLearnedChars`. -/
def partitionChars (cumulativeChars : List String) (queryChars : List Char) :
    List String × List String :=
  queryChars.foldl
    (fun acc char =>
      let charStr := String.singleton char
      if contains cumulativeChars charStr then (acc.1 ++ [charStr], acc.2)
      else (acc.1, acc.2 ++ [charStr]))
    ([], [])

/-- `performCumulativeQuery`. -/
def performCumulativeQuery (fs : Firestore) (queryText : String) (state : UserState) :
    Outcome :=
  let queryChars := queryText.data
  match getCumulativeCharacters fs state.Publisher state.Grade state.Semester state.Lesson with
  | Except.error _ => replyMessage "查詢過程中發生錯誤，請稍後再試"
  | Except.ok cumulativeChars =>
    let parts := partitionChars cumulativeChars queryChars
    let learnedChars := parts.1
    let notLearnedChars := parts.2
    let responseText := "📊 累積字詞查詢結果\n\n"
    let responseText :=
      if learnedChars.length > 0 then
        responseText ++ "✅ 已學過：" ++ String.join learnedChars ++ "\n"
      else responseText
    let responseText :=
      if notLearnedChars.length > 0 then
        responseText ++ "❌ 尚未學過：" ++ String.join notLearnedChars ++ "\n"
      else responseText
    let responseText := responseText ++ "\n📈 統計：已學 " ++
      fmtInt learnedChars.length ++ "/" ++ fmtInt queryChars.length ++ " 字"
    let responseText := responseText ++ "\n\n💡 輸入新的字詞繼續查詢，或輸入「退出」結束查詢"
    replyMessage responseText

/-! ## Dialog engine -/

/-- The text chosen by `semesterText := "上學期"; if semester == 2 ...`. -/
def semesterText (semester : Int) : String :=
  if semester = 2 then "下學期" else "上學期"

/-- The quick reply offering the three publishers. -/
def publisherQuickReply : List QuickReplyButton :=
  [ { Label := "康軒", Text := "康軒" },
    { Label := "南一", Text := "南一" },
    { Label := "翰林", Text := "翰林" } ]

/-- The quick reply offering the three operations of step -1. -/
def confirmQuickReply : List QuickReplyButton :=
  [ { Label := "照用上次設定", Text := "照用上次設定" },
    { Label := "修改課程", Text := "修改課程" },
    { Label := "重新設定", Text := "重新設定" } ]

/-- The quick reply offering the six grades. -/
def gradeQuickReply : List QuickReplyButton :=
  [ { Label := "1年級", Text := "1" },
    { Label := "2年級", Text := "2" },
    { Label := "3年級", Text := "3" },
    { Label := "4年級", Text := "4" },
    { Label := "5年級", Text := "5" },
    { Label := "6年級", Text := "6" } ]

/-- The quick reply offering the two semesters. -/
def semesterQuickReply : List QuickReplyButton :=
  [ { Label := "上學期", Text := "1" },
    { Label := "下學期", Text := "2" } ]

/-- `startCumulativeQuery`: reads the record again and enters the query mode. -/
def startCumulativeQuery (store : Store) : Outcome :=
  let existingState := getUserState store
  let state : UserState := { emptyState with Mode := "cumulative_query" }
  if existingState.PreferredPublisher ≠ "" ∧ existingState.PreferredGrade > 0 ∧
      existingState.PreferredSemester > 0 then
    let state : UserState :=
      { state with
        Publisher := existingState.PreferredPublisher
        Grade := existingState.PreferredGrade
        Semester := existingState.PreferredSemester
        PreferredPublisher := existingState.PreferredPublisher
        PreferredGrade := existingState.PreferredGrade
        PreferredSemester := existingState.PreferredSemester
        Step := -1 }
    { ops := [StoreOp.set state],
      reply := Reply.withQuickReply
        ("📚 累積字詞查詢\n\n已記憶的設定：" ++ state.Publisher ++ " " ++ fmtInt state.Grade ++
          "年級" ++ semesterText state.Semester ++ "\n\n請選擇操作：")
        confirmQuickReply }
  else
    let state : UserState :=
      { state with
        Publisher := ""
        Grade := 0
        Semester := 0
        Lesson := 0
        Step := 0
        PreferredPublisher := existingState.PreferredPublisher
        PreferredGrade := existingState.PreferredGrade
        PreferredSemester := existingState.PreferredSemester }
    { ops := [StoreOp.set state],
      reply := Reply.withQuickReply "📚 累積字詞查詢\n\n請選擇出版社：" publisherQuickReply }

/-- `handleCumulativeQueryMode`: the state machine keyed by `state.Step`. -/
def handleCumulativeQueryMode (fs : Firestore) (userText : String) (state : UserState) :
    Outcome :=
  if state.Step = -1 then
    if userText = "照用上次設定" then
      let state := { state with Step := 3 }
      { ops := [StoreOp.set state],
        reply := Reply.text
          ("✅ 使用已記憶的設定：" ++ state.Publisher ++ " " ++ fmtInt state.Grade ++ "年級" ++
            semesterText state.Semester ++ "\n\n請輸入課次（例如：5）：") }
    else if userText = "修改課程" then
      let state := { state with Step := 3 }
      { ops := [StoreOp.set state],
        reply := Reply.text
          ("📝 修改課程模式\n\n當前設定：" ++ state.Publisher ++ " " ++ fmtInt state.Grade ++
            "年級" ++ semesterText state.Semester ++ "\n\n請輸入課次（例如：5）：") }
    else if userText = "重新設定" then
      let state := { state with Publisher := "", Grade := 0, Semester := 0, Step := 0 }
      { ops := [StoreOp.set state],
        reply := Reply.withQuickReply "🔄 重新設定\n\n📚 累積字詞查詢\n\n請選擇出版社："
          publisherQuickReply }
    else replyMessage "請選擇：照用上次設定、修改課程、或重新設定"
  else if state.Step = 0 then
    if userText = "康軒" ∨ userText = "南一" ∨ userText = "翰林" then
      let state := { state with Publisher := userText, Step := 1 }
      { ops := [StoreOp.set state],
        reply := Reply.withQuickReply ("已選擇：" ++ userText ++ "\n\n請選擇年級：")
          gradeQuickReply }
    else replyMessage "請選擇正確的出版社：康軒、南一、翰林"
  else if state.Step = 1 then
    let grade := parseGrade userText
    if grade > 0 ∧ grade ≤ 6 then
      let state := { state with Grade := grade, Step := 2 }
      { ops := [StoreOp.set state],
        reply := Reply.withQuickReply
          ("已選擇：" ++ state.Publisher ++ " " ++ fmtInt grade ++ "年級\n\n請選擇學期：")
          semesterQuickReply }
    else replyMessage "請輸入正確的年級數字（1-6）"
  else if state.Step = 2 then
    let semester := parseSemester userText
    if semester = 1 ∨ semester = 2 then
      let state := { state with Semester := semester }
      let state :=
        { state with
          PreferredPublisher := state.Publisher
          PreferredGrade := state.Grade
          PreferredSemester := state.Semester
          Step := 3 }
      { ops := [StoreOp.set state],
        reply := Reply.text
          ("已選擇：" ++ state.Publisher ++ " " ++ fmtInt state.Grade ++ "年級" ++
            semesterText semester ++
            "\n\n✅ 已記憶您的偏好設定，下次查詢將直接使用\n\n請輸入課次（例如：5）：") }
    else replyMessage "請選擇正確的學期：1（上學期）或 2（下學期）"
  else if state.Step = 3 then
    let lesson := parseLesson userText
    if lesson > 0 then
      let state :=
        { state with
          Lesson := lesson
          PreferredPublisher := state.Publisher
          PreferredGrade := state.Grade
          PreferredSemester := state.Semester
          Step := 4 }
      { ops := [StoreOp.set state],
        reply := Reply.text
          ("已設定：" ++ state.Publisher ++ " " ++ fmtInt state.Grade ++ "年級" ++
            semesterText state.Semester ++ "第" ++ fmtInt lesson ++
            "課\n\n✅ 已更新偏好設定\n\n請輸入要查詢的字詞（例如：我好喜歡吃飯配菜）：") }
    else replyMessage "請輸入正確的課次數字"
  else if state.Step = 4 then
    if isChineseCharacter userText then performCumulativeQuery fs userText state
    else replyMessage "請輸入中文字詞進行查詢"
  else
    { ops := [StoreOp.clear], reply := Reply.text "查詢過程出現錯誤，請重新開始" }

/-- `resetUserPreferences`. -/
def resetUserPreferences (store : Store) : Outcome :=
  let state := getUserState store
  if state.PreferredPublisher ≠ "" ∨ state.PreferredGrade > 0 ∨ state.PreferredSemester > 0 then
    let state :=
      { state with PreferredPublisher := "", PreferredGrade := 0, PreferredSemester := 0 }
    { ops := [StoreOp.set state],
      reply := Reply.text "✅ 已清除您的偏好設定記憶\n\n下次查詢時將重新選擇出版社、年級和學期" }
  else replyMessage "目前沒有已記憶的偏好設定"

/-- `handleHelp`. -/
def handleHelp : Outcome :=
  replyMessage ("🎓 中文學習小幫手使用說明\n\n📝 功能介紹：\n" ++
    "• 輸入「查詢累積字詞」開始累積字詞查詢\n" ++
    "• 輸入「印字帖」前往印字帖網站下載練習字帖\n" ++
    "• 輸入「平板學寫字」前往平板練字頁面\n" ++
    "• 輸入「重設偏好」清除記憶的版本/年級/學期設定\n" ++
    "• 輸入「退出」退出當前模式\n\n💡 使用範例：\n" ++
    "1. 輸入「查詢累積字詞」\n" ++
    "2. 首次使用：選擇出版社（康軒/南一/翰林）、年級（1-6年級）、學期（上學期/下學期）\n" ++
    "3. 再次使用：系統會記住您的設定，直接輸入課次\n" ++
    "4. 輸入課次（例如：5）\n" ++
    "5. 輸入要查詢的字詞（例如：我好喜歡吃飯配菜）\n\n📝 印字帖功能：\n" ++
    "• 輸入「印字帖」前往 hanziplay.com 下載練習字帖\n" ++
    "• 如果已設定偏好版本，會自動帶入出版社/年級/學期參數\n\n✍️ 平板學寫字功能：\n" ++
    "• 輸入「平板學寫字」前往平板練字頁面\n" ++
    "• 可在平板上直接練習寫字，提供即時筆劃指導\n\n🔧 其他指令：\n" ++
    "• 「重設偏好」- 清除記憶的出版社/年級/學期設定\n" ++
    "• 「退出」- 退出當前查詢模式\n\n❓ 需要協助請輸入「幫助」")

/-- `handleUnknownMessage`. -/
def handleUnknownMessage : Outcome :=
  replyMessage "抱歉，我不太理解您的意思。請輸入「幫助」查看使用說明，或輸入「查詢累積字詞」開始查詢。"

/-- `handlePrintWorksheet`. -/
def handlePrintWorksheet (store : Store) : Outcome :=
  let state := getUserState store
  let baseURL := "https://hanziplay.com/practice-sheet"
  if state.PreferredPublisher ≠ "" ∧ state.PreferredGrade > 0 ∧ state.PreferredSemester > 0 then
    let publisher :=
      if state.PreferredPublisher = "康軒" then "kang-hsuan"
      else if state.PreferredPublisher = "南一" then "nan-i"
      else if state.PreferredPublisher = "翰林" then "han-lin"
      else ""
    let baseURL :=
      if publisher ≠ "" then
        baseURL ++ "?publisher=" ++ publisher ++ "&grade=" ++ fmtInt state.PreferredGrade ++
          "&semester=" ++ fmtInt state.PreferredSemester
      else baseURL
    replyMessage
      ("📝 印字帖功能\n\n✅ 已使用您的偏好設定：\n📚 " ++ state.PreferredPublisher ++ " " ++
        fmtInt state.PreferredGrade ++ "年級" ++ semesterText state.PreferredSemester ++
        "\n\n🔗 請點擊連結前往印字帖頁面：\n" ++ baseURL ++
        "\n\n💡 您可以在網站上選擇要印製的字詞並下載字帖")
  else
    replyMessage
      ("📝 印字帖功能\n\n🔗 請點擊連結前往印字帖頁面：\n" ++ baseURL ++
        "\n\n💡 建議您先使用「查詢累積字詞」功能設定版本年級學期，下次使用印字帖功能時會自動帶入您的設定")

/-- `handleTabletPractice`. -/
def handleTabletPractice : Outcome :=
  replyMessage
    ("✍️ 平板學寫字\n\n🔗 請點擊連結前往平板練字頁面：\n" ++
      "https://hanziplay.com/characters/practice" ++
      "\n\n💡 您可以在平板上直接練習寫字，提供即時筆劃指導")

/-- The text `response` built by `showUserSettings`. -/
def showUserSettingsResponse (state : UserState) : String :=
  if state.PreferredPublisher = "" ∧ state.PreferredGrade = 0 ∧ state.PreferredSemester = 0 then
    "📋 使用者課程設定\n\n❌ 尚未設定任何偏好\n\n請先使用『查詢累積字詞』功能來設定您的偏好設定。"
  else
    let response :=
      "📋 使用者課程設定\n\n✅ 已記憶的偏好設定：\n📚 出版社：" ++ state.PreferredPublisher ++
        "\n🎓 年級：" ++ fmtInt state.PreferredGrade ++ "年級\n📅 學期：" ++
        semesterText state.PreferredSemester ++ "\n\n"
    if state.Mode = "cumulative_query" then
      let response :=
        response ++ "🔄 當前查詢狀態：\n📚 出版社：" ++ state.Publisher ++ "\n🎓 年級：" ++
          fmtInt state.Grade ++ "年級\n📅 學期：" ++ semesterText state.Semester ++ "\n"
      let response :=
        if state.Lesson > 0 then response ++ "📖 課次：第" ++ fmtInt state.Lesson ++ "課\n"
        else response
      if state.Step = -1 then response ++ "⏳ 等待選擇操作"
      else if state.Step = 0 then response ++ "⏳ 等待選擇出版社"
      else if state.Step = 1 then response ++ "⏳ 等待選擇年級"
      else if state.Step = 2 then response ++ "⏳ 等待選擇學期"
      else if state.Step = 3 then response ++ "⏳ 等待輸入課次"
      else if state.Step = 4 then response ++ "⏳ 等待輸入查詢字詞"
      else response
    else response ++ "💡 提示：輸入『查詢累積字詞』開始查詢"

/-- `showUserSettings`: one reply with the text built from the record read. -/
def showUserSettings (store : Store) : Outcome :=
  replyMessage (showUserSettingsResponse (getUserState store))

/-- `handleTextMessage`: trims the text, reads the record, and dispatches. -/
def handleTextMessage (fs : Firestore) (store : Store) (text : String) : Outcome :=
  let userText := TrimSpace text
  let state := getUserState store
  if userText = "退出" then
    let state :=
      { state with Mode := "", Publisher := "", Grade := 0, Semester := 0, Lesson := 0, Step := 0 }
    { ops := [StoreOp.set state], reply := Reply.text "已退出當前模式，請輸入新的指令。" }
  else if state.Mode = "cumulative_query" then
    handleCumulativeQueryMode fs userText state
  else if userText = "查詢累積字詞" then startCumulativeQuery store
  else if userText = "重設偏好" ∨ userText = "重設設定" ∨ userText = "清除記憶" then
    resetUserPreferences store
  else if userText = "使用者課程設定" ∨ userText = "查看設定" ∨ userText = "我的設定" then
    showUserSettings store
  else if userText = "印字帖" then handlePrintWorksheet store
  else if userText = "平板學寫字" then handleTabletPractice
  else if userText = "幫助" ∨ userText = "help" ∨ userText = "說明" then handleHelp
  else handleUnknownMessage

/-- The document after one text message has been handled. -/
def stepStore (fs : Firestore) (store : Store) (text : String) : Store :=
  applyOps store (handleTextMessage fs store text).ops

/-- Stores reachable by handling text messages, starting from a document whose
read yields the all-default record (absent, or holding the zero value), the
catalog being free to change between messages. -/
inductive Reachable : Store → Prop where
  | init (store : Store) : getUserState store = emptyState → Reachable store
  | step (fs : Firestore) (store : Store) (text : String) :
      Reachable store → Reachable (stepStore fs store text)

/-! ## Notions used in the statements -/

/-- The remembered triple of a record. -/
def preferred (state : UserState) : String × Int × Int :=
  (state.PreferredPublisher, state.PreferredGrade, state.PreferredSemester)

/-- The record written by the exit command when the record read is `state`. -/
def exitRecord (state : UserState) : UserState :=
  { Mode := "", Publisher := "", Grade := 0, Semester := 0, Lesson := 0, Step := 0,
    PreferredPublisher := state.PreferredPublisher,
    PreferredGrade := state.PreferredGrade,
    PreferredSemester := state.PreferredSemester }

/-- The remembered triple is fully unset or fully set (set values positive). -/
def PreferredOk (s : UserState) : Prop :=
  (s.PreferredPublisher = "" ∧ s.PreferredGrade = 0 ∧ s.PreferredSemester = 0) ∨
  (s.PreferredPublisher ≠ "" ∧ s.PreferredGrade > 0 ∧ s.PreferredSemester > 0)

/-- The inductive invariant of the dialog: which working fields are filled at
each step of each mode, together with `PreferredOk`. -/
def WizardInv (s : UserState) : Prop :=
  PreferredOk s ∧
  ((s.Mode = "" ∧ s.Step = 0 ∧ s.Publisher = "" ∧ s.Grade = 0 ∧ s.Semester = 0 ∧ s.Lesson = 0) ∨
   (s.Mode = "cumulative_query" ∧
     ((s.Step = -1 ∧ s.Publisher ≠ "" ∧ s.Grade > 0 ∧ s.Semester > 0 ∧ s.Lesson = 0) ∨
      (s.Step = 0 ∧ s.Publisher = "" ∧ s.Grade = 0 ∧ s.Semester = 0 ∧ s.Lesson = 0) ∨
      (s.Step = 1 ∧ s.Publisher ≠ "" ∧ s.Grade = 0 ∧ s.Semester = 0 ∧ s.Lesson = 0) ∨
      (s.Step = 2 ∧ s.Publisher ≠ "" ∧ s.Grade > 0 ∧ s.Semester = 0 ∧ s.Lesson = 0) ∨
      (s.Step = 3 ∧ s.Publisher ≠ "" ∧ s.Grade > 0 ∧ s.Semester > 0 ∧ s.Lesson = 0) ∨
      (s.Step = 4 ∧ s.Publisher ≠ "" ∧ s.Grade > 0 ∧ s.Semester > 0 ∧ s.Lesson > 0))))

/-- The catalog used in the worked examples: one lesson of 康軒. -/
def sampleFirestore : Firestore :=
  { lessons := Except.ok
      [ [ ("publisher", FsValue.str "康軒"), ("grade", FsValue.int 1),
          ("semester", FsValue.int 1), ("lesson", FsValue.int 1),
          ("characters", FsValue.arr [FsValue.str "我", FsValue.str "好"]) ] ] }

/-- The store after the wizard has been walked through to the query step. -/
def sampleWizardStore : Store :=
  stepStore sampleFirestore
    (stepStore sampleFirestore
      (stepStore sampleFirestore
        (stepStore sampleFirestore
          (stepStore sampleFirestore none "查詢累積字詞") "康軒") "三") "上學期") " 5"

/-- The coordinate (grade, semester, lesson) of a catalog document, when the
three fields hold integers. -/
def lessonCoord (data : DocData) : Option (Int × Int × Int) :=
  match data.lookup "grade", data.lookup "semester", data.lookup "lesson" with
  | some (FsValue.int lessonGrade), some (FsValue.int lessonSemester),
      some (FsValue.int lessonNumber) => some (lessonGrade, lessonSemester, lessonNumber)
  | _, _, _ => none

/-- The token of a well-formed entry of a `characters` list: a string, or a
structured entry whose field `character` is a string. -/
def charToken (charInterface : FsValue) : Option String :=
  match charInterface with
  | FsValue.map charMap =>
    match charMap.lookup "character" with
    | some (FsValue.str charStr) => some charStr
    | _ => none
  | FsValue.str charStr => some charStr
  | _ => none

/-- The tokens taught by a catalog document: the well-formed entries of its
`characters` field when that field is a list. -/
def lessonTokens (data : DocData) : List String :=
  match data.lookup "characters" with
  | some (FsValue.arr chars) => chars.filterMap charToken
  | _ => []

/-- Whether a catalog document belongs to the given publisher. -/
def ofPublisher (publisher : String) (data : DocData) : Bool :=
  match data.lookup "publisher" with
  | some (FsValue.str p) => decide (p = publisher)
  | _ => false

/-- A document without the field `key`. -/
def eraseField (key : String) (data : DocData) : DocData :=
  data.filter (fun kv => kv.1 != key)

/-- A document with the field `key` set to `value`. -/
def setField (key : String) (value : FsValue) (data : DocData) : DocData :=
  (key, value) :: eraseField key data

/-- A list entry is well formed when it yields a token. -/
def wellFormedEntry (charInterface : FsValue) : Bool :=
  (charToken charInterface).isSome

/-- A catalog document with its malformed items removed: the document itself
goes when its grade, semester or lesson number is not an integer; a
`characters` field that is not a list is deleted; a `characters` list loses the
entries that are not well formed. -/
def cleanLesson (data : DocData) : Option DocData :=
  match lessonCoord data with
  | none => none
  | some _ =>
    match data.lookup "characters" with
    | some (FsValue.arr chars) =>
      some (setField "characters" (FsValue.arr (chars.filter wellFormedEntry)) data)
    | some _ => some (eraseField "characters" data)
    | none => some data

/-- The catalog with every malformed item removed. -/
def cleanCatalog (docs : List DocData) : List DocData :=
  docs.filterMap cleanLesson

/-- A catalog of 康軒 with two lessons of grade 1, semester 1: lesson 1 teaches
我 and 好 (plain strings), lesson 2 teaches 喜 and 歡 (structured entries). -/
def scenarioDocs : List DocData :=
  [ [ ("publisher", FsValue.str "康軒"), ("grade", FsValue.int 1),
      ("semester", FsValue.int 1), ("lesson", FsValue.int 1),
      ("characters", FsValue.arr [FsValue.str "我", FsValue.str "好"]) ],
    [ ("publisher", FsValue.str "康軒"), ("grade", FsValue.int 1),
      ("semester", FsValue.int 1), ("lesson", FsValue.int 2),
      ("characters", FsValue.arr
        [ FsValue.map [("character", FsValue.str "喜")],
          FsValue.map [("character", FsValue.str "歡")] ]) ] ]

/-! ## Practice questions (`services/practice.go`) -/

/-- A Go `int` result of an addition or subtraction: wrapped to 64 bits. -/
def wrapInt (x : Int) : Int :=
  (x + 2 ^ 63) % 2 ^ 64 - 2 ^ 63

/-- The fields of `models.CharacterInfo` that the practice service reads. -/
structure CharacterInfo where
  Character : String
  Phonetic : String
  StrokeCount : Int
deriving DecidableEq, Repr

/-- The Go struct `models.PracticeQuestion`, fields in declaration order (the
field `Type` is `QuestionType` here, `Type` being reserved). -/
structure PracticeQuestion where
  ID : String
  QuestionType : String
  Character : String
  Question : String
  Options : List String
  CorrectAnswer : String
  Explanation : String
  Difficulty : Int
  CreatedAt : Int
deriving DecidableEq, Repr

/-- The map `questionCache`: question ID to question (first binding counts). -/
abbrev QuestionCache := List (String × PracticeQuestion)

/-- The assignment `s.questionCache[questionID] = question`. -/
def cacheSet (cache : QuestionCache) (questionID : String) (question : PracticeQuestion) :
    QuestionCache :=
  (questionID, question) :: cache.filter (fun kv => kv.1 != questionID)

/-- What the practice service takes from outside: the result of
`LookupCharacter` for each character (`none` on an error), the clock reading
`time.Now().UnixNano()` that goes into the question ID, and the permutation
applied by `rand.Shuffle`. -/
structure PracticeEnv where
  lookupCharacter : String → Option CharacterInfo
  now : Int
  shuffle : List String → List String

/-- The fixed list `commonChars` of `GetRandomCharacters`. -/
def commonChars : List String :=
  ["學", "習", "中", "文", "字", "詞", "語", "言", "書", "本"]

/-- `GetRandomCharacters`: the first `count` common characters whose lookup
succeeds (it never returns an error). -/
def GetRandomCharacters (lookupCharacter : String → Option CharacterInfo) (count : Int) :
    List CharacterInfo :=
  let count := if count ≤ 0 then 5 else count
  (commonChars.take count.toNat).filterMap lookupCharacter

/-- The loop that finds `correctIndex`: the first index holding the target,
0 when there is none. -/
def correctIndexFrom : List String → String → Nat → Nat
  | [], _, _ => 0
  | option :: rest, target, i =>
    if option = target then i else correctIndexFrom rest target (i + 1)

/-- The options of a phonetic question before the shuffle. -/
def phoneticOptions (phonetic : String) : List String :=
  ["ㄅㄚ", "ㄆㄧ", "ㄇㄛ", "ㄈㄟ"].foldl
    (fun options wrong =>
      if wrong ≠ phonetic ∧ options.length < 4 then options ++ [wrong] else options)
    [phonetic]

/-- `GeneratePhoneticQuestion`: the question and the cache after it. -/
def GeneratePhoneticQuestion (env : PracticeEnv) (cache : QuestionCache) :
    Except String (PracticeQuestion × QuestionCache) :=
  match GetRandomCharacters env.lookupCharacter 1 with
  | [] => Except.error "failed to get random character"
  | char :: _ =>
    let questionID := "phonetic_" ++ fmtInt env.now
    let options := env.shuffle (phoneticOptions char.Phonetic)
    let correctIndex := correctIndexFrom options char.Phonetic 0
    let question : PracticeQuestion :=
      { ID := questionID,
        QuestionType := "phonetic",
        Character := char.Character,
        Question := "請選擇「" ++ char.Character ++ "」的正確注音：",
        Options := options,
        CorrectAnswer := fmtInt correctIndex,
        Explanation := "「" ++ char.Character ++ "」的注音是「" ++ char.Phonetic ++ "」",
        Difficulty := 0,
        CreatedAt := 0 }
    Except.ok (question, cacheSet cache questionID question)

/-- One round of the loop `for i := 1; i <= 3; i++` of `GenerateStrokeQuestion`. -/
def strokeRound (correctStrokes : Int) (options : List String) (i : Int) : List String :=
  let options :=
    if wrapInt (correctStrokes - i) > 0 then options ++ [fmtInt (wrapInt (correctStrokes - i))]
    else options
  if options.length < 4 then options ++ [fmtInt (wrapInt (correctStrokes + i))] else options

/-- The loop `for len(options) < 4` of `GenerateStrokeQuestion`; it starts with
at least one option, so three rounds of fuel are enough. -/
def strokePad (correctStrokes : Int) : Nat → List String → List String
  | 0, options => options
  | fuel + 1, options =>
    if options.length < 4 then
      strokePad correctStrokes fuel
        (options ++ [fmtInt (wrapInt (correctStrokes + options.length))])
    else options

/-- The options of a stroke question before the shuffle. -/
def strokeOptions (correctStrokes : Int) : List String :=
  strokePad correctStrokes 3 ([1, 2, 3].foldl (strokeRound correctStrokes) [fmtInt correctStrokes])

/-- `GenerateStrokeQuestion`: the question and the cache after it. -/
def GenerateStrokeQuestion (env : PracticeEnv) (cache : QuestionCache) :
    Except String (PracticeQuestion × QuestionCache) :=
  match GetRandomCharacters env.lookupCharacter 1 with
  | [] => Except.error "failed to get random character"
  | char :: _ =>
    let questionID := "stroke_" ++ fmtInt env.now
    let correctStrokes := char.StrokeCount
    let options := env.shuffle (strokeOptions correctStrokes)
    let correctIndex := correctIndexFrom options (fmtInt correctStrokes) 0
    let question : PracticeQuestion :=
      { ID := questionID,
        QuestionType := "stroke",
        Character := char.Character,
        Question := "請選擇「" ++ char.Character ++ "」的筆畫數：",
        Options := options,
        CorrectAnswer := fmtInt correctIndex,
        Explanation := "「" ++ char.Character ++ "」的筆畫數是 " ++ fmtInt correctStrokes ++ " 畫",
        Difficulty := 0,
        CreatedAt := 0 }
    Except.ok (question, cacheSet cache questionID question)

/-- `CheckAnswer`: the verdict and the message (its error result is always nil). -/
def CheckAnswer (cache : QuestionCache) (questionID answer : String) : Bool × String :=
  match cache.lookup questionID with
  | none => (false, "問題已過期，請重新開始練習")
  | some question =>
    if question.QuestionType = "phonetic" ∨ question.QuestionType = "stroke" then
      (decide (answer = question.CorrectAnswer), question.Explanation)
    else if question.QuestionType = "sentence" then
      if answer.data.any (fun char => decide (String.singleton char = question.Character)) then
        (true, "很棒的句子！你成功使用了「" ++ question.Character ++ "」這個字。")
      else (false, "請確保句子中包含「" ++ question.Character ++ "」這個字。")
    else (false, "未知的問題類型")

/-- `time.Hour` in nanoseconds. -/
def hourNanos : Int := 3600000000000

/-- `extractTimestampFromID`: the body ignores the ID and returns the reading
of the clock at the time of the call. -/
def extractTimestampFromID (nowAtCall : Int) (_id : String) : Int :=
  nowAtCall

/-- `CleanupExpiredQuestions`: `currentTime` is the clock reading at the start,
`clock id` the reading when `extractTimestampFromID` is called for that key. -/
def CleanupExpiredQuestions (currentTime : Int) (clock : String → Int) (cache : QuestionCache) :
    QuestionCache :=
  cache.filter (fun kv =>
    !decide (wrapInt (currentTime - extractTimestampFromID (clock kv.1) kv.1) > hourNanos))

/-! ## Text utilities (`utils/string.go`) -/

/-- `TruncateText`; `none` is the run-time panic of a slice `runes[:maxLength]`
with a negative bound. -/
def TruncateText (text : String) (maxLength : Int) : Option String :=
  if (text.data.length : Int) ≤ maxLength then some text
  else
    let runes := text.data
    if maxLength ≤ 3 then
      if 0 ≤ maxLength then some (String.mk (runes.take maxLength.toNat)) else none
    else some (String.mk (runes.take (maxLength - 3).toNat) ++ "...")

/-- The loop of `SplitByLength`, with `i` the loop index and `result` the
slice built so far; every round advances `i` by `length > 0`, so
`len(runes)` rounds of fuel are enough. -/
def splitLoop (runes : List Char) (length : Nat) : Nat → Nat → List String → List String
  | 0, _, result => result
  | fuel + 1, i, result =>
    if i < runes.length then
      let stop := if i + length > runes.length then runes.length else i + length
      splitLoop runes length fuel (i + length)
        (result ++ [String.mk ((runes.drop i).take (stop - i))])
    else result

/-- `SplitByLength`. The index never exceeds `len(runes) + length`, so the Go
additions do not wrap. -/
def SplitByLength (text : String) (length : Int) : List String :=
  if length ≤ 0 then [text]
  else splitLoop text.data length.toNat text.data.length 0 []

/-- The chunks of a list of code points, cut from the left in pieces of `n`
(the closed form of the loop of `SplitByLength`, used in its proofs). -/
def chunksFrom (n : Nat) : Nat → List Char → List String
  | 0, _ => []
  | fuel + 1, l =>
    if l = [] then [] else String.mk (l.take n) :: chunksFrom n fuel (l.drop n)

/-- A practice environment for the worked examples: the character 學 with 16
strokes, the clock at 0, and a shuffle that reverses the options. -/
def samplePracticeEnv : PracticeEnv :=
  { lookupCharacter := fun c =>
      if c = "學" then some { Character := "學", Phonetic := "ㄒㄩㄝˊ", StrokeCount := 16 }
      else none,
    now := 0,
    shuffle := List.reverse }

/-- The store after the wizard has been completed, left with the exit keyword
and entered again: the confirm step with the remembered triple. -/
def sampleConfirmStore : Store :=
  stepStore sampleFirestore (stepStore sampleFirestore sampleWizardStore "退出") "查詢累積字詞"

/-! # Theorems -/

/-! ## Exit -/

/-- C1: whatever record is stored (any mode, any step) and whatever the catalog
is, a text that trims to the exit keyword issues exactly one store operation, a
write of the record with `Mode`, `Publisher`, `Grade`, `Semester`, `Lesson`,
`Step` at their defaults and the remembered triple of the record read, and
replies with the exit confirmation; the result does not go through the step
state machine (no delete, no dependence on `Step` or on the catalog). -/
theorem exit_writes_cleared_record (fs : Firestore) (store : Store) (text : String)
    (h : TrimSpace text = "退出") :
    handleTextMessage fs store text =
      { ops := [StoreOp.set (exitRecord (getUserState store))],
        reply := Reply.text "已退出當前模式，請輸入新的指令。" } ∧
    stepStore fs store text = some (exitRecord (getUserState store)) := by
  have hout : handleTextMessage fs store text =
      { ops := [StoreOp.set (exitRecord (getUserState store))],
        reply := Reply.text "已退出當前模式，請輸入新的指令。" } := by
    unfold handleTextMessage
    simp [h, exitRecord]
  refine ⟨hout, ?_⟩
  simp [stepStore, hout, applyOps, applyOp]

theorem exit_writes_cleared_record_witness :
    TrimSpace " 退出\n" = "退出" ∧
    handleTextMessage { lessons := Except.error "down" }
        (some { Mode := "cumulative_query", Publisher := "康軒", Grade := 3, Semester := 1,
                Lesson := 5, Step := 99, PreferredPublisher := "南一", PreferredGrade := 2,
                PreferredSemester := 2 }) " 退出\n" =
      { ops := [StoreOp.set (exitRecord (getUserState
          (some { Mode := "cumulative_query", Publisher := "康軒", Grade := 3, Semester := 1,
                  Lesson := 5, Step := 99, PreferredPublisher := "南一", PreferredGrade := 2,
                  PreferredSemester := 2 })))],
        reply := Reply.text "已退出當前模式，請輸入新的指令。" } :=
  ⟨by decide, (exit_writes_cleared_record _ _ _ (by decide)).1⟩

/-- The store after a text that trims to the exit keyword. -/
theorem stepStore_exit (fs : Firestore) (store : Store) (text : String)
    (h : TrimSpace text = "退出") :
    stepStore fs store text = some (exitRecord (getUserState store)) := by
  unfold stepStore handleTextMessage
  simp [h, exitRecord, applyOps, applyOp]

/-- C2: exit is idempotent. From any stored record, the document after two
exit commands in a row equals the document after one, and the remembered triple
read back after one and after two equals the remembered triple before. -/
theorem exit_idempotent (fs₁ fs₂ : Firestore) (store : Store) (t₁ t₂ : String)
    (h₁ : TrimSpace t₁ = "退出") (h₂ : TrimSpace t₂ = "退出") :
    stepStore fs₂ (stepStore fs₁ store t₁) t₂ = stepStore fs₁ store t₁ ∧
    preferred (getUserState (stepStore fs₁ store t₁)) = preferred (getUserState store) ∧
    preferred (getUserState (stepStore fs₂ (stepStore fs₁ store t₁) t₂)) =
      preferred (getUserState store) := by
  rw [stepStore_exit fs₂ _ t₂ h₂, stepStore_exit fs₁ store t₁ h₁]
  simp [getUserState, exitRecord, preferred]

theorem exit_idempotent_witness :
    TrimSpace "退出" = "退出" ∧ TrimSpace "  退出" = "退出" ∧
    stepStore { lessons := Except.ok [] }
        (stepStore { lessons := Except.ok [] }
          (some { Mode := "cumulative_query", Publisher := "翰林", Grade := 4, Semester := 2,
                  Lesson := 7, Step := 4, PreferredPublisher := "翰林", PreferredGrade := 4,
                  PreferredSemester := 2 }) "退出") "  退出" =
      stepStore { lessons := Except.ok [] }
        (some { Mode := "cumulative_query", Publisher := "翰林", Grade := 4, Semester := 2,
                Lesson := 7, Step := 4, PreferredPublisher := "翰林", PreferredGrade := 4,
                PreferredSemester := 2 }) "退出" :=
  ⟨by decide, by decide, (exit_idempotent _ _ _ "退出" "  退出" (by decide) (by decide)).1⟩

/-! ## Entering the query mode -/

/-- C3: start-query entry. When the stored record is not in query mode, a text
that trims to the start keyword writes one record with `Mode` set to the query
mode and the remembered triple of the record read. If that triple is fully set
(publisher non-empty, grade and semester positive) the record has `Step = -1`,
the working publisher, grade and semester equal to the triple, `Lesson = 0`,
and the reply offers exactly the three options 照用上次設定, 修改課程, 重新設定;
otherwise the record has `Step = 0`, an empty working quadruple, and the reply
offers exactly the publishers 康軒, 南一, 翰林. -/
theorem startCumulativeQuery_entry (fs : Firestore) (store : Store) (text : String)
    (hmode : (getUserState store).Mode ≠ "cumulative_query")
    (htext : TrimSpace text = "查詢累積字詞") :
    (((getUserState store).PreferredPublisher ≠ "" ∧ (getUserState store).PreferredGrade > 0 ∧
        (getUserState store).PreferredSemester > 0) →
      handleTextMessage fs store text =
        { ops := [StoreOp.set
            { Mode := "cumulative_query",
              Publisher := (getUserState store).PreferredPublisher,
              Grade := (getUserState store).PreferredGrade,
              Semester := (getUserState store).PreferredSemester,
              Lesson := 0, Step := -1,
              PreferredPublisher := (getUserState store).PreferredPublisher,
              PreferredGrade := (getUserState store).PreferredGrade,
              PreferredSemester := (getUserState store).PreferredSemester }],
          reply := Reply.withQuickReply
            ("📚 累積字詞查詢\n\n已記憶的設定：" ++ (getUserState store).PreferredPublisher ++ " " ++
              fmtInt (getUserState store).PreferredGrade ++ "年級" ++
              semesterText (getUserState store).PreferredSemester ++ "\n\n請選擇操作：")
            [ { Label := "照用上次設定", Text := "照用上次設定" },
              { Label := "修改課程", Text := "修改課程" },
              { Label := "重新設定", Text := "重新設定" } ] }) ∧
    (¬ ((getUserState store).PreferredPublisher ≠ "" ∧ (getUserState store).PreferredGrade > 0 ∧
        (getUserState store).PreferredSemester > 0) →
      handleTextMessage fs store text =
        { ops := [StoreOp.set
            { Mode := "cumulative_query", Publisher := "", Grade := 0, Semester := 0,
              Lesson := 0, Step := 0,
              PreferredPublisher := (getUserState store).PreferredPublisher,
              PreferredGrade := (getUserState store).PreferredGrade,
              PreferredSemester := (getUserState store).PreferredSemester }],
          reply := Reply.withQuickReply "📚 累積字詞查詢\n\n請選擇出版社："
            [ { Label := "康軒", Text := "康軒" },
              { Label := "南一", Text := "南一" },
              { Label := "翰林", Text := "翰林" } ] }) := by
  have hne : ("查詢累積字詞" : String) ≠ "退出" := by decide
  constructor
  · intro hp
    unfold handleTextMessage startCumulativeQuery
    rw [htext, if_neg hne, if_neg hmode, if_pos rfl, if_pos hp]
    rfl
  · intro hp
    unfold handleTextMessage startCumulativeQuery
    rw [htext, if_neg hne, if_neg hmode, if_pos rfl, if_neg hp]
    rfl

theorem startCumulativeQuery_entry_witness :
    handleTextMessage { lessons := Except.ok [] }
        (some { Mode := "", Publisher := "", Grade := 0, Semester := 0, Lesson := 0, Step := 0,
                PreferredPublisher := "南一", PreferredGrade := 2, PreferredSemester := 1 })
        "查詢累積字詞 " =
      { ops := [StoreOp.set
          { Mode := "cumulative_query", Publisher := "南一", Grade := 2, Semester := 1,
            Lesson := 0, Step := -1,
            PreferredPublisher := "南一", PreferredGrade := 2, PreferredSemester := 1 }],
        reply := Reply.withQuickReply
          ("📚 累積字詞查詢\n\n已記憶的設定：" ++ "南一" ++ " " ++ fmtInt 2 ++ "年級" ++
            semesterText 1 ++ "\n\n請選擇操作：")
          [ { Label := "照用上次設定", Text := "照用上次設定" },
            { Label := "修改課程", Text := "修改課程" },
            { Label := "重新設定", Text := "重新設定" } ] } :=
  (startCumulativeQuery_entry { lessons := Except.ok [] }
    (some { Mode := "", Publisher := "", Grade := 0, Semester := 0, Lesson := 0, Step := 0,
            PreferredPublisher := "南一", PreferredGrade := 2, PreferredSemester := 1 })
    "查詢累積字詞 " (by decide) (by decide)).1 (by decide)

/-! ## Invariants of the reachable records -/

theorem wizardInv_emptyState : WizardInv emptyState := by
  simp [WizardInv, PreferredOk, emptyState]

/-- `performCumulativeQuery` issues no store operation. -/
theorem performCumulativeQuery_ops (fs : Firestore) (queryText : String) (state : UserState) :
    (performCumulativeQuery fs queryText state).ops = [] := by
  unfold performCumulativeQuery
  cases getCumulativeCharacters fs state.Publisher state.Grade state.Semester state.Lesson <;>
    simp [replyMessage]

/-- The state machine keeps `WizardInv`. -/
theorem wizardInv_handleCumulativeQueryMode (fs : Firestore) (store : Store) (userText : String)
    (hmode : (getUserState store).Mode = "cumulative_query")
    (h : WizardInv (getUserState store)) :
    WizardInv (getUserState
      (applyOps store (handleCumulativeQueryMode fs userText (getUserState store)).ops)) := by
  generalize hr : getUserState store = r at *
  obtain ⟨m, p, g, s, l, st, pp, pg, ps⟩ := r
  simp only at hmode
  subst hmode
  unfold handleCumulativeQueryMode
  simp only
  split_ifs <;>
    simp_all [applyOps, applyOp, getUserState, WizardInv, PreferredOk, replyMessage,
      performCumulativeQuery_ops, emptyState]
  · rename_i hu
    rcases hu with rfl | rfl | rfl <;> decide
  · omega

/-- `showUserSettings` issues no store operation. -/
theorem showUserSettings_ops (store : Store) : (showUserSettings store).ops = [] := rfl

/-- `handlePrintWorksheet` issues no store operation. -/
theorem handlePrintWorksheet_ops (store : Store) : (handlePrintWorksheet store).ops = [] := by
  unfold handlePrintWorksheet
  simp only
  split_ifs <;> rfl

/-- Entering the query mode from the idle mode establishes `WizardInv`. -/
theorem wizardInv_startCumulativeQuery (store : Store) (h : WizardInv (getUserState store)) :
    WizardInv (getUserState (applyOps store (startCumulativeQuery store).ops)) := by
  generalize hr : getUserState store = r at *
  obtain ⟨m, p, g, s, l, st, pp, pg, ps⟩ := r
  unfold startCumulativeQuery
  simp only [hr]
  split_ifs <;>
    simp_all [applyOps, applyOp, getUserState, WizardInv, PreferredOk, emptyState]

/-- Resetting the remembered triple keeps `WizardInv`. -/
theorem wizardInv_resetUserPreferences (store : Store) (h : WizardInv (getUserState store)) :
    WizardInv (getUserState (applyOps store (resetUserPreferences store).ops)) := by
  generalize hr : getUserState store = r at *
  obtain ⟨m, p, g, s, l, st, pp, pg, ps⟩ := r
  unfold resetUserPreferences
  simp only [hr]
  split_ifs
  · simp_all [applyOps, applyOp, getUserState, WizardInv, PreferredOk]
  · simpa [applyOps, replyMessage, hr] using h

/-- Handling one text message keeps `WizardInv` of the record read back. -/
theorem wizardInv_stepStore (fs : Firestore) (store : Store) (text : String)
    (h : WizardInv (getUserState store)) :
    WizardInv (getUserState (stepStore fs store text)) := by
  by_cases hexit : TrimSpace text = "退出"
  · rw [stepStore_exit fs store text hexit]
    obtain ⟨hp, _⟩ := h
    simp [getUserState, exitRecord, WizardInv, PreferredOk] at hp ⊢
    exact hp
  · by_cases hmode : (getUserState store).Mode = "cumulative_query"
    · have := wizardInv_handleCumulativeQueryMode fs store (TrimSpace text) hmode h
      unfold stepStore handleTextMessage
      simpa [hexit, hmode] using this
    · unfold stepStore handleTextMessage
      simp only [hexit, hmode, if_false]
      split_ifs
      · exact wizardInv_startCumulativeQuery store h
      · exact wizardInv_resetUserPreferences store h
      · simpa [showUserSettings_ops, applyOps] using h
      · simpa [handlePrintWorksheet_ops, applyOps] using h
      · simpa [handleTabletPractice, replyMessage, applyOps] using h
      · simpa [handleHelp, replyMessage, applyOps] using h
      · simpa [handleUnknownMessage, replyMessage, applyOps] using h

/-- Every reachable store reads back a record satisfying `WizardInv`. -/
theorem wizardInv_of_reachable (store : Store) (h : Reachable store) :
    WizardInv (getUserState store) := by
  induction h with
  | init store h0 => rw [h0]; exact wizardInv_emptyState
  | step fs store text _ ih => exact wizardInv_stepStore fs store text ih

theorem sampleWizardStore_eq :
    sampleWizardStore =
      some { Mode := "cumulative_query", Publisher := "康軒", Grade := 3, Semester := 1,
             Lesson := 5, Step := 4, PreferredPublisher := "康軒", PreferredGrade := 3,
             PreferredSemester := 1 } := by
  decide

theorem reachable_sampleWizardStore : Reachable sampleWizardStore :=
  Reachable.step _ _ _ (Reachable.step _ _ _ (Reachable.step _ _ _
    (Reachable.step _ _ _ (Reachable.step _ _ _ (Reachable.init none rfl)))))

/-- C4: left-to-right fill. The record read back from every reachable store
has `Lesson ≠ 0` only if `Semester ≠ 0`, `Semester ≠ 0` only if `Grade ≠ 0`,
and `Grade ≠ 0` only if `Publisher ≠ ""`. -/
theorem left_to_right_fill (store : Store) (h : Reachable store) :
    ((getUserState store).Lesson ≠ 0 → (getUserState store).Semester ≠ 0) ∧
    ((getUserState store).Semester ≠ 0 → (getUserState store).Grade ≠ 0) ∧
    ((getUserState store).Grade ≠ 0 → (getUserState store).Publisher ≠ "") := by
  obtain ⟨_, hw⟩ := wizardInv_of_reachable store h
  rcases hw with ⟨_, _, hp, hg, hs, hl⟩ | ⟨_, hstep⟩
  · simp [hp, hg, hs, hl]
  · rcases hstep with ⟨_, hp, hg, hs, hl⟩ | ⟨_, hp, hg, hs, hl⟩ | ⟨_, hp, hg, hs, hl⟩ |
      ⟨_, hp, hg, hs, hl⟩ | ⟨_, hp, hg, hs, hl⟩ | ⟨_, hp, hg, hs, hl⟩ <;>
      refine ⟨?_, ?_, ?_⟩ <;> intro _ <;> first | exact hp | omega

theorem left_to_right_fill_witness :
    Reachable sampleWizardStore ∧
    (getUserState sampleWizardStore).Lesson = 5 ∧
    ((getUserState sampleWizardStore).Lesson ≠ 0 → (getUserState sampleWizardStore).Semester ≠ 0) ∧
    ((getUserState sampleWizardStore).Semester ≠ 0 → (getUserState sampleWizardStore).Grade ≠ 0) ∧
    ((getUserState sampleWizardStore).Grade ≠ 0 →
      (getUserState sampleWizardStore).Publisher ≠ "") :=
  ⟨reachable_sampleWizardStore, by decide,
    left_to_right_fill sampleWizardStore reachable_sampleWizardStore⟩

/-- C5: the remembered triple is all or nothing. The record read back from
every reachable store has either all of `PreferredPublisher`, `PreferredGrade`,
`PreferredSemester` at their defaults or none of them. -/
theorem preferred_all_or_nothing (store : Store) (h : Reachable store) :
    ((getUserState store).PreferredPublisher = "" ∧ (getUserState store).PreferredGrade = 0 ∧
      (getUserState store).PreferredSemester = 0) ∨
    ((getUserState store).PreferredPublisher ≠ "" ∧ (getUserState store).PreferredGrade ≠ 0 ∧
      (getUserState store).PreferredSemester ≠ 0) := by
  obtain ⟨hp, _⟩ := wizardInv_of_reachable store h
  rcases hp with h0 | ⟨h1, h2, h3⟩
  · exact Or.inl h0
  · exact Or.inr ⟨h1, by omega, by omega⟩

theorem preferred_all_or_nothing_witness :
    Reachable (stepStore sampleFirestore sampleWizardStore "退出") ∧
    (((getUserState (stepStore sampleFirestore sampleWizardStore "退出")).PreferredPublisher = "" ∧
      (getUserState (stepStore sampleFirestore sampleWizardStore "退出")).PreferredGrade = 0 ∧
      (getUserState (stepStore sampleFirestore sampleWizardStore "退出")).PreferredSemester = 0) ∨
    ((getUserState (stepStore sampleFirestore sampleWizardStore "退出")).PreferredPublisher ≠ "" ∧
      (getUserState (stepStore sampleFirestore sampleWizardStore "退出")).PreferredGrade ≠ 0 ∧
      (getUserState (stepStore sampleFirestore sampleWizardStore "退出")).PreferredSemester ≠ 0)) :=
  ⟨Reachable.step _ _ _ reachable_sampleWizardStore,
    preferred_all_or_nothing _ (Reachable.step _ _ _ reachable_sampleWizardStore)⟩

/-! ## Inputs that do not match -/

/-- C6: invalid input never mutates the session. In query mode, for a text
that does not trim to the exit keyword and is not a valid input of the current
step (none of the three option texts at -1, no publisher name at 0,
`parseGrade` outside 1..6 at 1, `parseSemester` outside 1, 2 at 2,
`parseLesson` not positive at 3, `isChineseCharacter` false at 4), no store
operation is issued, the reply is the plain re-prompt of that step, and the
document is what it was. -/
theorem invalid_input_reprompts (fs : Firestore) (store : Store) (text : String)
    (hmode : (getUserState store).Mode = "cumulative_query")
    (hexit : TrimSpace text ≠ "退出") :
    (((getUserState store).Step = -1 → TrimSpace text ≠ "照用上次設定" →
        TrimSpace text ≠ "修改課程" → TrimSpace text ≠ "重新設定" →
        handleTextMessage fs store text =
          { ops := [], reply := Reply.text "請選擇：照用上次設定、修改課程、或重新設定" }) ∧
      ((getUserState store).Step = 0 → TrimSpace text ≠ "康軒" →
        TrimSpace text ≠ "南一" → TrimSpace text ≠ "翰林" →
        handleTextMessage fs store text =
          { ops := [], reply := Reply.text "請選擇正確的出版社：康軒、南一、翰林" }) ∧
      ((getUserState store).Step = 1 →
        ¬ (1 ≤ parseGrade (TrimSpace text) ∧ parseGrade (TrimSpace text) ≤ 6) →
        handleTextMessage fs store text =
          { ops := [], reply := Reply.text "請輸入正確的年級數字（1-6）" }) ∧
      ((getUserState store).Step = 2 → parseSemester (TrimSpace text) ≠ 1 →
        parseSemester (TrimSpace text) ≠ 2 →
        handleTextMessage fs store text =
          { ops := [], reply := Reply.text "請選擇正確的學期：1（上學期）或 2（下學期）" }) ∧
      ((getUserState store).Step = 3 → parseLesson (TrimSpace text) ≤ 0 →
        handleTextMessage fs store text =
          { ops := [], reply := Reply.text "請輸入正確的課次數字" }) ∧
      ((getUserState store).Step = 4 → isChineseCharacter (TrimSpace text) = false →
        handleTextMessage fs store text =
          { ops := [], reply := Reply.text "請輸入中文字詞進行查詢" })) ∧
    (((getUserState store).Step = -1 ∧ TrimSpace text ≠ "照用上次設定" ∧
        TrimSpace text ≠ "修改課程" ∧ TrimSpace text ≠ "重新設定") ∨
      ((getUserState store).Step = 0 ∧ TrimSpace text ≠ "康軒" ∧
        TrimSpace text ≠ "南一" ∧ TrimSpace text ≠ "翰林") ∨
      ((getUserState store).Step = 1 ∧
        ¬ (1 ≤ parseGrade (TrimSpace text) ∧ parseGrade (TrimSpace text) ≤ 6)) ∨
      ((getUserState store).Step = 2 ∧ parseSemester (TrimSpace text) ≠ 1 ∧
        parseSemester (TrimSpace text) ≠ 2) ∨
      ((getUserState store).Step = 3 ∧ parseLesson (TrimSpace text) ≤ 0) ∨
      ((getUserState store).Step = 4 ∧ isChineseCharacter (TrimSpace text) = false) →
      stepStore fs store text = store) := by
  have hm1 : (getUserState store).Step = -1 → TrimSpace text ≠ "照用上次設定" →
      TrimSpace text ≠ "修改課程" → TrimSpace text ≠ "重新設定" →
      handleTextMessage fs store text =
        { ops := [], reply := Reply.text "請選擇：照用上次設定、修改課程、或重新設定" } := by
    intro hs h1 h2 h3
    unfold handleTextMessage handleCumulativeQueryMode
    simp [hexit, hmode, hs, h1, h2, h3, replyMessage]
  have h0 : (getUserState store).Step = 0 → TrimSpace text ≠ "康軒" →
      TrimSpace text ≠ "南一" → TrimSpace text ≠ "翰林" →
      handleTextMessage fs store text =
        { ops := [], reply := Reply.text "請選擇正確的出版社：康軒、南一、翰林" } := by
    intro hs h1 h2 h3
    unfold handleTextMessage handleCumulativeQueryMode
    simp [hexit, hmode, hs, h1, h2, h3, replyMessage]
  have h1 : (getUserState store).Step = 1 →
      ¬ (1 ≤ parseGrade (TrimSpace text) ∧ parseGrade (TrimSpace text) ≤ 6) →
      handleTextMessage fs store text =
        { ops := [], reply := Reply.text "請輸入正確的年級數字（1-6）" } := by
    intro hs hg
    have hg' : ¬ (parseGrade (TrimSpace text) > 0 ∧ parseGrade (TrimSpace text) ≤ 6) := by
      intro h; exact hg ⟨by omega, h.2⟩
    unfold handleTextMessage handleCumulativeQueryMode
    simp only [hexit, hmode, hs, if_false, if_true, hg']
    simp [replyMessage]
  have h2 : (getUserState store).Step = 2 → parseSemester (TrimSpace text) ≠ 1 →
      parseSemester (TrimSpace text) ≠ 2 →
      handleTextMessage fs store text =
        { ops := [], reply := Reply.text "請選擇正確的學期：1（上學期）或 2（下學期）" } := by
    intro hs ha hb
    unfold handleTextMessage handleCumulativeQueryMode
    simp [hexit, hmode, hs, ha, hb, replyMessage]
  have h3 : (getUserState store).Step = 3 → parseLesson (TrimSpace text) ≤ 0 →
      handleTextMessage fs store text =
        { ops := [], reply := Reply.text "請輸入正確的課次數字" } := by
    intro hs hl
    have hl' : ¬ parseLesson (TrimSpace text) > 0 := by omega
    unfold handleTextMessage handleCumulativeQueryMode
    simp only [hexit, hmode, hs, if_false, if_true, hl']
    simp [replyMessage]
  have h4 : (getUserState store).Step = 4 → isChineseCharacter (TrimSpace text) = false →
      handleTextMessage fs store text =
        { ops := [], reply := Reply.text "請輸入中文字詞進行查詢" } := by
    intro hs hc
    unfold handleTextMessage handleCumulativeQueryMode
    simp [hexit, hmode, hs, hc, replyMessage]
  refine ⟨⟨hm1, h0, h1, h2, h3, h4⟩, ?_⟩
  intro hcase
  unfold stepStore
  rcases hcase with ⟨hs, a, b, c⟩ | ⟨hs, a, b, c⟩ | ⟨hs, a⟩ | ⟨hs, a, b⟩ | ⟨hs, a⟩ | ⟨hs, a⟩
  · rw [hm1 hs a b c]; rfl
  · rw [h0 hs a b c]; rfl
  · rw [h1 hs a]; rfl
  · rw [h2 hs a b]; rfl
  · rw [h3 hs a]; rfl
  · rw [h4 hs a]; rfl

theorem invalid_input_reprompts_witness :
    handleTextMessage sampleFirestore
        (some { Mode := "cumulative_query", Publisher := "康軒", Grade := 0, Semester := 0,
                Lesson := 0, Step := 1, PreferredPublisher := "", PreferredGrade := 0,
                PreferredSemester := 0 }) "七" =
      { ops := [], reply := Reply.text "請輸入正確的年級數字（1-6）" } :=
  (invalid_input_reprompts sampleFirestore
    (some { Mode := "cumulative_query", Publisher := "康軒", Grade := 0, Semester := 0,
            Lesson := 0, Step := 1, PreferredPublisher := "", PreferredGrade := 0,
            PreferredSemester := 0 }) "七" (by decide) (by decide)).1.2.2.1 (by decide) (by decide)

/-- C7: outside the query mode, a text that trims neither to the exit keyword
nor to a word of the command vocabulary issues no store operation (no write,
no delete) and is answered with the unknown-command message. -/
theorem unknown_command_no_store_op (fs : Firestore) (store : Store) (text : String)
    (hmode : (getUserState store).Mode ≠ "cumulative_query")
    (hexit : TrimSpace text ≠ "退出")
    (hvocab : TrimSpace text ∉
      ["查詢累積字詞", "重設偏好", "重設設定", "清除記憶", "使用者課程設定", "查看設定", "我的設定",
       "印字帖", "平板學寫字", "幫助", "help", "說明"]) :
    handleTextMessage fs store text =
      { ops := [],
        reply := Reply.text
          "抱歉，我不太理解您的意思。請輸入「幫助」查看使用說明，或輸入「查詢累積字詞」開始查詢。" } ∧
    stepStore fs store text = store := by
  have hout : handleTextMessage fs store text =
      { ops := [],
        reply := Reply.text
          "抱歉，我不太理解您的意思。請輸入「幫助」查看使用說明，或輸入「查詢累積字詞」開始查詢。" } := by
    simp only [List.mem_cons, List.mem_singleton, List.not_mem_nil, or_false, not_or] at hvocab
    obtain ⟨a1, a2, a3, a4, a5, a6, a7, a8, a9, a10, a11, a12⟩ := hvocab
    unfold handleTextMessage
    simp [hexit, hmode, a1, a2, a3, a4, a5, a6, a7, a8, a9, a10, a11, a12,
      handleUnknownMessage, replyMessage]
  refine ⟨hout, ?_⟩
  unfold stepStore
  rw [hout]; rfl

theorem unknown_command_no_store_op_witness :
    handleTextMessage sampleFirestore (stepStore sampleFirestore sampleWizardStore "退出")
        " Help " =
      { ops := [],
        reply := Reply.text
          "抱歉，我不太理解您的意思。請輸入「幫助」查看使用說明，或輸入「查詢累積字詞」開始查詢。" } :=
  (unknown_command_no_store_op sampleFirestore
    (stepStore sampleFirestore sampleWizardStore "退出") " Help "
    (by decide) (by decide) (by decide)).1

/-! ## Unknown step -/

/-- C8, as stated, fails on the exit keyword: at `Step = 99` in query mode the
text 退出 is caught by the exit branch, which writes the cleared record (the
remembered triple kept) instead of deleting the document, and replies with the
exit confirmation instead of the restart message. -/
theorem corrupted_step_exit_counterexample :
    handleTextMessage sampleFirestore
        (some { Mode := "cumulative_query", Publisher := "康軒", Grade := 3, Semester := 1,
                Lesson := 5, Step := 99, PreferredPublisher := "康軒", PreferredGrade := 3,
                PreferredSemester := 1 }) "退出" ≠
      { ops := [StoreOp.clear], reply := Reply.text "查詢過程出現錯誤，請重新開始" } ∧
    handleTextMessage sampleFirestore
        (some { Mode := "cumulative_query", Publisher := "康軒", Grade := 3, Semester := 1,
                Lesson := 5, Step := 99, PreferredPublisher := "康軒", PreferredGrade := 3,
                PreferredSemester := 1 }) "退出" =
      { ops := [StoreOp.set
          { Mode := "", Publisher := "", Grade := 0, Semester := 0, Lesson := 0, Step := 0,
            PreferredPublisher := "康軒", PreferredGrade := 3, PreferredSemester := 1 }],
        reply := Reply.text "已退出當前模式，請輸入新的指令。" } ∧
    getUserState (stepStore sampleFirestore
        (some { Mode := "cumulative_query", Publisher := "康軒", Grade := 3, Semester := 1,
                Lesson := 5, Step := 99, PreferredPublisher := "康軒", PreferredGrade := 3,
                PreferredSemester := 1 }) "退出") ≠ emptyState := by
  decide

/-- C8, amended: in query mode with `Step` outside -1..4, every text that does
not trim to the exit keyword makes the handler issue exactly one store
operation, the delete of the document, so that the next read yields the
all-default record, and the reply is the restart message. -/
theorem corrupted_step_clears (fs : Firestore) (store : Store) (text : String)
    (hmode : (getUserState store).Mode = "cumulative_query")
    (hstep : (getUserState store).Step < -1 ∨ 4 < (getUserState store).Step)
    (hexit : TrimSpace text ≠ "退出") :
    handleTextMessage fs store text =
      { ops := [StoreOp.clear], reply := Reply.text "查詢過程出現錯誤，請重新開始" } ∧
    stepStore fs store text = none ∧
    getUserState (stepStore fs store text) = emptyState := by
  have hout : handleTextMessage fs store text =
      { ops := [StoreOp.clear], reply := Reply.text "查詢過程出現錯誤，請重新開始" } := by
    have e1 : (getUserState store).Step ≠ -1 := by omega
    have e2 : (getUserState store).Step ≠ 0 := by omega
    have e3 : (getUserState store).Step ≠ 1 := by omega
    have e4 : (getUserState store).Step ≠ 2 := by omega
    have e5 : (getUserState store).Step ≠ 3 := by omega
    have e6 : (getUserState store).Step ≠ 4 := by omega
    unfold handleTextMessage handleCumulativeQueryMode
    simp only [hexit, hmode, e1, e2, e3, e4, e5, e6, if_false, if_true]
  have hs : stepStore fs store text = none := by
    unfold stepStore
    rw [hout]; rfl
  exact ⟨hout, hs, by rw [hs]; rfl⟩

theorem corrupted_step_clears_witness :
    stepStore sampleFirestore
        (some { Mode := "cumulative_query", Publisher := "康軒", Grade := 3, Semester := 1,
                Lesson := 5, Step := 99, PreferredPublisher := "康軒", PreferredGrade := 3,
                PreferredSemester := 1 }) "我好" = none :=
  (corrupted_step_clears sampleFirestore
    (some { Mode := "cumulative_query", Publisher := "康軒", Grade := 3, Semester := 1,
            Lesson := 5, Step := 99, PreferredPublisher := "康軒", PreferredGrade := 3,
            PreferredSemester := 1 }) "我好" (by decide) (by decide) (by decide)).2.1

/-! ## Grade and semester entry -/

/-- C9: grade entry. At step 1 of the query mode, for each d in 1..6 the CJK
numeral of d and the Arabic digit of d give the same outcome: one write of the
record read with `Grade = d` and `Step = 2`, every other field as read, and the
semester prompt. -/
theorem grade_numeral_same_as_digit (fs : Firestore) (store : Store)
    (digit numeral : String) (d : Int)
    (hmode : (getUserState store).Mode = "cumulative_query")
    (hstep : (getUserState store).Step = 1)
    (hd : (digit, numeral, d) ∈
      [("1", "一", (1 : Int)), ("2", "二", 2), ("3", "三", 3), ("4", "四", 4), ("5", "五", 5),
       ("6", "六", 6)]) :
    handleTextMessage fs store numeral = handleTextMessage fs store digit ∧
    handleTextMessage fs store numeral =
      { ops := [StoreOp.set
          { Mode := (getUserState store).Mode,
            Publisher := (getUserState store).Publisher,
            Grade := d,
            Semester := (getUserState store).Semester,
            Lesson := (getUserState store).Lesson,
            Step := 2,
            PreferredPublisher := (getUserState store).PreferredPublisher,
            PreferredGrade := (getUserState store).PreferredGrade,
            PreferredSemester := (getUserState store).PreferredSemester }],
        reply := Reply.withQuickReply
          ("已選擇：" ++ (getUserState store).Publisher ++ " " ++ fmtInt d ++ "年級\n\n請選擇學期：")
          [ { Label := "上學期", Text := "1" }, { Label := "下學期", Text := "2" } ] } := by
  have key : ∀ u : String, TrimSpace u ≠ "退出" → parseGrade (TrimSpace u) = d →
      handleTextMessage fs store u =
        { ops := [StoreOp.set
            { Mode := (getUserState store).Mode,
              Publisher := (getUserState store).Publisher,
              Grade := d,
              Semester := (getUserState store).Semester,
              Lesson := (getUserState store).Lesson,
              Step := 2,
              PreferredPublisher := (getUserState store).PreferredPublisher,
              PreferredGrade := (getUserState store).PreferredGrade,
              PreferredSemester := (getUserState store).PreferredSemester }],
          reply := Reply.withQuickReply
            ("已選擇：" ++ (getUserState store).Publisher ++ " " ++ fmtInt d ++
              "年級\n\n請選擇學期：")
            [ { Label := "上學期", Text := "1" }, { Label := "下學期", Text := "2" } ] } := by
    intro u hexit hg
    have hrange : d > 0 ∧ d ≤ 6 := by
      simp only [List.mem_cons, Prod.mk.injEq, List.mem_singleton, List.not_mem_nil,
        or_false] at hd
      omega
    unfold handleTextMessage handleCumulativeQueryMode
    simp only [hexit, hmode, hstep, hg, hrange, if_false, if_true]
    simp [semesterQuickReply]
  simp only [List.mem_cons, Prod.mk.injEq, List.mem_singleton, List.not_mem_nil, or_false] at hd
  rcases hd with ⟨rfl, rfl, rfl⟩ | ⟨rfl, rfl, rfl⟩ | ⟨rfl, rfl, rfl⟩ | ⟨rfl, rfl, rfl⟩ |
    ⟨rfl, rfl, rfl⟩ | ⟨rfl, rfl, rfl⟩ <;>
    exact ⟨(key _ (by decide) (by decide)).trans (key _ (by decide) (by decide)).symm,
      key _ (by decide) (by decide)⟩

theorem grade_numeral_same_as_digit_witness :
    handleTextMessage sampleFirestore
        (some { Mode := "cumulative_query", Publisher := "康軒", Grade := 0, Semester := 0,
                Lesson := 0, Step := 1, PreferredPublisher := "", PreferredGrade := 0,
                PreferredSemester := 0 }) "三" =
      handleTextMessage sampleFirestore
        (some { Mode := "cumulative_query", Publisher := "康軒", Grade := 0, Semester := 0,
                Lesson := 0, Step := 1, PreferredPublisher := "", PreferredGrade := 0,
                PreferredSemester := 0 }) "3" :=
  (grade_numeral_same_as_digit sampleFirestore
    (some { Mode := "cumulative_query", Publisher := "康軒", Grade := 0, Semester := 0,
            Lesson := 0, Step := 1, PreferredPublisher := "", PreferredGrade := 0,
            PreferredSemester := 0 }) "3" "三" 3 (by decide) (by decide) (by decide)).1

/-- C10: semester entry. At step 2 of the query mode, each of the texts 1, 上,
上學期, 2, 下, 下學期 parses to a semester in 1, 2, and the handler issues one
write: the record read with `Semester` set to it, `Step = 3`, and the
remembered triple set to the working publisher, the working grade and that
semester; `Mode`, `Publisher`, `Grade` and `Lesson` are as read. -/
theorem semester_entry (fs : Firestore) (store : Store) (u : String)
    (hmode : (getUserState store).Mode = "cumulative_query")
    (hstep : (getUserState store).Step = 2)
    (hu : u ∈ ["1", "上", "上學期", "2", "下", "下學期"]) :
    (parseSemester u = 1 ∨ parseSemester u = 2) ∧
    (handleTextMessage fs store u).ops =
      [StoreOp.set
        { Mode := (getUserState store).Mode,
          Publisher := (getUserState store).Publisher,
          Grade := (getUserState store).Grade,
          Semester := parseSemester u,
          Lesson := (getUserState store).Lesson,
          Step := 3,
          PreferredPublisher := (getUserState store).Publisher,
          PreferredGrade := (getUserState store).Grade,
          PreferredSemester := parseSemester u }] := by
  have key : TrimSpace u = u ∧ u ≠ "退出" ∧ (parseSemester u = 1 ∨ parseSemester u = 2) := by
    simp only [List.mem_cons, List.mem_singleton, List.not_mem_nil, or_false] at hu
    rcases hu with rfl | rfl | rfl | rfl | rfl | rfl <;> decide
  obtain ⟨ht, hexit, hsem⟩ := key
  refine ⟨hsem, ?_⟩
  unfold handleTextMessage handleCumulativeQueryMode
  simp only [ht, hexit, hmode, hstep, hsem, if_false, if_true]
  simp

theorem semester_entry_witness :
    (handleTextMessage sampleFirestore
        (some { Mode := "cumulative_query", Publisher := "南一", Grade := 4, Semester := 0,
                Lesson := 0, Step := 2, PreferredPublisher := "康軒", PreferredGrade := 1,
                PreferredSemester := 1 }) "下學期").ops =
      [StoreOp.set
        { Mode := "cumulative_query", Publisher := "南一", Grade := 4, Semester := 2,
          Lesson := 0, Step := 3, PreferredPublisher := "南一", PreferredGrade := 4,
          PreferredSemester := 2 }] :=
  (semester_entry sampleFirestore
    (some { Mode := "cumulative_query", Publisher := "南一", Grade := 4, Semester := 0,
            Lesson := 0, Step := 2, PreferredPublisher := "康軒", PreferredGrade := 1,
            PreferredSemester := 1 }) "下學期" (by decide) (by decide) (by decide)).2

/-! ## Lesson entry and the query step -/

/-- C11: lesson entry. At step 3 of the query mode, a text whose trimmed form
parses to a positive lesson number n makes the handler issue one write: the
record read with `Lesson = n`, `Step = 4` and the remembered triple set to the
working publisher, grade and semester; `Mode`, `Publisher`, `Grade` and
`Semester` are as read. When the remembered triple of the record read already
equals its working triple, the remembered triple read back is unchanged. -/
theorem lesson_entry (fs : Firestore) (store : Store) (text : String) (n : Int)
    (hmode : (getUserState store).Mode = "cumulative_query")
    (hstep : (getUserState store).Step = 3)
    (hn : parseLesson (TrimSpace text) = n) (hpos : n > 0) :
    handleTextMessage fs store text =
      { ops := [StoreOp.set
          { Mode := (getUserState store).Mode,
            Publisher := (getUserState store).Publisher,
            Grade := (getUserState store).Grade,
            Semester := (getUserState store).Semester,
            Lesson := n,
            Step := 4,
            PreferredPublisher := (getUserState store).Publisher,
            PreferredGrade := (getUserState store).Grade,
            PreferredSemester := (getUserState store).Semester }],
        reply := Reply.text
          ("已設定：" ++ (getUserState store).Publisher ++ " " ++
            fmtInt (getUserState store).Grade ++ "年級" ++
            semesterText (getUserState store).Semester ++ "第" ++ fmtInt n ++
            "課\n\n✅ 已更新偏好設定\n\n請輸入要查詢的字詞（例如：我好喜歡吃飯配菜）：") } ∧
    (preferred (getUserState store) =
        ((getUserState store).Publisher, (getUserState store).Grade,
          (getUserState store).Semester) →
      preferred (getUserState (stepStore fs store text)) = preferred (getUserState store)) := by
  have hexit : TrimSpace text ≠ "退出" := by
    intro h
    rw [h] at hn
    have h0 : parseLesson "退出" = 0 := by decide
    omega
  constructor
  · unfold handleTextMessage handleCumulativeQueryMode
    simp only [hexit, hmode, hstep, hn, hpos, if_false, if_true]
    simp
  · intro hp
    unfold stepStore handleTextMessage handleCumulativeQueryMode
    simp only [hexit, hmode, hstep, hn, hpos, if_false, if_true]
    rw [hp]
    rfl

theorem lesson_entry_witness :
    handleTextMessage sampleFirestore
        (some { Mode := "cumulative_query", Publisher := "南一", Grade := 4, Semester := 2,
                Lesson := 0, Step := 3, PreferredPublisher := "康軒", PreferredGrade := 1,
                PreferredSemester := 1 }) " 12 " =
      { ops := [StoreOp.set
          { Mode := "cumulative_query", Publisher := "南一", Grade := 4, Semester := 2,
            Lesson := 12, Step := 4, PreferredPublisher := "南一", PreferredGrade := 4,
            PreferredSemester := 2 }],
        reply := Reply.text
          ("已設定：" ++ "南一" ++ " " ++ fmtInt 4 ++ "年級" ++ semesterText 2 ++ "第" ++ fmtInt 12 ++
            "課\n\n✅ 已更新偏好設定\n\n請輸入要查詢的字詞（例如：我好喜歡吃飯配菜）：") } :=
  (lesson_entry sampleFirestore
    (some { Mode := "cumulative_query", Publisher := "南一", Grade := 4, Semester := 2,
            Lesson := 0, Step := 3, PreferredPublisher := "康軒", PreferredGrade := 1,
            PreferredSemester := 1 }) " 12 " 12 (by decide) (by decide) (by decide)
    (by decide)).1

/-- C12, as stated, fails: the length test of `isChineseCharacter` counts all
code points of the text, not its ideographs. The text 我abcdefghij has one
ideograph (so at most 10 of them) and 11 code points; it is rejected, and at
step 4 it gets the re-prompt instead of a query. -/
theorem ideograph_count_counterexample :
    (∃ c ∈ "我abcdefghij".data, isHan c = true) ∧
    ("我abcdefghij".data.filter isHan).length ≤ 10 ∧
    isChineseCharacter "我abcdefghij" = false ∧
    handleTextMessage sampleFirestore sampleWizardStore "我abcdefghij" =
      { ops := [], reply := Reply.text "請輸入中文字詞進行查詢" } := by
  refine ⟨⟨(Char.ofNat 0x6211), by decide, by decide⟩, by decide, by decide, by decide⟩

/-- C12, amended: `isChineseCharacter` holds of a text exactly when the text
has at least one code point of the script Han and at most 10 code points in
all. At step 4 of the query mode, a text that does not trim to the exit keyword
is passed to `performCumulativeQuery` when its trimmed form satisfies
`isChineseCharacter`, and gets the re-prompt 請輸入中文字詞進行查詢 otherwise. -/
theorem query_phrase_acceptance (fs : Firestore) (store : Store) (text : String)
    (hmode : (getUserState store).Mode = "cumulative_query")
    (hstep : (getUserState store).Step = 4)
    (hexit : TrimSpace text ≠ "退出") :
    (∀ u : String, isChineseCharacter u = true ↔
      (∃ c ∈ u.data, isHan c = true) ∧ u.data.length ≤ 10) ∧
    (isChineseCharacter (TrimSpace text) = true →
      handleTextMessage fs store text =
        performCumulativeQuery fs (TrimSpace text) (getUserState store)) ∧
    (isChineseCharacter (TrimSpace text) = false →
      handleTextMessage fs store text =
        { ops := [], reply := Reply.text "請輸入中文字詞進行查詢" }) := by
  refine ⟨?_, ?_, ?_⟩
  · intro u
    simp [isChineseCharacter, List.any_eq_true]
  · intro h
    unfold handleTextMessage handleCumulativeQueryMode
    simp [hexit, hmode, hstep, h]
  · intro h
    unfold handleTextMessage handleCumulativeQueryMode
    simp [hexit, hmode, hstep, h, replyMessage]

theorem query_phrase_acceptance_witness :
    handleTextMessage sampleFirestore sampleWizardStore "我好嗎" =
      performCumulativeQuery sampleFirestore (TrimSpace "我好嗎") (getUserState sampleWizardStore) :=
  (query_phrase_acceptance sampleFirestore sampleWizardStore "我好嗎" (by decide) (by decide)
    (by decide)).2.1 (by decide)

/-- C13: step 4 is a self-loop. In query mode at step 4, for every text that
does not trim to the exit keyword and whatever the catalog read yields, the
handler issues no store operation, so the document (step, coordinate and
remembered triple) is what it was. When the catalog read fails and the phrase
is accepted, the reply is the fixed text 查詢過程中發生錯誤，請稍後再試, the same
for every error. -/
theorem query_step_self_loop (fs : Firestore) (store : Store) (text : String)
    (hmode : (getUserState store).Mode = "cumulative_query")
    (hstep : (getUserState store).Step = 4)
    (hexit : TrimSpace text ≠ "退出") :
    (handleTextMessage fs store text).ops = [] ∧
    stepStore fs store text = store ∧
    (∀ err : String, fs.lessons = Except.error err →
      isChineseCharacter (TrimSpace text) = true →
      (handleTextMessage fs store text).reply = Reply.text "查詢過程中發生錯誤，請稍後再試") := by
  have hops : (handleTextMessage fs store text).ops = [] := by
    unfold handleTextMessage handleCumulativeQueryMode
    by_cases hacc : isChineseCharacter (TrimSpace text) = true
    · simp [hexit, hmode, hstep, hacc, performCumulativeQuery_ops]
    · simp [hexit, hmode, hstep, hacc, replyMessage]
  refine ⟨hops, ?_, ?_⟩
  · unfold stepStore
    rw [hops]
    rfl
  · intro err herr hacc
    unfold handleTextMessage handleCumulativeQueryMode
    simp [hexit, hmode, hstep, hacc, performCumulativeQuery, getCumulativeCharacters,
      queryLessons, herr, replyMessage]

theorem query_step_self_loop_witness :
    stepStore { lessons := Except.error "rpc error: code = Unavailable" } sampleWizardStore
        "我好" = sampleWizardStore ∧
    (handleTextMessage { lessons := Except.error "rpc error: code = Unavailable" }
        sampleWizardStore "我好").reply = Reply.text "查詢過程中發生錯誤，請稍後再試" :=
  ⟨(query_step_self_loop { lessons := Except.error "rpc error: code = Unavailable" }
      sampleWizardStore "我好" (by decide) (by decide) (by decide)).2.1,
    (query_step_self_loop { lessons := Except.error "rpc error: code = Unavailable" }
      sampleWizardStore "我好" (by decide) (by decide) (by decide)).2.2 _ rfl (by decide)⟩

/-! ## Cumulative aggregator -/

/-- C14: the ordering predicate. For all integers, `isInRange` holds exactly
when the lesson coordinate is at most the target coordinate in the
lexicographic order on triples of integers. -/
theorem isInRange_iff_lex (lessonGrade lessonSemester lessonNumber grade semester lesson : Int) :
    isInRange lessonGrade lessonSemester lessonNumber grade semester lesson = true ↔
      toLex (lessonGrade, toLex (lessonSemester, lessonNumber)) ≤
        toLex (grade, toLex (semester, lesson)) := by
  rw [Prod.Lex.le_iff, Prod.Lex.le_iff]
  simp only [isInRange, Bool.or_eq_true, Bool.and_eq_true, decide_eq_true_eq]
  constructor
  · rintro ((h | ⟨h1, h2⟩) | ⟨⟨h1, h2⟩, h3⟩)
    · exact Or.inl h
    · exact Or.inr ⟨h1, Or.inl h2⟩
    · exact Or.inr ⟨h1, Or.inr ⟨h2, h3⟩⟩
  · rintro (h | ⟨h1, h2 | ⟨h2, h3⟩⟩)
    · exact Or.inl (Or.inl h)
    · exact Or.inl (Or.inr ⟨h1, h2⟩)
    · exact Or.inr ⟨⟨h1, h2⟩, h3⟩

/-- `isInRange` in terms of integer comparisons. -/
theorem isInRange_eq_true (a b c g s l : Int) :
    isInRange a b c g s l = true ↔ a < g ∨ (a = g ∧ b < s) ∨ (a = g ∧ b = s ∧ c ≤ l) := by
  simp only [isInRange, Bool.or_eq_true, Bool.and_eq_true, decide_eq_true_eq]
  tauto

/-- The lexicographic order on coordinates in terms of integer comparisons. -/
theorem coord_le_iff (a b c g s l : Int) :
    toLex (a, toLex (b, c)) ≤ toLex (g, toLex (s, l)) ↔
      a < g ∨ (a = g ∧ b < s) ∨ (a = g ∧ b = s ∧ c ≤ l) := by
  rw [Prod.Lex.le_iff, Prod.Lex.le_iff]
  simp only
  tauto

/-- Membership after `insertChar`. -/
theorem mem_insertChar (acc : List String) (s x : String) :
    x ∈ insertChar acc s ↔ x ∈ acc ∨ x = s := by
  unfold insertChar
  split_ifs with h
  · constructor
    · exact Or.inl
    · rintro (h1 | rfl)
      · exact h1
      · exact h
  · simp

/-- `insertChar` keeps a list free of duplicates. -/
theorem nodup_insertChar (acc : List String) (s : String) (h : acc.Nodup) :
    (insertChar acc s).Nodup := by
  unfold insertChar
  split_ifs with hs
  · exact h
  · rw [List.nodup_append]
    refine ⟨h, List.nodup_singleton s, ?_⟩
    intro a ha hb
    rw [List.mem_singleton] at hb
    subst hb
    exact hs ha

/-- `addCharacter` inserts the token of a well-formed entry and skips the rest. -/
theorem addCharacter_eq (acc : List String) (v : FsValue) :
    addCharacter acc v =
      match charToken v with
      | some charStr => insertChar acc charStr
      | none => acc := by
  unfold addCharacter charToken
  cases v with
  | map m =>
    simp only
    cases m.lookup "character" with
    | none => rfl
    | some w => cases w <;> rfl
  | int n => rfl
  | str s => rfl
  | arr items => rfl
  | other => rfl

/-- Membership after one `addCharacter`. -/
theorem mem_addCharacter (acc : List String) (v : FsValue) (x : String) :
    x ∈ addCharacter acc v ↔ x ∈ acc ∨ charToken v = some x := by
  rw [addCharacter_eq]
  cases h : charToken v with
  | none => simp
  | some s =>
    simp only [mem_insertChar, Option.some.injEq]
    constructor
    · rintro (h1 | rfl)
      · exact Or.inl h1
      · exact Or.inr rfl
    · rintro (h1 | rfl)
      · exact Or.inl h1
      · exact Or.inr rfl

/-- Membership after the loop over one `characters` list. -/
theorem mem_foldl_addCharacter (chars : List FsValue) (acc : List String) (x : String) :
    x ∈ chars.foldl addCharacter acc ↔ x ∈ acc ∨ x ∈ chars.filterMap charToken := by
  induction chars generalizing acc with
  | nil => simp
  | cons v rest ih =>
    rw [List.foldl_cons, ih, mem_addCharacter, List.mem_filterMap]
    simp only [List.mem_filterMap, List.mem_cons]
    constructor
    · rintro ((h | h) | ⟨w, hw, hx⟩)
      · exact Or.inl h
      · exact Or.inr ⟨v, Or.inl rfl, h⟩
      · exact Or.inr ⟨w, Or.inr hw, hx⟩
    · rintro (h | ⟨w, rfl | hw, hx⟩)
      · exact Or.inl (Or.inl h)
      · exact Or.inl (Or.inr hx)
      · exact Or.inr ⟨w, hw, hx⟩

/-- The loop over one `characters` list keeps the key list free of duplicates. -/
theorem nodup_foldl_addCharacter (chars : List FsValue) (acc : List String) (h : acc.Nodup) :
    (chars.foldl addCharacter acc).Nodup := by
  induction chars generalizing acc with
  | nil => exact h
  | cons v rest ih =>
    rw [List.foldl_cons]
    apply ih
    rw [addCharacter_eq]
    cases charToken v with
    | none => exact h
    | some s => exact nodup_insertChar acc s h

/-- One round of the document loop, in terms of `lessonCoord` and the
`characters` field. -/
theorem addLesson_eq (grade semester lesson : Int) (acc : List String) (data : DocData) :
    addLesson grade semester lesson acc data =
      match lessonCoord data with
      | some (a, b, c) =>
        if isInRange a b c grade semester lesson then
          match data.lookup "characters" with
          | some (FsValue.arr chars) => chars.foldl addCharacter acc
          | _ => acc
        else acc
      | none => acc := by
  unfold addLesson lessonCoord
  cases hg : data.lookup "grade" with
  | none => rfl
  | some vg =>
    cases vg with
    | int a =>
      cases hs : data.lookup "semester" with
      | none => rfl
      | some vs =>
        cases vs with
        | int b =>
          cases hl : data.lookup "lesson" with
          | none => rfl
          | some vl => cases vl <;> rfl
        | str _ => rfl
        | arr _ => rfl
        | map _ => rfl
        | other => rfl
    | str _ => rfl
    | arr _ => rfl
    | map _ => rfl
    | other => rfl

/-- Membership after one round of the document loop. -/
theorem mem_addLesson (grade semester lesson : Int) (acc : List String) (data : DocData)
    (x : String) :
    x ∈ addLesson grade semester lesson acc data ↔
      x ∈ acc ∨ ∃ a b c, lessonCoord data = some (a, b, c) ∧
        isInRange a b c grade semester lesson = true ∧ x ∈ lessonTokens data := by
  rw [addLesson_eq]
  cases hc : lessonCoord data with
  | none => simp
  | some t =>
    obtain ⟨a, b, c⟩ := t
    simp only [Option.some.injEq, Prod.mk.injEq]
    by_cases hr : isInRange a b c grade semester lesson = true
    · rw [if_pos hr]
      unfold lessonTokens
      cases hch : data.lookup "characters" with
      | none =>
        simp
      | some v =>
        cases v with
        | arr chars =>
          simp only [mem_foldl_addCharacter]
          constructor
          · rintro (h | h)
            · exact Or.inl h
            · exact Or.inr ⟨a, b, c, ⟨rfl, rfl, rfl⟩, hr, h⟩
          · rintro (h | ⟨_, _, _, _, _, h⟩)
            · exact Or.inl h
            · exact Or.inr h
        | int _ => simp
        | str _ => simp
        | map _ => simp
        | other => simp
    · rw [if_neg hr]
      constructor
      · exact Or.inl
      · rintro (h | ⟨a', b', c', ⟨rfl, rfl, rfl⟩, hr', _⟩)
        · exact h
        · exact absurd hr' hr

/-- One round of the document loop keeps the key list free of duplicates. -/
theorem nodup_addLesson (grade semester lesson : Int) (acc : List String) (data : DocData)
    (h : acc.Nodup) : (addLesson grade semester lesson acc data).Nodup := by
  rw [addLesson_eq]
  cases lessonCoord data with
  | none => exact h
  | some t =>
    obtain ⟨a, b, c⟩ := t
    simp only
    split_ifs
    · cases data.lookup "characters" with
      | none => exact h
      | some v =>
        cases v with
        | arr chars => exact nodup_foldl_addCharacter chars acc h
        | int _ => exact h
        | str _ => exact h
        | map _ => exact h
        | other => exact h
    · exact h

/-- Membership after the loop over the documents. -/
theorem mem_foldl_addLesson (grade semester lesson : Int) (docs : List DocData)
    (acc : List String) (x : String) :
    x ∈ docs.foldl (addLesson grade semester lesson) acc ↔
      x ∈ acc ∨ ∃ data ∈ docs, ∃ a b c, lessonCoord data = some (a, b, c) ∧
        isInRange a b c grade semester lesson = true ∧ x ∈ lessonTokens data := by
  induction docs generalizing acc with
  | nil => simp
  | cons d rest ih =>
    rw [List.foldl_cons, ih, mem_addLesson]
    simp only [List.mem_cons]
    constructor
    · rintro ((h | h) | ⟨w, hw, hx⟩)
      · exact Or.inl h
      · exact Or.inr ⟨d, Or.inl rfl, h⟩
      · exact Or.inr ⟨w, Or.inr hw, hx⟩
    · rintro (h | ⟨w, rfl | hw, hx⟩)
      · exact Or.inl (Or.inl h)
      · exact Or.inl (Or.inr hx)
      · exact Or.inr ⟨w, hw, hx⟩

/-- The loop over the documents keeps the key list free of duplicates. -/
theorem nodup_foldl_addLesson (grade semester lesson : Int) (docs : List DocData)
    (acc : List String) (h : acc.Nodup) :
    (docs.foldl (addLesson grade semester lesson) acc).Nodup := by
  induction docs generalizing acc with
  | nil => exact h
  | cons d rest ih =>
    rw [List.foldl_cons]
    exact ih _ (nodup_addLesson grade semester lesson acc d h)

/-- When the catalog read succeeds, `getCumulativeCharacters` succeeds with the
result of the document loop over the documents of the publisher. -/
theorem getCumulativeCharacters_ok (docs : List DocData) (publisher : String)
    (grade semester lesson : Int) :
    getCumulativeCharacters { lessons := Except.ok docs } publisher grade semester lesson =
      Except.ok ((docs.filter (ofPublisher publisher)).foldl
        (addLesson grade semester lesson) []) := by
  unfold getCumulativeCharacters queryLessons
  simp only
  have : (fun data : DocData =>
      match data.lookup "publisher" with
      | some (FsValue.str p) => decide (p = publisher)
      | _ => false) = ofPublisher publisher := by
    funext data
    unfold ofPublisher
    rfl
  rw [this]

/-- C15: aggregator monotonicity. For every catalog, publisher and coordinates
with (g1, s1, l1) at most (g2, s2, l2) in the lexicographic order, whenever
`getCumulativeCharacters` returns a list for (g1, s1, l1) it returns one for
(g2, s2, l2) too, and every character of the former is in the latter. -/
theorem cumulative_monotone (fs : Firestore) (publisher : String) (g₁ s₁ l₁ g₂ s₂ l₂ : Int)
    (result₁ : List String)
    (hle : toLex (g₁, toLex (s₁, l₁)) ≤ toLex (g₂, toLex (s₂, l₂)))
    (h₁ : getCumulativeCharacters fs publisher g₁ s₁ l₁ = Except.ok result₁) :
    ∃ result₂, getCumulativeCharacters fs publisher g₂ s₂ l₂ = Except.ok result₂ ∧
      ∀ x ∈ result₁, x ∈ result₂ := by
  obtain ⟨lessons⟩ := fs
  cases lessons with
  | error err => simp [getCumulativeCharacters, queryLessons] at h₁
  | ok docs =>
    rw [getCumulativeCharacters_ok] at h₁ ⊢
    refine ⟨_, rfl, ?_⟩
    injection h₁ with h₁
    subst h₁
    intro x hx
    rw [mem_foldl_addLesson] at hx ⊢
    rcases hx with hx | ⟨data, hd, a, b, c, hc, hr, ht⟩
    · exact Or.inl hx
    · refine Or.inr ⟨data, hd, a, b, c, hc, ?_, ht⟩
      rw [coord_le_iff] at hle
      rw [isInRange_eq_true] at hr ⊢
      omega

theorem cumulative_monotone_witness :
    ∃ result₂, getCumulativeCharacters sampleFirestore "康軒" 2 1 3 = Except.ok result₂ ∧
      ∀ x ∈ ["我", "好"], x ∈ result₂ :=
  cumulative_monotone sampleFirestore "康軒" 1 1 1 2 1 3 ["我", "好"]
    ((coord_le_iff 1 1 1 2 1 3).mpr (by decide)) rfl

/-- C16: the inclusivity boundary. For every catalog, publisher and target
coordinate (g, s, l), the call succeeds with a list such that: a lesson of the
publisher at (g, s, l) has all its well-formed characters in the list; a lesson
at (g, s, l + 1) leaves the accumulated set as it is, and a character that the
publisher teaches only in lessons at (g, s, l + 1) is not in the list. -/
theorem cumulative_boundary (docs : List DocData) (publisher : String) (g s l : Int) :
    ∃ result,
      getCumulativeCharacters { lessons := Except.ok docs } publisher g s l = Except.ok result ∧
      (∀ data ∈ docs, ofPublisher publisher data = true → lessonCoord data = some (g, s, l) →
        ∀ x ∈ lessonTokens data, x ∈ result) ∧
      (∀ data : DocData, lessonCoord data = some (g, s, l + 1) →
        ∀ acc, addLesson g s l acc data = acc) ∧
      (∀ x : String,
        (∀ data ∈ docs, ofPublisher publisher data = true → x ∈ lessonTokens data →
          lessonCoord data = some (g, s, l + 1)) →
        x ∉ result) := by
  refine ⟨_, getCumulativeCharacters_ok docs publisher g s l, ?_, ?_, ?_⟩
  · intro data hd hp hc x hx
    rw [mem_foldl_addLesson]
    refine Or.inr ⟨data, List.mem_filter.mpr ⟨hd, hp⟩, g, s, l, hc, ?_, hx⟩
    rw [isInRange_eq_true]
    omega
  · intro data hc acc
    rw [addLesson_eq, hc]
    have : isInRange g s (l + 1) g s l = false := by
      rw [← Bool.not_eq_true, isInRange_eq_true]
      omega
    simp [this]
  · intro x honly hx
    rw [mem_foldl_addLesson] at hx
    rcases hx with hx | ⟨data, hd, a, b, c, hc, hr, ht⟩
    · simp at hx
    · rw [List.mem_filter] at hd
      have := honly data hd.1 hd.2 ht
      rw [hc] at this
      injection this with this
      simp only [Prod.mk.injEq] at this
      obtain ⟨rfl, rfl, rfl⟩ := this
      rw [isInRange_eq_true] at hr
      omega

/-- C17: the result is a deduplicated set. For every catalog, publisher and
coordinate the call succeeds with a list that holds no token twice, and a token
is in it exactly when it is a well-formed character entry of some catalog
lesson of the publisher whose coordinate is at most the target coordinate in
the lexicographic order. -/
theorem cumulative_result_is_set (docs : List DocData) (publisher : String)
    (grade semester lesson : Int) :
    ∃ result,
      getCumulativeCharacters { lessons := Except.ok docs } publisher grade semester lesson =
        Except.ok result ∧
      result.Nodup ∧
      ∀ x, x ∈ result ↔
        ∃ data ∈ docs, ofPublisher publisher data = true ∧
          ∃ a b c, lessonCoord data = some (a, b, c) ∧
            toLex (a, toLex (b, c)) ≤ toLex (grade, toLex (semester, lesson)) ∧
            x ∈ lessonTokens data := by
  refine ⟨_, getCumulativeCharacters_ok docs publisher grade semester lesson, ?_, ?_⟩
  · exact nodup_foldl_addLesson grade semester lesson _ [] List.nodup_nil
  · intro x
    rw [mem_foldl_addLesson]
    constructor
    · rintro (hx | ⟨data, hd, a, b, c, hc, hr, ht⟩)
      · simp at hx
      · rw [List.mem_filter] at hd
        refine ⟨data, hd.1, hd.2, a, b, c, hc, ?_, ht⟩
        rw [coord_le_iff]
        exact (isInRange_eq_true a b c grade semester lesson).mp hr
    · rintro ⟨data, hd, hp, a, b, c, hc, hle, ht⟩
      refine Or.inr ⟨data, List.mem_filter.mpr ⟨hd, hp⟩, a, b, c, hc, ?_, ht⟩
      rw [coord_le_iff] at hle
      exact (isInRange_eq_true a b c grade semester lesson).mpr hle

/-- Reading a field of a document from which a field has been deleted. -/
theorem lookup_eraseField (key k : String) (data : DocData) :
    (eraseField key data).lookup k = if k = key then none else data.lookup k := by
  unfold eraseField
  induction data with
  | nil => simp
  | cons kv rest ih =>
    obtain ⟨k', v⟩ := kv
    by_cases h1 : k' = key
    · subst h1
      rw [List.filter_cons_of_neg (by simp), ih]
      by_cases h2 : k = k'
      · simp [h2]
      · have : (k == k') = false := by simpa using h2
        simp [h2, List.lookup_cons, this]
    · rw [List.filter_cons_of_pos (by simpa using h1)]
      simp only [List.lookup_cons]
      by_cases h2 : k = k'
      · subst h2
        simp [h1]
      · have : (k == k') = false := by simpa using h2
        rw [this, ih]

/-- Reading a field of a document in which a field has been set. -/
theorem lookup_setField (key k : String) (value : FsValue) (data : DocData) :
    (setField key value data).lookup k = if k = key then some value else data.lookup k := by
  unfold setField
  rw [List.lookup_cons]
  by_cases h : k = key
  · simp [h]
  · have : (k == key) = false := by simpa using h
    rw [this, lookup_eraseField]
    simp [h]

/-- Entries that are not well formed do not change the loop over a
`characters` list. -/
theorem foldl_addCharacter_filter (chars : List FsValue) (acc : List String) :
    (chars.filter wellFormedEntry).foldl addCharacter acc = chars.foldl addCharacter acc := by
  induction chars generalizing acc with
  | nil => rfl
  | cons v rest ih =>
    by_cases h : wellFormedEntry v = true
    · rw [List.filter_cons_of_pos h, List.foldl_cons, List.foldl_cons, ih]
    · rw [List.filter_cons_of_neg h, List.foldl_cons, ih]
      have hnone : charToken v = none := by
        unfold wellFormedEntry at h
        cases hc : charToken v with
        | none => rfl
        | some s => simp [hc] at h
      rw [addCharacter_eq, hnone]

/-- What `cleanLesson` keeps of a document: every field but `characters` is as
it was, and `characters` is a list of well-formed entries or absent. -/
theorem cleanLesson_some (data cleaned : DocData) (h : cleanLesson data = some cleaned) :
    (∀ k : String, k ≠ "characters" → cleaned.lookup k = data.lookup k) ∧
    ((∃ chars, data.lookup "characters" = some (FsValue.arr chars) ∧
        cleaned.lookup "characters" = some (FsValue.arr (chars.filter wellFormedEntry))) ∨
      ((∀ chars, data.lookup "characters" ≠ some (FsValue.arr chars)) ∧
        cleaned.lookup "characters" = none)) := by
  unfold cleanLesson at h
  cases hc : lessonCoord data with
  | none => simp [hc] at h
  | some t =>
    simp only [hc] at h
    cases hch : data.lookup "characters" with
    | none =>
      simp only [hch, Option.some.injEq] at h
      subst h
      exact ⟨fun _ _ => rfl, Or.inr ⟨by simp [hch], hch⟩⟩
    | some v =>
      have herase : (∀ k : String, k ≠ "characters" →
            (eraseField "characters" data).lookup k = data.lookup k) ∧
          (eraseField "characters" data).lookup "characters" = none := by
        constructor
        · intro k hk
          rw [lookup_eraseField, if_neg hk]
        · rw [lookup_eraseField, if_pos rfl]
      cases v with
      | arr chars =>
        simp only [hch, Option.some.injEq] at h
        subst h
        refine ⟨?_, Or.inl ⟨chars, rfl, ?_⟩⟩
        · intro k hk
          rw [lookup_setField, if_neg hk]
        · rw [lookup_setField, if_pos rfl]
      | int n =>
        simp only [hch, Option.some.injEq] at h
        subst h
        exact ⟨herase.1, Or.inr ⟨by simp, herase.2⟩⟩
      | str s =>
        simp only [hch, Option.some.injEq] at h
        subst h
        exact ⟨herase.1, Or.inr ⟨by simp, herase.2⟩⟩
      | map m =>
        simp only [hch, Option.some.injEq] at h
        subst h
        exact ⟨herase.1, Or.inr ⟨by simp, herase.2⟩⟩
      | other =>
        simp only [hch, Option.some.injEq] at h
        subst h
        exact ⟨herase.1, Or.inr ⟨by simp, herase.2⟩⟩

/-- Cleaning a document keeps its coordinate. -/
theorem lessonCoord_cleanLesson (data cleaned : DocData) (h : cleanLesson data = some cleaned) :
    lessonCoord cleaned = lessonCoord data := by
  obtain ⟨hk, _⟩ := cleanLesson_some data cleaned h
  unfold lessonCoord
  rw [hk "grade" (by decide), hk "semester" (by decide), hk "lesson" (by decide)]

/-- Cleaning a document keeps its publisher. -/
theorem ofPublisher_cleanLesson (publisher : String) (data cleaned : DocData)
    (h : cleanLesson data = some cleaned) :
    ofPublisher publisher cleaned = ofPublisher publisher data := by
  obtain ⟨hk, _⟩ := cleanLesson_some data cleaned h
  unfold ofPublisher
  rw [hk "publisher" (by decide)]

/-- A cleaned document has the same effect on the document loop. -/
theorem addLesson_cleanLesson (grade semester lesson : Int) (acc : List String)
    (data cleaned : DocData) (h : cleanLesson data = some cleaned) :
    addLesson grade semester lesson acc cleaned = addLesson grade semester lesson acc data := by
  rw [addLesson_eq, addLesson_eq, lessonCoord_cleanLesson data cleaned h]
  obtain ⟨_, hch⟩ := cleanLesson_some data cleaned h
  cases lessonCoord data with
  | none => rfl
  | some t =>
    obtain ⟨a, b, c⟩ := t
    simp only
    split_ifs
    · rcases hch with ⟨chars, h1, h2⟩ | ⟨h1, h2⟩
      · rw [h1, h2]
        exact foldl_addCharacter_filter chars acc
      · rw [h2]
        cases hd : data.lookup "characters" with
        | none => rfl
        | some v =>
          cases v with
          | arr chars => exact absurd hd (h1 chars)
          | int _ => rfl
          | str _ => rfl
          | map _ => rfl
          | other => rfl
    · rfl

/-- A document that `cleanLesson` drops has no effect on the document loop. -/
theorem addLesson_of_cleanLesson_none (grade semester lesson : Int) (acc : List String)
    (data : DocData) (h : cleanLesson data = none) :
    addLesson grade semester lesson acc data = acc := by
  have hc : lessonCoord data = none := by
    unfold cleanLesson at h
    cases hc : lessonCoord data with
    | none => rfl
    | some t =>
      simp only [hc] at h
      cases hch : data.lookup "characters" with
      | none => simp [hch] at h
      | some v => cases v <;> simp [hch] at h
  rw [addLesson_eq, hc]

/-- The document loop gives the same list on the cleaned catalog. -/
theorem foldl_addLesson_cleanCatalog (publisher : String) (grade semester lesson : Int)
    (docs : List DocData) (acc : List String) :
    ((cleanCatalog docs).filter (ofPublisher publisher)).foldl
        (addLesson grade semester lesson) acc =
      (docs.filter (ofPublisher publisher)).foldl (addLesson grade semester lesson) acc := by
  induction docs generalizing acc with
  | nil => rfl
  | cons d rest ih =>
    unfold cleanCatalog at ih ⊢
    cases hcl : cleanLesson d with
    | none =>
      rw [List.filterMap_cons_none hcl, ih]
      by_cases hp : ofPublisher publisher d = true
      · rw [List.filter_cons_of_pos hp, List.foldl_cons,
          addLesson_of_cleanLesson_none grade semester lesson acc d hcl]
      · rw [List.filter_cons_of_neg hp]
    | some d' =>
      rw [List.filterMap_cons_some hcl]
      have hpub := ofPublisher_cleanLesson publisher d d' hcl
      by_cases hp : ofPublisher publisher d = true
      · rw [List.filter_cons_of_pos (by rw [hpub]; exact hp), List.filter_cons_of_pos hp,
          List.foldl_cons, List.foldl_cons, ih,
          addLesson_cleanLesson grade semester lesson acc d d' hcl]
      · rw [List.filter_cons_of_neg (by rw [hpub]; exact hp), List.filter_cons_of_neg hp, ih]

/-- C18: malformed catalog entries are skipped, never fatal. Whenever the
catalog read succeeds, `getCumulativeCharacters` returns a list and no error,
whatever the documents hold, and the list is the one it returns on the catalog
with every malformed item removed (`cleanCatalog`), in which every document has
integer grade, semester and lesson number, and a `characters` field that is
absent or a list of strings and of structured entries with a string
`character` field. -/
theorem malformed_entries_skipped (docs : List DocData) (publisher : String)
    (grade semester lesson : Int) :
    (∃ result,
      getCumulativeCharacters { lessons := Except.ok docs } publisher grade semester lesson =
        Except.ok result ∧
      getCumulativeCharacters { lessons := Except.ok (cleanCatalog docs) } publisher
        grade semester lesson = Except.ok result) ∧
    (∀ data ∈ cleanCatalog docs,
      (∃ a b c, data.lookup "grade" = some (FsValue.int a) ∧
        data.lookup "semester" = some (FsValue.int b) ∧
        data.lookup "lesson" = some (FsValue.int c)) ∧
      (data.lookup "characters" = none ∨
        ∃ chars, data.lookup "characters" = some (FsValue.arr chars) ∧
          ∀ v ∈ chars, (∃ s, v = FsValue.str s) ∨
            ∃ m s, v = FsValue.map m ∧ m.lookup "character" = some (FsValue.str s))) := by
  constructor
  · refine ⟨_, getCumulativeCharacters_ok docs publisher grade semester lesson, ?_⟩
    rw [getCumulativeCharacters_ok, foldl_addLesson_cleanCatalog]
  · intro cleaned hmem
    unfold cleanCatalog at hmem
    rw [List.mem_filterMap] at hmem
    obtain ⟨data, _, hcl⟩ := hmem
    have hcoord := lessonCoord_cleanLesson data cleaned hcl
    have hsome : ∃ t, lessonCoord data = some t := by
      unfold cleanLesson at hcl
      cases hc : lessonCoord data with
      | none => simp [hc] at hcl
      | some t => exact ⟨t, rfl⟩
    obtain ⟨t, ht⟩ := hsome
    rw [ht] at hcoord
    constructor
    · unfold lessonCoord at hcoord
      cases hg : cleaned.lookup "grade" with
      | none => simp [hg] at hcoord
      | some vg =>
        cases hs : cleaned.lookup "semester" with
        | none => cases vg <;> simp [hg, hs] at hcoord
        | some vs =>
          cases hl : cleaned.lookup "lesson" with
          | none => cases vg <;> cases vs <;> simp [hg, hs, hl] at hcoord
          | some vl =>
            cases vg <;> cases vs <;> cases vl <;> simp [hg, hs, hl] at hcoord
            exact ⟨_, _, _, rfl, rfl, rfl⟩
    · obtain ⟨_, hch⟩ := cleanLesson_some data cleaned hcl
      rcases hch with ⟨chars, _, h2⟩ | ⟨_, h2⟩
      · refine Or.inr ⟨_, h2, ?_⟩
        intro v hv
        rw [List.mem_filter] at hv
        obtain ⟨_, hwf⟩ := hv
        unfold wellFormedEntry charToken at hwf
        cases v with
        | str s => exact Or.inl ⟨s, rfl⟩
        | map m =>
          simp only at hwf
          cases hm : m.lookup "character" with
          | none => simp [hm] at hwf
          | some w =>
            cases w with
            | str s => exact Or.inr ⟨m, s, rfl, hm⟩
            | int _ => simp [hm] at hwf
            | arr _ => simp [hm] at hwf
            | map _ => simp [hm] at hwf
            | other => simp [hm] at hwf
        | int _ => simp at hwf
        | arr _ => simp at hwf
        | other => simp at hwf
      · exact Or.inl h2

/-! ## Query resolution -/

/-- `contains` is membership in the slice. -/
theorem contains_iff (slice : List String) (item : String) :
    contains slice item = true ↔ item ∈ slice := by
  induction slice with
  | nil => simp [contains]
  | cons s rest ih =>
    unfold contains
    by_cases h : s = item
    · simp [h]
    · rw [if_neg h, ih]
      simp [Ne.symm h]

/-- The partition loop started from any pair of lists appends to each list the
matching code points, in order. -/
theorem foldl_partition (cumulativeChars : List String) (queryChars : List Char)
    (learned notLearned : List String) :
    queryChars.foldl
        (fun acc char =>
          let charStr := String.singleton char
          if contains cumulativeChars charStr then (acc.1 ++ [charStr], acc.2)
          else (acc.1, acc.2 ++ [charStr]))
        (learned, notLearned) =
      (learned ++ (queryChars.map String.singleton).filter
          (fun s => decide (s ∈ cumulativeChars)),
        notLearned ++ (queryChars.map String.singleton).filter
          (fun s => !decide (s ∈ cumulativeChars))) := by
  induction queryChars generalizing learned notLearned with
  | nil => simp
  | cons c rest ih =>
    rw [List.foldl_cons]
    by_cases h : contains cumulativeChars (String.singleton c) = true
    · have hm : String.singleton c ∈ cumulativeChars := (contains_iff _ _).mp h
      simp only [h, if_true]
      rw [ih]
      simp [hm]
    · have hm : String.singleton c ∉ cumulativeChars := fun hm => h ((contains_iff _ _).mpr hm)
      simp only [h]
      rw [ih]
      simp [hm]

/-- The partition in closed form. -/
theorem partitionChars_eq (cumulativeChars : List String) (queryChars : List Char) :
    partitionChars cumulativeChars queryChars =
      ((queryChars.map String.singleton).filter (fun s => decide (s ∈ cumulativeChars)),
        (queryChars.map String.singleton).filter (fun s => !decide (s ∈ cumulativeChars))) := by
  unfold partitionChars
  rw [foldl_partition]
  simp

/-- C19, as stated, fails: the partitions hold every code point of the phrase,
not only its ideographs. The phrase 我a is accepted at step 4; its only
ideograph is 我, yet the partitions are 我 and a, and the reply reports 1/2. -/
theorem partition_ideographs_counterexample :
    isChineseCharacter "我a" = true ∧
    ("我a".data.filter isHan).map String.singleton = ["我"] ∧
    partitionChars ["我", "好"] "我a".data = (["我"], ["a"]) ∧
    ¬ List.Perm
      ((partitionChars ["我", "好"] "我a".data).1 ++ (partitionChars ["我", "好"] "我a".data).2)
      (("我a".data.filter isHan).map String.singleton) ∧
    handleTextMessage sampleFirestore sampleWizardStore "我a" =
      { ops := [],
        reply := Reply.text
          ("📊 累積字詞查詢結果\n\n✅ 已學過：我\n❌ 尚未學過：a\n\n📈 統計：已學 1/2 字" ++
            "\n\n💡 輸入新的字詞繼續查詢，或輸入「退出」結束查詢") } := by
  refine ⟨by decide, by decide, by decide, ?_, by decide⟩
  intro h
  have := h.length_eq
  revert this
  decide

/-- C19, amended: partition completeness over code points. For every phrase
and every cumulative set, the two partitions together are a rearrangement of
the code points of the phrase; each code point has all its occurrences in
exactly one of the two partitions; and the sizes of the two partitions add up
to the number of code points of the phrase, the total the reply reports. When
every code point of the phrase is an ideograph, these are the ideographs of the
phrase. -/
theorem partition_complete (cumulativeChars : List String) (queryText : String) :
    List.Perm
      ((partitionChars cumulativeChars queryText.data).1 ++
        (partitionChars cumulativeChars queryText.data).2)
      (queryText.data.map String.singleton) ∧
    (∀ s : String,
      ((partitionChars cumulativeChars queryText.data).1.count s =
          (queryText.data.map String.singleton).count s ∧
        (partitionChars cumulativeChars queryText.data).2.count s = 0) ∨
      ((partitionChars cumulativeChars queryText.data).1.count s = 0 ∧
        (partitionChars cumulativeChars queryText.data).2.count s =
          (queryText.data.map String.singleton).count s)) ∧
    (partitionChars cumulativeChars queryText.data).1.length +
      (partitionChars cumulativeChars queryText.data).2.length = queryText.data.length ∧
    ((∀ c ∈ queryText.data, isHan c = true) →
      List.Perm
        ((partitionChars cumulativeChars queryText.data).1 ++
          (partitionChars cumulativeChars queryText.data).2)
        ((queryText.data.filter isHan).map String.singleton)) := by
  rw [partitionChars_eq]
  simp only
  have hperm : List.Perm
      ((queryText.data.map String.singleton).filter (fun s => decide (s ∈ cumulativeChars)) ++
        (queryText.data.map String.singleton).filter (fun s => !decide (s ∈ cumulativeChars)))
      (queryText.data.map String.singleton) :=
    List.filter_append_perm _ _
  refine ⟨hperm, ?_, ?_, ?_⟩
  · intro s
    by_cases hs : s ∈ cumulativeChars
    · left
      constructor
      · rw [List.count_filter (by simpa using hs)]
      · rw [List.count_eq_zero]
        intro hmem
        rw [List.mem_filter] at hmem
        simp [hs] at hmem
    · right
      constructor
      · rw [List.count_eq_zero]
        intro hmem
        rw [List.mem_filter] at hmem
        simp [hs] at hmem
      · rw [List.count_filter (by simpa using hs)]
  · have := hperm.length_eq
    rw [List.length_append, List.length_map] at this
    exact this
  · intro hall
    have hf : queryText.data.filter isHan = queryText.data :=
      List.filter_eq_self.mpr hall
    rw [hf]
    exact hperm

/-- C20: partition order and duplicates. For every phrase and cumulative set,
`learnedChars` is the list of the code points of the phrase that are members of
the cumulative set, in the order of the phrase and once per occurrence, and
`notLearnedChars` is the list of those that are not; both are subsequences of
the phrase. -/
theorem partition_order (cumulativeChars : List String) (queryText : String) :
    (partitionChars cumulativeChars queryText.data).1 =
      (queryText.data.map String.singleton).filter (fun s => decide (s ∈ cumulativeChars)) ∧
    (partitionChars cumulativeChars queryText.data).2 =
      (queryText.data.map String.singleton).filter (fun s => !decide (s ∈ cumulativeChars)) ∧
    List.Sublist (partitionChars cumulativeChars queryText.data).1
      (queryText.data.map String.singleton) ∧
    List.Sublist (partitionChars cumulativeChars queryText.data).2
      (queryText.data.map String.singleton) := by
  rw [partitionChars_eq]
  exact ⟨rfl, rfl, List.filter_sublist _, List.filter_sublist _⟩

/-- C16 on `scenarioDocs` with target (1, 1, 1): the character 我 of lesson 1 is
in the result, the character 喜 of lesson 2 is not. -/
theorem cumulative_boundary_witness :
    ∃ result,
      getCumulativeCharacters { lessons := Except.ok scenarioDocs } "康軒" 1 1 1 =
        Except.ok result ∧
      "我" ∈ result ∧ "喜" ∉ result := by
  obtain ⟨result, hres, hin, _, hout⟩ := cumulative_boundary scenarioDocs "康軒" 1 1 1
  refine ⟨result, hres, ?_, ?_⟩
  · exact hin _ (List.mem_cons_self _ _) rfl rfl "我" (by decide)
  · apply hout
    intro data hd
    simp only [scenarioDocs, List.mem_cons, List.mem_singleton, List.not_mem_nil,
      or_false] at hd
    rcases hd with rfl | rfl
    · intro _ hx
      exact absurd hx (by decide)
    · intro _ _
      rfl

/-! ## The worked scenario -/

/-- C21: the concrete scenario. With the catalog `scenarioDocs` (康軒, grade 1,
semester 1: lesson 1 teaches 我 and 好, lesson 2 teaches 喜 and 歡) and the
coordinate (康軒, 1, 1, 2), the aggregator returns 我, 好, 喜, 歡; the query
我好喜歡吃 is split into `learnedChars` = 我, 好, 喜, 歡 and `notLearnedChars`
= 吃; and the reply at step 4 reports the statistic 4/5 and writes nothing. -/
theorem scenario_query :
    getCumulativeCharacters { lessons := Except.ok scenarioDocs } "康軒" 1 1 2 =
      Except.ok ["我", "好", "喜", "歡"] ∧
    partitionChars ["我", "好", "喜", "歡"] "我好喜歡吃".data =
      (["我", "好", "喜", "歡"], ["吃"]) ∧
    handleTextMessage { lessons := Except.ok scenarioDocs }
        (some { Mode := "cumulative_query", Publisher := "康軒", Grade := 1, Semester := 1,
                Lesson := 2, Step := 4, PreferredPublisher := "康軒", PreferredGrade := 1,
                PreferredSemester := 1 }) "我好喜歡吃" =
      { ops := [],
        reply := Reply.text
          ("📊 累積字詞查詢結果\n\n✅ 已學過：我好喜歡\n❌ 尚未學過：吃\n\n📈 統計：已學 4/5 字" ++
            "\n\n💡 輸入新的字詞繼續查詢，或輸入「退出」結束查詢") } := by
  refine ⟨rfl, by decide, by decide⟩

/-! ## The confirm step -/

/-- C25: at step -1 the two reuse options are state-equivalent. For every
record read in query mode at step -1, the texts 照用上次設定 and 修改課程 issue the
same single write, the record read with only `Step` changed to 3, and their
reply texts differ. -/
theorem reuse_options_same_state (fs : Firestore) (store : Store)
    (hmode : (getUserState store).Mode = "cumulative_query")
    (hstep : (getUserState store).Step = -1) :
    (handleTextMessage fs store "照用上次設定").ops =
      [StoreOp.set
        { Mode := (getUserState store).Mode,
          Publisher := (getUserState store).Publisher,
          Grade := (getUserState store).Grade,
          Semester := (getUserState store).Semester,
          Lesson := (getUserState store).Lesson,
          Step := 3,
          PreferredPublisher := (getUserState store).PreferredPublisher,
          PreferredGrade := (getUserState store).PreferredGrade,
          PreferredSemester := (getUserState store).PreferredSemester }] ∧
    (handleTextMessage fs store "修改課程").ops = (handleTextMessage fs store "照用上次設定").ops ∧
    stepStore fs store "修改課程" = stepStore fs store "照用上次設定" ∧
    (handleTextMessage fs store "修改課程").reply ≠
      (handleTextMessage fs store "照用上次設定").reply := by
  have t1 : TrimSpace "照用上次設定" = "照用上次設定" := by decide
  have t2 : TrimSpace "修改課程" = "修改課程" := by decide
  have e1 : ("照用上次設定" : String) ≠ "退出" := by decide
  have e2 : ("修改課程" : String) ≠ "退出" := by decide
  have e3 : ("修改課程" : String) ≠ "照用上次設定" := by decide
  have h1 : handleTextMessage fs store "照用上次設定" =
      { ops := [StoreOp.set { getUserState store with Step := 3 }],
        reply := Reply.text
          ("✅ 使用已記憶的設定：" ++ (getUserState store).Publisher ++ " " ++
            fmtInt (getUserState store).Grade ++ "年級" ++
            semesterText (getUserState store).Semester ++ "\n\n請輸入課次（例如：5）：") } := by
    unfold handleTextMessage handleCumulativeQueryMode
    simp only [t1, e1, hmode, hstep, if_false, if_true]
  have h2 : handleTextMessage fs store "修改課程" =
      { ops := [StoreOp.set { getUserState store with Step := 3 }],
        reply := Reply.text
          ("📝 修改課程模式\n\n當前設定：" ++ (getUserState store).Publisher ++ " " ++
            fmtInt (getUserState store).Grade ++ "年級" ++
            semesterText (getUserState store).Semester ++ "\n\n請輸入課次（例如：5）：") } := by
    unfold handleTextMessage handleCumulativeQueryMode
    simp only [t2, e2, e3, hmode, hstep, if_false, if_true]
  refine ⟨by rw [h1], by rw [h1, h2], by unfold stepStore; rw [h1, h2], ?_⟩
  rw [h1, h2]
  intro h
  simp only [Reply.text.injEq] at h
  have hd := congrArg String.data h
  simp only [String.data_append] at hd
  have hh := congrArg List.head? hd
  simp at hh

theorem reuse_options_same_state_witness :
    stepStore sampleFirestore
        (some { Mode := "cumulative_query", Publisher := "南一", Grade := 2, Semester := 1,
                Lesson := 0, Step := -1, PreferredPublisher := "南一", PreferredGrade := 2,
                PreferredSemester := 1 }) "修改課程" =
      stepStore sampleFirestore
        (some { Mode := "cumulative_query", Publisher := "南一", Grade := 2, Semester := 1,
                Lesson := 0, Step := -1, PreferredPublisher := "南一", PreferredGrade := 2,
                PreferredSemester := 1 }) "照用上次設定" :=
  (reuse_options_same_state sampleFirestore
    (some { Mode := "cumulative_query", Publisher := "南一", Grade := 2, Semester := 1,
            Lesson := 0, Step := -1, PreferredPublisher := "南一", PreferredGrade := 2,
            PreferredSemester := 1 }) (by decide) (by decide)).2.2.1

/-- What the text 重新設定 does at step -1, for every record read: one write of
the record with `Publisher`, `Grade`, `Semester` cleared and `Step = 0`; the
fields `Mode`, `Lesson` and the remembered triple are as read. -/
theorem start_over_outcome (fs : Firestore) (store : Store) (text : String)
    (hmode : (getUserState store).Mode = "cumulative_query")
    (hstep : (getUserState store).Step = -1)
    (htext : TrimSpace text = "重新設定") :
    handleTextMessage fs store text =
      { ops := [StoreOp.set
          { Mode := (getUserState store).Mode, Publisher := "", Grade := 0, Semester := 0,
            Lesson := (getUserState store).Lesson, Step := 0,
            PreferredPublisher := (getUserState store).PreferredPublisher,
            PreferredGrade := (getUserState store).PreferredGrade,
            PreferredSemester := (getUserState store).PreferredSemester }],
        reply := Reply.withQuickReply "🔄 重新設定\n\n📚 累積字詞查詢\n\n請選擇出版社："
          publisherQuickReply } := by
  have e1 : ("重新設定" : String) ≠ "退出" := by decide
  have e2 : ("重新設定" : String) ≠ "照用上次設定" := by decide
  have e3 : ("重新設定" : String) ≠ "修改課程" := by decide
  unfold handleTextMessage handleCumulativeQueryMode
  simp only [htext, e1, e2, e3, hmode, hstep, if_false, if_true]

/-- C26: start-over at step -1. For every reachable store whose record is in
query mode at step -1, a text that trims to 重新設定 issues one write: the record
with the working quadruple fully cleared (`Publisher` empty, `Grade`,
`Semester` and `Lesson` 0), `Step = 0`, and `Mode` and the remembered triple as
read; the reply is the publisher prompt with the three publishers. -/
theorem start_over_clears (fs : Firestore) (store : Store) (text : String)
    (hreach : Reachable store)
    (hmode : (getUserState store).Mode = "cumulative_query")
    (hstep : (getUserState store).Step = -1)
    (htext : TrimSpace text = "重新設定") :
    handleTextMessage fs store text =
      { ops := [StoreOp.set
          { Mode := (getUserState store).Mode, Publisher := "", Grade := 0, Semester := 0,
            Lesson := 0, Step := 0,
            PreferredPublisher := (getUserState store).PreferredPublisher,
            PreferredGrade := (getUserState store).PreferredGrade,
            PreferredSemester := (getUserState store).PreferredSemester }],
        reply := Reply.withQuickReply "🔄 重新設定\n\n📚 累積字詞查詢\n\n請選擇出版社："
          [ { Label := "康軒", Text := "康軒" },
            { Label := "南一", Text := "南一" },
            { Label := "翰林", Text := "翰林" } ] } := by
  have hlesson : (getUserState store).Lesson = 0 := by
    obtain ⟨_, hw⟩ := wizardInv_of_reachable store hreach
    rcases hw with ⟨hm, _⟩ | ⟨_, hsteps⟩
    · rw [hm] at hmode
      exact absurd hmode (by decide)
    · rcases hsteps with ⟨_, _, _, _, hl⟩ | ⟨hs, _⟩ | ⟨hs, _⟩ | ⟨hs, _⟩ | ⟨hs, _⟩ | ⟨hs, _⟩
      · exact hl
      all_goals (rw [hs] at hstep; exact absurd hstep (by decide))
  rw [start_over_outcome fs store text hmode hstep htext, hlesson]
  rfl

theorem start_over_clears_witness :
    Reachable sampleConfirmStore ∧
    handleTextMessage sampleFirestore sampleConfirmStore " 重新設定" =
      { ops := [StoreOp.set
          { Mode := "cumulative_query", Publisher := "", Grade := 0, Semester := 0,
            Lesson := 0, Step := 0, PreferredPublisher := "康軒", PreferredGrade := 3,
            PreferredSemester := 1 }],
        reply := Reply.withQuickReply "🔄 重新設定\n\n📚 累積字詞查詢\n\n請選擇出版社："
          [ { Label := "康軒", Text := "康軒" },
            { Label := "南一", Text := "南一" },
            { Label := "翰林", Text := "翰林" } ] } :=
  ⟨Reachable.step _ _ _ (Reachable.step _ _ _ reachable_sampleWizardStore),
    start_over_clears sampleFirestore sampleConfirmStore " 重新設定"
      (Reachable.step _ _ _ (Reachable.step _ _ _ reachable_sampleWizardStore))
      (by decide) (by decide) (by decide)⟩

/-! ## Resetting the remembered triple -/

/-- The two branches of `resetUserPreferences` behind a reset keyword outside
the query mode, in terms of its guard. -/
theorem reset_keyword_outcome (fs : Firestore) (store : Store) (text : String)
    (hmode : (getUserState store).Mode ≠ "cumulative_query")
    (htext : TrimSpace text ∈ ["重設偏好", "重設設定", "清除記憶"]) :
    (((getUserState store).PreferredPublisher ≠ "" ∨ (getUserState store).PreferredGrade > 0 ∨
        (getUserState store).PreferredSemester > 0) →
      handleTextMessage fs store text =
        { ops := [StoreOp.set
            { Mode := (getUserState store).Mode,
              Publisher := (getUserState store).Publisher,
              Grade := (getUserState store).Grade,
              Semester := (getUserState store).Semester,
              Lesson := (getUserState store).Lesson,
              Step := (getUserState store).Step,
              PreferredPublisher := "", PreferredGrade := 0, PreferredSemester := 0 }],
          reply := Reply.text
            "✅ 已清除您的偏好設定記憶\n\n下次查詢時將重新選擇出版社、年級和學期" }) ∧
    (¬ ((getUserState store).PreferredPublisher ≠ "" ∨ (getUserState store).PreferredGrade > 0 ∨
        (getUserState store).PreferredSemester > 0) →
      handleTextMessage fs store text =
        { ops := [], reply := Reply.text "目前沒有已記憶的偏好設定" }) := by
  have hkw : TrimSpace text = "重設偏好" ∨ TrimSpace text = "重設設定" ∨
      TrimSpace text = "清除記憶" := by
    simpa using htext
  have hexit : TrimSpace text ≠ "退出" := by
    rcases hkw with h | h | h <;> rw [h] <;> decide
  have hstart : TrimSpace text ≠ "查詢累積字詞" := by
    rcases hkw with h | h | h <;> rw [h] <;> decide
  have hdisp : handleTextMessage fs store text = resetUserPreferences store := by
    unfold handleTextMessage
    simp only [hexit, hmode, hstart, hkw, if_false, if_true]
  refine ⟨?_, ?_⟩
  · intro hset
    rw [hdisp]
    unfold resetUserPreferences
    simp only [hset, if_true]
  · intro hunset
    rw [hdisp]
    unfold resetUserPreferences
    simp only [hunset, if_false]
    rfl

/-- On every reachable store the remembered grade and semester are not
negative. -/
theorem preferred_nonneg_of_reachable (store : Store) (hreach : Reachable store) :
    0 ≤ (getUserState store).PreferredGrade ∧ 0 ≤ (getUserState store).PreferredSemester := by
  obtain ⟨hp, _⟩ := wizardInv_of_reachable store hreach
  rcases hp with ⟨_, hg, hs⟩ | ⟨_, hg, hs⟩
  · exact ⟨by omega, by omega⟩
  · exact ⟨by omega, by omega⟩

/-- C27: reset preferences. For every record outside the query mode whose
remembered grade and semester are in their domain (not negative, as in the data
model and on every reachable record), and each of the texts 重設偏好, 重設設定,
清除記憶: if any remembered field is not at its default, one record is written,
with the remembered triple at its defaults and every other field as read; if
all three are at their defaults, nothing is written and the reply says that
nothing is remembered. -/
theorem reset_preferences (fs : Firestore) (store : Store) (text : String)
    (hmode : (getUserState store).Mode ≠ "cumulative_query")
    (htext : TrimSpace text ∈ ["重設偏好", "重設設定", "清除記憶"])
    (hgrade : 0 ≤ (getUserState store).PreferredGrade)
    (hsemester : 0 ≤ (getUserState store).PreferredSemester) :
    (((getUserState store).PreferredPublisher ≠ "" ∨ (getUserState store).PreferredGrade ≠ 0 ∨
        (getUserState store).PreferredSemester ≠ 0) →
      handleTextMessage fs store text =
        { ops := [StoreOp.set
            { Mode := (getUserState store).Mode,
              Publisher := (getUserState store).Publisher,
              Grade := (getUserState store).Grade,
              Semester := (getUserState store).Semester,
              Lesson := (getUserState store).Lesson,
              Step := (getUserState store).Step,
              PreferredPublisher := "", PreferredGrade := 0, PreferredSemester := 0 }],
          reply := Reply.text
            "✅ 已清除您的偏好設定記憶\n\n下次查詢時將重新選擇出版社、年級和學期" }) ∧
    (((getUserState store).PreferredPublisher = "" ∧ (getUserState store).PreferredGrade = 0 ∧
        (getUserState store).PreferredSemester = 0) →
      handleTextMessage fs store text =
        { ops := [], reply := Reply.text "目前沒有已記憶的偏好設定" } ∧
      stepStore fs store text = store) := by
  obtain ⟨hset, hunset⟩ := reset_keyword_outcome fs store text hmode htext
  constructor
  · intro hany
    apply hset
    rcases hany with h | h | h
    · exact Or.inl h
    · exact Or.inr (Or.inl (by omega))
    · exact Or.inr (Or.inr (by omega))
  · rintro ⟨hp, hg, hs⟩
    have hout := hunset (by
      rintro (h | h | h)
      · exact h hp
      · omega
      · omega)
    refine ⟨hout, ?_⟩
    unfold stepStore
    rw [hout]
    rfl

theorem reset_preferences_witness :
    handleTextMessage sampleFirestore (stepStore sampleFirestore sampleWizardStore "退出")
        " 清除記憶" =
      { ops := [StoreOp.set
          { Mode := "", Publisher := "", Grade := 0, Semester := 0, Lesson := 0, Step := 0,
            PreferredPublisher := "", PreferredGrade := 0, PreferredSemester := 0 }],
        reply := Reply.text
          "✅ 已清除您的偏好設定記憶\n\n下次查詢時將重新選擇出版社、年級和學期" } :=
  (reset_preferences sampleFirestore (stepStore sampleFirestore sampleWizardStore "退出")
    " 清除記憶" (by decide) (by decide) (by decide) (by decide)).1 (by decide)

/-! ## Closed lookups and reachable steps -/

/-- C28: the numeral lookups are closed. `parseGrade` is non-zero exactly on
the twelve literals 1..6 and 一..六, `parseSemester` exactly on 1, 上, 上學期, 2,
下, 下學期; every other text (a multi-digit number, a full-width digit, a
literal with extra characters) gives 0, and a text that gives 0 makes the state
machine re-prompt at step 1, respectively step 2, without a store operation. -/
theorem closed_numeral_lookup (fs : Firestore) (state : UserState) (t : String) :
    (parseGrade t ≠ 0 ↔
      t ∈ ["1", "2", "3", "4", "5", "6", "一", "二", "三", "四", "五", "六"]) ∧
    (parseSemester t ≠ 0 ↔ t ∈ ["1", "上", "上學期", "2", "下", "下學期"]) ∧
    (state.Step = 1 → parseGrade t = 0 →
      handleCumulativeQueryMode fs t state =
        { ops := [], reply := Reply.text "請輸入正確的年級數字（1-6）" }) ∧
    (state.Step = 2 → parseSemester t = 0 →
      handleCumulativeQueryMode fs t state =
        { ops := [], reply := Reply.text "請選擇正確的學期：1（上學期）或 2（下學期）" }) ∧
    parseGrade "12" = 0 ∧ parseGrade "３" = 0 ∧ parseGrade "3年級" = 0 ∧ parseGrade "七" = 0 ∧
    parseSemester "12" = 0 ∧ parseSemester "１" = 0 ∧ parseSemester "上學期 " = 0 ∧
    parseSemester "3" = 0 := by
  refine ⟨?_, ?_, ?_, ?_, by decide, by decide, by decide, by decide, by decide, by decide,
    by decide, by decide⟩
  · unfold parseGrade
    simp only [List.mem_cons, List.mem_singleton, List.not_mem_nil, or_false]
    split_ifs with h1 h2 h3 h4 h5 h6
    · simp; tauto
    · simp; tauto
    · simp; tauto
    · simp; tauto
    · simp; tauto
    · simp; tauto
    · simp; tauto
  · unfold parseSemester
    simp only [List.mem_cons, List.mem_singleton, List.not_mem_nil, or_false]
    split_ifs with h1 h2
    · simp; tauto
    · simp; tauto
    · simp; tauto
  · intro hs hg
    unfold handleCumulativeQueryMode
    simp [hs, hg, replyMessage]
  · intro hs hg
    unfold handleCumulativeQueryMode
    simp [hs, hg, replyMessage]

/-- The only branch of the handlers that deletes the document is the default
branch of the state machine: with `Step` in -1..4, or outside the query mode,
no delete is issued. -/
theorem no_clear_of_known_step (fs : Firestore) (store : Store) (text : String)
    (h : (getUserState store).Mode = "cumulative_query" →
      -1 ≤ (getUserState store).Step ∧ (getUserState store).Step ≤ 4) :
    StoreOp.clear ∉ (handleTextMessage fs store text).ops := by
  unfold handleTextMessage
  simp only
  split_ifs with hexit hmode
  · simp
  · have hk := h hmode
    have hcases : (getUserState store).Step = -1 ∨ (getUserState store).Step = 0 ∨
        (getUserState store).Step = 1 ∨ (getUserState store).Step = 2 ∨
        (getUserState store).Step = 3 ∨ (getUserState store).Step = 4 := by omega
    unfold handleCumulativeQueryMode
    rcases hcases with hs | hs | hs | hs | hs | hs <;> simp only [hs] <;> simp <;>
      split_ifs <;> simp [replyMessage, performCumulativeQuery_ops]
  · unfold startCumulativeQuery
    simp only
    split_ifs <;> simp
  · unfold resetUserPreferences
    simp only
    split_ifs <;> simp [replyMessage]
  · simp [showUserSettings_ops]
  · simp [handlePrintWorksheet_ops]
  · simp [handleTabletPractice, replyMessage]
  · simp [handleHelp, replyMessage]
  · simp [handleUnknownMessage, replyMessage]

/-- C29: the reachable step invariant. The record read back from every
reachable store has `Step` in -1..4 when it is in query mode, and `Step = 0`
when `Mode` is empty; so on a reachable store no text makes the handler take
the default branch of the state machine (the one branch that deletes the
document). -/
theorem reachable_step (store : Store) (h : Reachable store) :
    ((getUserState store).Mode = "cumulative_query" →
      (getUserState store).Step = -1 ∨ (getUserState store).Step = 0 ∨
      (getUserState store).Step = 1 ∨ (getUserState store).Step = 2 ∨
      (getUserState store).Step = 3 ∨ (getUserState store).Step = 4) ∧
    ((getUserState store).Mode = "" → (getUserState store).Step = 0) ∧
    (∀ (fs : Firestore) (text : String),
      StoreOp.clear ∉ (handleTextMessage fs store text).ops) := by
  obtain ⟨_, hw⟩ := wizardInv_of_reachable store h
  have hstep : (getUserState store).Mode = "cumulative_query" →
      (getUserState store).Step = -1 ∨ (getUserState store).Step = 0 ∨
      (getUserState store).Step = 1 ∨ (getUserState store).Step = 2 ∨
      (getUserState store).Step = 3 ∨ (getUserState store).Step = 4 := by
    intro hm
    rcases hw with ⟨hm0, _⟩ | ⟨_, hsteps⟩
    · rw [hm0] at hm
      exact absurd hm (by decide)
    · rcases hsteps with ⟨hs, _⟩ | ⟨hs, _⟩ | ⟨hs, _⟩ | ⟨hs, _⟩ | ⟨hs, _⟩ | ⟨hs, _⟩ <;>
        simp [hs]
  refine ⟨hstep, ?_, ?_⟩
  · intro hm
    rcases hw with ⟨_, hs, _⟩ | ⟨hcq, _⟩
    · exact hs
    · rw [hcq] at hm
      exact absurd hm (by decide)
  · intro fs text
    apply no_clear_of_known_step
    intro hm
    have := hstep hm
    omega

theorem reachable_step_witness :
    Reachable sampleWizardStore ∧
    (getUserState sampleWizardStore).Mode = "cumulative_query" ∧
    ((getUserState sampleWizardStore).Step = -1 ∨ (getUserState sampleWizardStore).Step = 0 ∨
      (getUserState sampleWizardStore).Step = 1 ∨ (getUserState sampleWizardStore).Step = 2 ∨
      (getUserState sampleWizardStore).Step = 3 ∨ (getUserState sampleWizardStore).Step = 4) :=
  ⟨reachable_sampleWizardStore, by decide,
    (reachable_step sampleWizardStore reachable_sampleWizardStore).1 (by decide)⟩

/-! ## Round trip of the remembered triple -/

/-- The store after an accepted publisher at step 0. -/
theorem stepStore_publisher (fs : Firestore) (r : UserState) (text : String)
    (hmode : r.Mode = "cumulative_query") (hstep : r.Step = 0)
    (hp : TrimSpace text ∈ ["康軒", "南一", "翰林"]) :
    stepStore fs (some r) text = some { r with Publisher := TrimSpace text, Step := 1 } := by
  have hp' : TrimSpace text = "康軒" ∨ TrimSpace text = "南一" ∨ TrimSpace text = "翰林" := by
    simpa using hp
  have hexit : TrimSpace text ≠ "退出" := by
    rcases hp' with h | h | h <;> rw [h] <;> decide
  unfold stepStore handleTextMessage handleCumulativeQueryMode
  simp only [getUserState, hexit, hmode, hstep, hp', if_false, if_true]
  simp [applyOps, applyOp]

/-- The store after an accepted grade at step 1. -/
theorem stepStore_grade (fs : Firestore) (r : UserState) (text : String)
    (hmode : r.Mode = "cumulative_query") (hstep : r.Step = 1)
    (hg : 1 ≤ parseGrade (TrimSpace text) ∧ parseGrade (TrimSpace text) ≤ 6) :
    stepStore fs (some r) text =
      some { r with Grade := parseGrade (TrimSpace text), Step := 2 } := by
  have hexit : TrimSpace text ≠ "退出" := by
    intro h
    rw [h] at hg
    have h0 : parseGrade "退出" = 0 := by decide
    omega
  have hg' : parseGrade (TrimSpace text) > 0 ∧ parseGrade (TrimSpace text) ≤ 6 :=
    ⟨by omega, hg.2⟩
  unfold stepStore handleTextMessage handleCumulativeQueryMode
  simp only [getUserState, hexit, hmode, hstep, hg', if_false, if_true]
  simp [applyOps, applyOp]

/-- The store after an accepted semester at step 2. -/
theorem stepStore_semester (fs : Firestore) (r : UserState) (text : String)
    (hmode : r.Mode = "cumulative_query") (hstep : r.Step = 2)
    (hs : parseSemester (TrimSpace text) = 1 ∨ parseSemester (TrimSpace text) = 2) :
    stepStore fs (some r) text =
      some { r with
        Semester := parseSemester (TrimSpace text)
        PreferredPublisher := r.Publisher
        PreferredGrade := r.Grade
        PreferredSemester := parseSemester (TrimSpace text)
        Step := 3 } := by
  have hexit : TrimSpace text ≠ "退出" := by
    intro h
    rw [h] at hs
    have h0 : parseSemester "退出" = 0 := by decide
    omega
  unfold stepStore handleTextMessage handleCumulativeQueryMode
  simp only [getUserState, hexit, hmode, hstep, hs, if_false, if_true]
  simp [applyOps, applyOp]

/-- The store after an accepted lesson number at step 3. -/
theorem stepStore_lesson (fs : Firestore) (r : UserState) (text : String)
    (hmode : r.Mode = "cumulative_query") (hstep : r.Step = 3)
    (hn : parseLesson (TrimSpace text) > 0) :
    stepStore fs (some r) text =
      some { r with
        Lesson := parseLesson (TrimSpace text)
        PreferredPublisher := r.Publisher
        PreferredGrade := r.Grade
        PreferredSemester := r.Semester
        Step := 4 } := by
  have hexit : TrimSpace text ≠ "退出" := by
    intro h
    rw [h] at hn
    have h0 : parseLesson "退出" = 0 := by decide
    omega
  unfold stepStore handleTextMessage handleCumulativeQueryMode
  simp only [getUserState, hexit, hmode, hstep, hn, if_false, if_true]
  simp [applyOps, applyOp]

/-- The outcome of the start keyword outside the query mode when the remembered
triple is fully set. -/
theorem start_with_preferences (fs : Firestore) (r : UserState)
    (hmode : r.Mode ≠ "cumulative_query")
    (hset : r.PreferredPublisher ≠ "" ∧ r.PreferredGrade > 0 ∧ r.PreferredSemester > 0) :
    handleTextMessage fs (some r) "查詢累積字詞" =
      { ops := [StoreOp.set
          { Mode := "cumulative_query", Publisher := r.PreferredPublisher,
            Grade := r.PreferredGrade, Semester := r.PreferredSemester, Lesson := 0,
            Step := -1, PreferredPublisher := r.PreferredPublisher,
            PreferredGrade := r.PreferredGrade, PreferredSemester := r.PreferredSemester }],
        reply := Reply.withQuickReply
          ("📚 累積字詞查詢\n\n已記憶的設定：" ++ r.PreferredPublisher ++ " " ++
            fmtInt r.PreferredGrade ++ "年級" ++ semesterText r.PreferredSemester ++
            "\n\n請選擇操作：")
          confirmQuickReply } := by
  have t : TrimSpace "查詢累積字詞" = "查詢累積字詞" := by decide
  have e : ("查詢累積字詞" : String) ≠ "退出" := by decide
  unfold handleTextMessage startCumulativeQuery
  simp only [t, e, getUserState, hmode, if_false, if_true]
  rw [if_pos hset]
  rfl

/-- The store after the start keyword on a document that reads as the
all-default record. -/
theorem stepStore_start_fresh (fs : Firestore) (store : Store)
    (h0 : getUserState store = emptyState) :
    stepStore fs store "查詢累積字詞" = some { emptyState with Mode := "cumulative_query" } := by
  have t : TrimSpace "查詢累積字詞" = "查詢累積字詞" := by decide
  have e : ("查詢累積字詞" : String) ≠ "退出" := by decide
  unfold stepStore handleTextMessage startCumulativeQuery
  simp only [t, e, h0]
  simp [emptyState, applyOps, applyOp]

/-- C22: the remembered triple survives a round trip. Starting from a document
that reads as the all-default record, for every publisher p of 康軒, 南一, 翰林,
every grade text parsing to g in 1..6, every semester text parsing to s in 1, 2
and every lesson text parsing to a positive n, after the texts 查詢累積字詞, p,
grade, semester, lesson, 退出, 查詢累積字詞 the stored record is in query mode
at step -1 with working publisher, grade and semester (p, g, s), and the last
reply is the prompt with the three options 照用上次設定, 修改課程, 重新設定. -/
theorem preference_round_trip (fs : Firestore) (store₀ : Store) (p tg ts tn : String)
    (g s n : Int)
    (h0 : getUserState store₀ = emptyState)
    (hp : p ∈ ["康軒", "南一", "翰林"])
    (hg : parseGrade (TrimSpace tg) = g) (hg1 : 1 ≤ g ∧ g ≤ 6)
    (hs : parseSemester (TrimSpace ts) = s) (hs1 : s = 1 ∨ s = 2)
    (hn : parseLesson (TrimSpace tn) = n) (hn1 : n > 0) :
    ["查詢累積字詞", p, tg, ts, tn, "退出", "查詢累積字詞"].foldl (stepStore fs) store₀ =
      some { Mode := "cumulative_query", Publisher := p, Grade := g, Semester := s,
             Lesson := 0, Step := -1, PreferredPublisher := p, PreferredGrade := g,
             PreferredSemester := s } ∧
    (handleTextMessage fs
        (["查詢累積字詞", p, tg, ts, tn, "退出"].foldl (stepStore fs) store₀)
        "查詢累積字詞").reply =
      Reply.withQuickReply
        ("📚 累積字詞查詢\n\n已記憶的設定：" ++ p ++ " " ++ fmtInt g ++ "年級" ++ semesterText s ++
          "\n\n請選擇操作：")
        [ { Label := "照用上次設定", Text := "照用上次設定" },
          { Label := "修改課程", Text := "修改課程" },
          { Label := "重新設定", Text := "重新設定" } ] := by
  have htp : TrimSpace p = p := by
    simp only [List.mem_cons, List.mem_singleton, List.not_mem_nil, or_false] at hp
    rcases hp with rfl | rfl | rfl <;> decide
  have hpne : p ≠ "" := by
    simp only [List.mem_cons, List.mem_singleton, List.not_mem_nil, or_false] at hp
    rcases hp with rfl | rfl | rfl <;> decide
  have e1 := stepStore_start_fresh fs store₀ h0
  have e2 := stepStore_publisher fs { emptyState with Mode := "cumulative_query" } p rfl rfl
    (by rw [htp]; exact hp)
  have e3 := stepStore_grade fs
    { ({ emptyState with Mode := "cumulative_query" } : UserState) with
      Publisher := TrimSpace p, Step := 1 } tg rfl rfl (by rw [hg]; exact hg1)
  have e4 := stepStore_semester fs
    { ({ ({ emptyState with Mode := "cumulative_query" } : UserState) with
        Publisher := TrimSpace p, Step := 1 } : UserState) with
      Grade := parseGrade (TrimSpace tg), Step := 2 } ts rfl rfl (by rw [hs]; exact hs1)
  have hexit : TrimSpace "退出" = "退出" := by decide
  have hfinal : ["查詢累積字詞", p, tg, ts, tn, "退出"].foldl (stepStore fs) store₀ =
      some { Mode := "", Publisher := "", Grade := 0, Semester := 0, Lesson := 0, Step := 0,
             PreferredPublisher := p, PreferredGrade := g, PreferredSemester := s } := by
    simp only [List.foldl_cons, List.foldl_nil]
    rw [e1, e2, e3, e4]
    rw [stepStore_lesson fs _ tn rfl rfl (by rw [hn]; exact hn1)]
    rw [stepStore_exit fs _ "退出" hexit]
    simp [getUserState, exitRecord, emptyState, htp, hg, hs]
  have hstart := start_with_preferences fs
    { Mode := "", Publisher := "", Grade := 0, Semester := 0, Lesson := 0, Step := 0,
      PreferredPublisher := p, PreferredGrade := g, PreferredSemester := s }
    (by simp) ⟨hpne, by show g > 0; omega, by show s > 0; omega⟩
  constructor
  · have : ["查詢累積字詞", p, tg, ts, tn, "退出", "查詢累積字詞"].foldl (stepStore fs) store₀ =
        stepStore fs (["查詢累積字詞", p, tg, ts, tn, "退出"].foldl (stepStore fs) store₀)
          "查詢累積字詞" := by
      simp only [List.foldl_cons, List.foldl_nil]
    rw [this, hfinal]
    unfold stepStore
    rw [hstart]
    rfl
  · rw [hfinal, hstart]
    rfl

theorem preference_round_trip_witness :
    ["查詢累積字詞", "翰林", "四", "下", "7", "退出", "查詢累積字詞"].foldl
        (stepStore sampleFirestore) none =
      some { Mode := "cumulative_query", Publisher := "翰林", Grade := 4, Semester := 2,
             Lesson := 0, Step := -1, PreferredPublisher := "翰林", PreferredGrade := 4,
             PreferredSemester := 2 } :=
  (preference_round_trip sampleFirestore none "翰林" "四" "下" "7" 4 2 7 rfl (by decide)
    (by decide) (by decide) (by decide) (by decide) (by decide) (by decide)).1

/-! ## Lifetime of the remembered triple -/

/-- In query mode a record satisfying `WizardInv` keeps a non-empty remembered
publisher through the state machine. -/
theorem preferredPublisher_handleCumulativeQueryMode (fs : Firestore) (store : Store)
    (userText : String)
    (hmode : (getUserState store).Mode = "cumulative_query")
    (h : WizardInv (getUserState store))
    (hpp : (getUserState store).PreferredPublisher ≠ "") :
    (getUserState (applyOps store
      (handleCumulativeQueryMode fs userText (getUserState store)).ops)).PreferredPublisher
        ≠ "" := by
  generalize hr : getUserState store = r at *
  obtain ⟨m, p, g, s, l, st, pp, pg, ps⟩ := r
  simp only at hmode hpp
  subst hmode
  unfold handleCumulativeQueryMode
  simp only
  split_ifs <;>
    simp_all [applyOps, applyOp, getUserState, WizardInv, PreferredOk, replyMessage,
      performCumulativeQuery_ops, emptyState]

/-- C24: the remembered triple is only cleared by an explicit reset. For every
reachable store whose remembered triple is fully set and every text other than
a reset keyword (重設偏好, 重設設定, 清除記憶) handled outside the query mode, the
record read back after the text still has a fully set remembered triple; after
the exit keyword it is the same triple. -/
theorem preferred_survives (fs : Firestore) (store : Store) (text : String)
    (h : Reachable store)
    (hset : (getUserState store).PreferredPublisher ≠ "" ∧
      (getUserState store).PreferredGrade ≠ 0 ∧ (getUserState store).PreferredSemester ≠ 0)
    (hnoreset : ¬ ((getUserState store).Mode ≠ "cumulative_query" ∧
      TrimSpace text ∈ ["重設偏好", "重設設定", "清除記憶"])) :
    ((getUserState (stepStore fs store text)).PreferredPublisher ≠ "" ∧
      (getUserState (stepStore fs store text)).PreferredGrade ≠ 0 ∧
      (getUserState (stepStore fs store text)).PreferredSemester ≠ 0) ∧
    (TrimSpace text = "退出" →
      preferred (getUserState (stepStore fs store text)) = preferred (getUserState store)) := by
  have hw := wizardInv_of_reachable store h
  have hw' := wizardInv_stepStore fs store text hw
  have hexitcase : TrimSpace text = "退出" →
      preferred (getUserState (stepStore fs store text)) = preferred (getUserState store) := by
    intro hexit
    rw [stepStore_exit fs store text hexit]
    rfl
  have hpub : (getUserState (stepStore fs store text)).PreferredPublisher ≠ "" := by
    by_cases hexit : TrimSpace text = "退出"
    · have := hexitcase hexit
      simp only [preferred, Prod.mk.injEq] at this
      rw [this.1]
      exact hset.1
    · by_cases hmode : (getUserState store).Mode = "cumulative_query"
      · have := preferredPublisher_handleCumulativeQueryMode fs store (TrimSpace text) hmode hw
          hset.1
        unfold stepStore handleTextMessage
        simpa [hexit, hmode] using this
      · have hnr : ¬ (TrimSpace text = "重設偏好" ∨ TrimSpace text = "重設設定" ∨
            TrimSpace text = "清除記憶") := by
          intro hk
          apply hnoreset
          exact ⟨hmode, by simpa using hk⟩
        unfold stepStore handleTextMessage
        simp only [hexit, hmode, hnr, if_false]
        split_ifs
        · unfold startCumulativeQuery
          simp only
          split_ifs with hp
          · simpa [applyOps, applyOp, getUserState] using hset.1
          · simpa [applyOps, applyOp, getUserState] using hset.1
        · simpa [showUserSettings_ops, applyOps] using hset.1
        · simpa [handlePrintWorksheet_ops, applyOps] using hset.1
        · simpa [handleTabletPractice, replyMessage, applyOps] using hset.1
        · simpa [handleHelp, replyMessage, applyOps] using hset.1
        · simpa [handleUnknownMessage, replyMessage, applyOps] using hset.1
  refine ⟨?_, hexitcase⟩
  obtain ⟨hok, _⟩ := hw'
  rcases hok with ⟨h1, _, _⟩ | ⟨_, h2, h3⟩
  · exact absurd h1 hpub
  · exact ⟨hpub, by omega, by omega⟩

theorem preferred_survives_witness :
    Reachable sampleWizardStore ∧
    (getUserState (stepStore sampleFirestore sampleWizardStore "重設偏好")).PreferredPublisher
      ≠ "" ∧
    (getUserState (stepStore sampleFirestore sampleWizardStore "重設偏好")).PreferredGrade ≠ 0 ∧
    (getUserState (stepStore sampleFirestore sampleWizardStore "重設偏好")).PreferredSemester
      ≠ 0 :=
  ⟨reachable_sampleWizardStore,
    (preferred_survives sampleFirestore sampleWizardStore "重設偏好"
      reachable_sampleWizardStore (by decide) (by decide)).1⟩

/-! ## Quick-reply options as input -/

/-- `performCumulativeQuery` always answers with a plain text. -/
theorem performCumulativeQuery_reply (fs : Firestore) (queryText : String) (state : UserState) :
    ∃ body, (performCumulativeQuery fs queryText state).reply = Reply.text body := by
  unfold performCumulativeQuery
  cases getCumulativeCharacters fs state.Publisher state.Grade state.Semester state.Lesson with
  | error e => exact ⟨_, rfl⟩
  | ok r => exact ⟨_, rfl⟩

/-- Which quick replies the state machine sends, and the record it writes with
each of them. -/
theorem quickReply_origin_query (fs : Firestore) (userText : String) (r : UserState)
    (body : String) (items : List QuickReplyButton)
    (hmode : r.Mode = "cumulative_query")
    (h : (handleCumulativeQueryMode fs userText r).reply = Reply.withQuickReply body items) :
    ∃ state, (handleCumulativeQueryMode fs userText r).ops = [StoreOp.set state] ∧
      state.Mode = "cumulative_query" ∧
      ((state.Step = 0 ∧ items = publisherQuickReply) ∨
        (state.Step = 1 ∧ items = gradeQuickReply) ∨
        (state.Step = 2 ∧ items = semesterQuickReply)) := by
  unfold handleCumulativeQueryMode at h ⊢
  simp only at h ⊢
  split_ifs at h ⊢
  all_goals first
    | (simp [replyMessage] at h; done)
    | (simp only [Reply.withQuickReply.injEq] at h
       exact ⟨_, rfl, hmode, by simp [h.2]⟩)
    | (obtain ⟨b, hb⟩ := performCumulativeQuery_reply fs userText r
       rw [hb] at h
       simp at h)

/-- Which quick replies the handler sends, and the record it writes with each
of them: the options of step -1, the publishers, the grades or the semesters,
the written record being in query mode at step -1, 0, 1 or 2 respectively. -/
theorem quickReply_origin (fs : Firestore) (store : Store) (text body : String)
    (items : List QuickReplyButton)
    (h : (handleTextMessage fs store text).reply = Reply.withQuickReply body items) :
    ∃ state, (handleTextMessage fs store text).ops = [StoreOp.set state] ∧
      state.Mode = "cumulative_query" ∧
      ((state.Step = -1 ∧ items = confirmQuickReply) ∨
        (state.Step = 0 ∧ items = publisherQuickReply) ∨
        (state.Step = 1 ∧ items = gradeQuickReply) ∨
        (state.Step = 2 ∧ items = semesterQuickReply)) := by
  unfold handleTextMessage at h ⊢
  simp only at h ⊢
  split_ifs at h ⊢ with hexit hmode
  · obtain ⟨state, h1, h2, h3⟩ :=
      quickReply_origin_query fs (TrimSpace text) (getUserState store) body items hmode h
    exact ⟨state, h1, h2, Or.inr h3⟩
  · unfold startCumulativeQuery at h ⊢
    simp only at h ⊢
    split_ifs at h ⊢
    · simp only [Reply.withQuickReply.injEq] at h
      exact ⟨_, rfl, rfl, Or.inl ⟨rfl, h.2.symm⟩⟩
    · simp only [Reply.withQuickReply.injEq] at h
      exact ⟨_, rfl, rfl, Or.inr (Or.inl ⟨rfl, h.2.symm⟩)⟩
  · unfold resetUserPreferences at h
    simp only at h
    split_ifs at h
    all_goals simp [replyMessage] at h
  · simp [showUserSettings, replyMessage] at h
  · unfold handlePrintWorksheet at h
    simp only at h
    split_ifs at h
    all_goals simp [replyMessage] at h
  · simp [handleTabletPractice, replyMessage] at h
  · unfold handleHelp replyMessage at h
    change Reply.text _ = _ at h
    cases h
  · simp [handleUnknownMessage, replyMessage] at h

/-- The write issued for either reuse option at step -1. -/
theorem ops_confirm_reuse (fs : Firestore) (r : UserState) (text : String)
    (hmode : r.Mode = "cumulative_query") (hstep : r.Step = -1)
    (ht : TrimSpace text = "照用上次設定" ∨ TrimSpace text = "修改課程") :
    (handleTextMessage fs (some r) text).ops = [StoreOp.set { r with Step := 3 }] := by
  have e1 : ("照用上次設定" : String) ≠ "退出" := by decide
  have e2 : ("修改課程" : String) ≠ "退出" := by decide
  have e3 : ("修改課程" : String) ≠ "照用上次設定" := by decide
  unfold handleTextMessage handleCumulativeQueryMode
  rcases ht with h | h
  · simp only [h, getUserState, e1, hmode, hstep, if_false, if_true]
  · simp only [h, getUserState, e2, e3, hmode, hstep, if_false, if_true]

/-- The write issued for an accepted publisher at step 0. -/
theorem ops_publisher (fs : Firestore) (r : UserState) (text : String)
    (hmode : r.Mode = "cumulative_query") (hstep : r.Step = 0)
    (hp : TrimSpace text = "康軒" ∨ TrimSpace text = "南一" ∨ TrimSpace text = "翰林") :
    (handleTextMessage fs (some r) text).ops =
      [StoreOp.set { r with Publisher := TrimSpace text, Step := 1 }] := by
  have hexit : TrimSpace text ≠ "退出" := by
    rcases hp with h | h | h <;> rw [h] <;> decide
  unfold handleTextMessage handleCumulativeQueryMode
  simp only [getUserState, hexit, hmode, hstep, hp, if_false, if_true]
  simp

/-- The write issued for an accepted grade at step 1. -/
theorem ops_grade (fs : Firestore) (r : UserState) (text : String) (g : Int)
    (hmode : r.Mode = "cumulative_query") (hstep : r.Step = 1)
    (hg : parseGrade (TrimSpace text) = g) (hg1 : 1 ≤ g ∧ g ≤ 6) :
    (handleTextMessage fs (some r) text).ops = [StoreOp.set { r with Grade := g, Step := 2 }] := by
  have hexit : TrimSpace text ≠ "退出" := by
    intro h
    rw [h] at hg
    have h0 : parseGrade "退出" = 0 := by decide
    omega
  have hg' : g > 0 ∧ g ≤ 6 := ⟨by omega, hg1.2⟩
  unfold handleTextMessage handleCumulativeQueryMode
  simp only [getUserState, hexit, hmode, hstep, hg, hg', if_false, if_true]
  simp

/-- The write issued for an accepted semester at step 2. -/
theorem ops_semester (fs : Firestore) (r : UserState) (text : String) (sem : Int)
    (hmode : r.Mode = "cumulative_query") (hstep : r.Step = 2)
    (hs : parseSemester (TrimSpace text) = sem) (hs1 : sem = 1 ∨ sem = 2) :
    (handleTextMessage fs (some r) text).ops =
      [StoreOp.set { r with
        Semester := sem
        PreferredPublisher := r.Publisher
        PreferredGrade := r.Grade
        PreferredSemester := sem
        Step := 3 }] := by
  have hexit : TrimSpace text ≠ "退出" := by
    intro h
    rw [h] at hs
    have h0 : parseSemester "退出" = 0 := by decide
    omega
  unfold handleTextMessage handleCumulativeQueryMode
  simp only [getUserState, hexit, hmode, hstep, hs, hs1, if_false, if_true]
  simp

/-- A grade label is not a grade: at step 1 a text that trims to a label of the
grade quick reply is re-prompted. -/
theorem grade_label_reprompt (fs : Firestore) (r : UserState) (text : String)
    (hmode : r.Mode = "cumulative_query") (hstep : r.Step = 1)
    (hl : TrimSpace text ∈ ["1年級", "2年級", "3年級", "4年級", "5年級", "6年級"]) :
    handleTextMessage fs (some r) text =
      { ops := [], reply := Reply.text "請輸入正確的年級數字（1-6）" } := by
  have hfacts : TrimSpace text ≠ "退出" ∧ parseGrade (TrimSpace text) = 0 := by
    simp only [List.mem_cons, List.mem_singleton, List.not_mem_nil, or_false] at hl
    rcases hl with h | h | h | h | h | h <;> rw [h] <;> decide
  unfold handleTextMessage handleCumulativeQueryMode
  simp [getUserState, hfacts.1, hmode, hstep, hfacts.2, replyMessage]

/-- C23, as stated, fails on the grade prompt: its options have the labels
1年級 .. 6年級 and the tap texts 1 .. 6. After the publisher 康軒 the reply
carries the grade options and the session is at step 1; there the tap text 1 is
accepted, but the label 1年級 is re-prompted and nothing is written. -/
theorem grade_label_counterexample :
    (handleTextMessage sampleFirestore (stepStore sampleFirestore none "查詢累積字詞")
        "康軒").reply =
      Reply.withQuickReply "已選擇：康軒\n\n請選擇年級：" gradeQuickReply ∧
    ({ Label := "1年級", Text := "1" } : QuickReplyButton) ∈ gradeQuickReply ∧
    handleTextMessage sampleFirestore
        (stepStore sampleFirestore (stepStore sampleFirestore none "查詢累積字詞") "康軒")
        "1年級" =
      { ops := [], reply := Reply.text "請輸入正確的年級數字（1-6）" } ∧
    (handleTextMessage sampleFirestore
        (stepStore sampleFirestore (stepStore sampleFirestore none "查詢累積字詞") "康軒")
        "1").ops =
      [StoreOp.set
        { Mode := "cumulative_query", Publisher := "康軒", Grade := 1, Semester := 0,
          Lesson := 0, Step := 2, PreferredPublisher := "", PreferredGrade := 0,
          PreferredSemester := 0 }] := by
  decide

/-- C23, amended: for every reply of the handler that carries quick-reply
options and every option in it, at the step the reply leaves the session in the
tap text of the option is accepted (one record is written, with a new step).
For the options of step -1, the publishers and the semesters the label of the
option issues the same write as its tap text; the labels of the grade options
(1年級 .. 6年級) are not grades: they are re-prompted and nothing is written. -/
theorem quick_reply_tokens (fs fs' : Firestore) (store : Store) (text body : String)
    (items : List QuickReplyButton) (b : QuickReplyButton)
    (hreply : (handleTextMessage fs store text).reply = Reply.withQuickReply body items)
    (hb : b ∈ items) :
    (∃ state,
      (handleTextMessage fs' (stepStore fs store text) b.Text).ops = [StoreOp.set state] ∧
      state.Step ≠ (getUserState (stepStore fs store text)).Step) ∧
    (items ≠ gradeQuickReply →
      (handleTextMessage fs' (stepStore fs store text) b.Label).ops =
        (handleTextMessage fs' (stepStore fs store text) b.Text).ops) ∧
    (items = gradeQuickReply →
      handleTextMessage fs' (stepStore fs store text) b.Label =
        { ops := [], reply := Reply.text "請輸入正確的年級數字（1-6）" }) := by
  obtain ⟨state', hops, hm, hcase⟩ := quickReply_origin fs store text body items hreply
  have hS : stepStore fs store text = some state' := by
    unfold stepStore
    rw [hops]
    rfl
  rw [hS]
  simp only [getUserState]
  rcases hcase with ⟨hs, rfl⟩ | ⟨hs, rfl⟩ | ⟨hs, rfl⟩ | ⟨hs, rfl⟩
  · simp only [confirmQuickReply, List.mem_cons, List.mem_singleton, List.not_mem_nil,
      or_false] at hb
    rcases hb with rfl | rfl | rfl
    · exact ⟨⟨_, ops_confirm_reuse fs' state' _ hm hs (Or.inl (by decide)), by simp [hs]⟩,
        fun _ => rfl, fun h => absurd h (by decide)⟩
    · exact ⟨⟨_, ops_confirm_reuse fs' state' _ hm hs (Or.inr (by decide)), by simp [hs]⟩,
        fun _ => rfl, fun h => absurd h (by decide)⟩
    · exact ⟨⟨_, congrArg Outcome.ops
          (start_over_outcome fs' (some state') "重新設定" hm hs (by decide)), by simp [hs]⟩,
        fun _ => rfl, fun h => absurd h (by decide)⟩
  · simp only [publisherQuickReply, List.mem_cons, List.mem_singleton, List.not_mem_nil,
      or_false] at hb
    rcases hb with rfl | rfl | rfl
    · exact ⟨⟨_, ops_publisher fs' state' _ hm hs (Or.inl (by decide)), by simp [hs]⟩,
        fun _ => rfl, fun h => absurd h (by decide)⟩
    · exact ⟨⟨_, ops_publisher fs' state' _ hm hs (Or.inr (Or.inl (by decide))),
          by simp [hs]⟩,
        fun _ => rfl, fun h => absurd h (by decide)⟩
    · exact ⟨⟨_, ops_publisher fs' state' _ hm hs (Or.inr (Or.inr (by decide))),
          by simp [hs]⟩,
        fun _ => rfl, fun h => absurd h (by decide)⟩
  · simp only [gradeQuickReply, List.mem_cons, List.mem_singleton, List.not_mem_nil,
      or_false] at hb
    rcases hb with rfl | rfl | rfl | rfl | rfl | rfl
    · exact ⟨⟨_, ops_grade fs' state' _ 1 hm hs (by decide) (by decide), by simp [hs]⟩,
        fun h => absurd rfl h, fun _ => grade_label_reprompt fs' state' _ hm hs (by decide)⟩
    · exact ⟨⟨_, ops_grade fs' state' _ 2 hm hs (by decide) (by decide), by simp [hs]⟩,
        fun h => absurd rfl h, fun _ => grade_label_reprompt fs' state' _ hm hs (by decide)⟩
    · exact ⟨⟨_, ops_grade fs' state' _ 3 hm hs (by decide) (by decide), by simp [hs]⟩,
        fun h => absurd rfl h, fun _ => grade_label_reprompt fs' state' _ hm hs (by decide)⟩
    · exact ⟨⟨_, ops_grade fs' state' _ 4 hm hs (by decide) (by decide), by simp [hs]⟩,
        fun h => absurd rfl h, fun _ => grade_label_reprompt fs' state' _ hm hs (by decide)⟩
    · exact ⟨⟨_, ops_grade fs' state' _ 5 hm hs (by decide) (by decide), by simp [hs]⟩,
        fun h => absurd rfl h, fun _ => grade_label_reprompt fs' state' _ hm hs (by decide)⟩
    · exact ⟨⟨_, ops_grade fs' state' _ 6 hm hs (by decide) (by decide), by simp [hs]⟩,
        fun h => absurd rfl h, fun _ => grade_label_reprompt fs' state' _ hm hs (by decide)⟩
  · simp only [semesterQuickReply, List.mem_cons, List.mem_singleton, List.not_mem_nil,
      or_false] at hb
    rcases hb with rfl | rfl
    · exact ⟨⟨_, ops_semester fs' state' _ 1 hm hs (by decide) (by decide), by simp [hs]⟩,
        fun _ => (ops_semester fs' state' _ 1 hm hs (by decide) (by decide)).trans
          (ops_semester fs' state' _ 1 hm hs (by decide) (by decide)).symm,
        fun h => absurd h (by decide)⟩
    · exact ⟨⟨_, ops_semester fs' state' _ 2 hm hs (by decide) (by decide), by simp [hs]⟩,
        fun _ => (ops_semester fs' state' _ 2 hm hs (by decide) (by decide)).trans
          (ops_semester fs' state' _ 2 hm hs (by decide) (by decide)).symm,
        fun h => absurd h (by decide)⟩

theorem quick_reply_tokens_witness :
    (handleTextMessage sampleFirestore
        (stepStore sampleFirestore
          (some { Mode := "cumulative_query", Publisher := "康軒", Grade := 3, Semester := 0,
                  Lesson := 0, Step := 1, PreferredPublisher := "", PreferredGrade := 0,
                  PreferredSemester := 0 }) "3") "下學期").ops =
      (handleTextMessage sampleFirestore
        (stepStore sampleFirestore
          (some { Mode := "cumulative_query", Publisher := "康軒", Grade := 3, Semester := 0,
                  Lesson := 0, Step := 1, PreferredPublisher := "", PreferredGrade := 0,
                  PreferredSemester := 0 }) "3") "2").ops :=
  (quick_reply_tokens sampleFirestore sampleFirestore
    (some { Mode := "cumulative_query", Publisher := "康軒", Grade := 3, Semester := 0,
            Lesson := 0, Step := 1, PreferredPublisher := "", PreferredGrade := 0,
            PreferredSemester := 0 }) "3" ("已選擇：康軒 3年級\n\n請選擇學期：") semesterQuickReply
    { Label := "下學期", Text := "2" } (by decide) (by decide)).2.1 (by decide)

/-! ## Lesson numbers -/

/-- A decimal digit is not white space. -/
theorem isSpace_of_isDecimalDigit (c : Char) (h : isDecimalDigit c = true) :
    isSpace c = false := by
  unfold isDecimalDigit at h
  unfold isSpace
  have h0 : '0'.toNat = 48 := by decide
  have h9 : '9'.toNat = 57 := by decide
  rw [h0, h9] at h
  simp only [Bool.and_eq_true, decide_eq_true_eq] at h
  simp only [Bool.or_eq_false_iff, Bool.and_eq_false_iff, decide_eq_false_iff_not,
    beq_eq_false_iff_ne, ne_eq]
  omega

/-- What `skipSpace` skips: white space without a newline, up to a code point
that is not white space. -/
theorem skipSpace_some (l rest : List Char) (h : skipSpace l = some rest) :
    ∃ ws, l = ws ++ rest ∧ (∀ c ∈ ws, isSpace c = true ∧ c ≠ '\n') ∧
      (∀ c, rest.head? = some c → isSpace c = false) := by
  induction l with
  | nil =>
    simp only [skipSpace, Option.some.injEq] at h
    subst h
    exact ⟨[], rfl, by simp, by simp⟩
  | cons c l' ih =>
    unfold skipSpace at h
    split_ifs at h with h1 h2 h3
    · obtain ⟨ws, hl, hws, hrest⟩ := ih h
      refine ⟨c :: ws, by rw [hl]; rfl, ?_, hrest⟩
      intro d hd
      rcases List.mem_cons.mp hd with rfl | hd
      · rw [h1.1]
        exact ⟨by decide, by decide⟩
      · exact hws d hd
    · obtain ⟨ws, hl, hws, hrest⟩ := ih h
      refine ⟨c :: ws, by rw [hl]; rfl, ?_, hrest⟩
      intro d hd
      rcases List.mem_cons.mp hd with rfl | hd
      · exact ⟨h3, h2⟩
      · exact hws d hd
    · simp only [Option.some.injEq] at h
      subst h
      refine ⟨[], rfl, by simp, ?_⟩
      intro d hd
      simp only [List.head?_cons, Option.some.injEq] at hd
      subst hd
      simpa using h3

/-- `skipSpace` on white space without a newline followed by a code point that
is not white space. -/
theorem skipSpace_append (ws rest : List Char)
    (hws : ∀ c ∈ ws, isSpace c = true ∧ c ≠ '\n')
    (hrest : ∃ c tl, rest = c :: tl ∧ isSpace c = false) :
    skipSpace (ws ++ rest) = some rest := by
  induction ws with
  | nil =>
    obtain ⟨c, tl, rfl, hc⟩ := hrest
    have hr : c ≠ '\r' := by
      intro h
      rw [h] at hc
      exact absurd hc (by decide)
    have hn : c ≠ '\n' := by
      intro h
      rw [h] at hc
      exact absurd hc (by decide)
    simp [skipSpace, hr, hn, hc]
  | cons w ws' ih =>
    have hw := hws w (List.mem_cons_self _ _)
    have ih' := ih (fun c hc => hws c (List.mem_cons_of_mem _ hc))
    rw [List.cons_append]
    unfold skipSpace
    split_ifs with h1 h2 h3
    · exact ih'
    · exact absurd h2 hw.2
    · exact ih'
    · exact absurd hw.1 h3

/-- The first code point left by `dropWhile` fails the test. -/
theorem head_dropWhile_false (p : Char → Bool) (l : List Char) (c : Char)
    (h : (l.dropWhile p).head? = some c) : p c = false := by
  induction l with
  | nil => simp at h
  | cons a l' ih =>
    by_cases ha : p a = true
    · rw [List.dropWhile_cons_of_pos ha] at h
      exact ih h
    · rw [List.dropWhile_cons_of_neg ha] at h
      simp only [List.head?_cons, Option.some.injEq] at h
      subst h
      simpa using ha

/-- `takeWhile` stops exactly at the end of a run followed by a failing code
point. -/
theorem takeWhile_run (p : Char → Bool) (ds tail : List Char)
    (hds : ∀ c ∈ ds, p c = true) (htail : ∀ c, tail.head? = some c → p c = false) :
    (ds ++ tail).takeWhile p = ds := by
  induction ds with
  | nil =>
    cases tail with
    | nil => rfl
    | cons a tl =>
      have := htail a rfl
      simp [List.takeWhile_cons, this]
  | cons d ds' ih =>
    have hd := hds d (List.mem_cons_self _ _)
    rw [List.cons_append, List.takeWhile_cons_of_pos hd,
      ih (fun c hc => hds c (List.mem_cons_of_mem _ hc))]

/-- The value of a run of digits is not negative. -/
theorem digitsValue_nonneg (ds : List Char) : (0 : Int) ≤ (digitsValue ds : Int) :=
  Int.ofNat_nonneg _

/-- `sscanfInt` on a text made of skipped white space, an optional plus sign, a
run of digits and a rest that does not start with a digit. -/
theorem sscanfInt_parts (t : String) (ws sign ds tail : List Char)
    (hdata : t.data = ws ++ sign ++ ds ++ tail)
    (hws : ∀ c ∈ ws, isSpace c = true ∧ c ≠ '\n')
    (hsign : sign = [] ∨ sign = ['+'])
    (hne : ds ≠ [])
    (hds : ∀ c ∈ ds, isDecimalDigit c = true)
    (htail : ∀ c, tail.head? = some c → isDecimalDigit c = false)
    (hrange : (digitsValue ds : Int) < 2 ^ 63) :
    sscanfInt t = some (digitsValue ds : Int) := by
  obtain ⟨d, ds', rfl⟩ := List.exists_cons_of_ne_nil hne
  have hd : isDecimalDigit d = true := hds d (List.mem_cons_self _ _)
  have hdplus : d ≠ '+' := by
    intro h
    rw [h] at hd
    exact absurd hd (by decide)
  have hdminus : d ≠ '-' := by
    intro h
    rw [h] at hd
    exact absurd hd (by decide)
  have htake : ((d :: ds') ++ tail).takeWhile isDecimalDigit = d :: ds' :=
    takeWhile_run isDecimalDigit (d :: ds') tail hds htail
  have hnn := digitsValue_nonneg (d :: ds')
  unfold sscanfInt
  rcases hsign with rfl | rfl
  · have hsk : skipSpace t.data = some ((d :: ds') ++ tail) := by
      rw [hdata, List.append_nil, List.append_assoc]
      exact skipSpace_append ws _ hws ⟨d, ds' ++ tail, rfl, isSpace_of_isDecimalDigit d hd⟩
    rw [hsk]
    simp only [List.cons_append, List.head?_cons, Option.some.injEq, hdplus, hdminus,
      or_self, if_false]
    rw [← List.cons_append, htake]
    simp only [reduceCtorEq, if_false]
    rw [if_pos ⟨by omega, hrange⟩]
  · have hsk : skipSpace t.data = some ('+' :: ((d :: ds') ++ tail)) := by
      rw [hdata, List.append_assoc, List.append_assoc]
      exact skipSpace_append ws _ hws ⟨'+', (d :: ds') ++ tail, rfl, by decide⟩
    rw [hsk]
    have hpm : ('+' : Char) ≠ '-' := by decide
    simp only [List.head?_cons, Option.some.injEq, hpm, true_or, if_true, if_false,
      List.tail_cons]
    rw [htake]
    simp only [reduceCtorEq, if_false]
    rw [if_pos ⟨by omega, hrange⟩]

/-- Every positive result of `sscanfInt` comes from a text made of skipped
white space, an optional plus sign, a run of digits and a rest that does not
start with a digit. -/
theorem sscanfInt_pos (t : String) (v : Int) (h : sscanfInt t = some v) (hv : 0 < v) :
    ∃ ws sign ds tail : List Char,
      t.data = ws ++ sign ++ ds ++ tail ∧
      (∀ c ∈ ws, isSpace c = true ∧ c ≠ '\n') ∧
      (sign = [] ∨ sign = ['+']) ∧
      ds ≠ [] ∧
      (∀ c ∈ ds, isDecimalDigit c = true) ∧
      (∀ c, tail.head? = some c → isDecimalDigit c = false) ∧
      (digitsValue ds : Int) = v ∧ v < 2 ^ 63 := by
  unfold sscanfInt at h
  cases hsk : skipSpace t.data with
  | none => simp [hsk] at h
  | some rest =>
    obtain ⟨ws, hl, hws, _⟩ := skipSpace_some t.data rest hsk
    simp only [hsk] at h
    by_cases hneg : rest.head? = some '-'
    · exfalso
      simp only [hneg, or_true, if_true] at h
      split_ifs at h with h1 h2
      · simp only [Option.some.injEq] at h
        have := digitsValue_nonneg (List.takeWhile isDecimalDigit rest.tail)
        omega
    · by_cases hplus : rest.head? = some '+'
      · simp only [hplus, true_or, if_true] at h
        have hpm : ¬ (some '+' : Option Char) = some '-' := by decide
        simp only [hpm, if_false] at h
        split_ifs at h with h1 h2
        simp only [Option.some.injEq] at h
        have hrest : rest = '+' :: rest.tail := by
          cases rest with
          | nil => simp at hplus
          | cons a tl =>
            simp only [List.head?_cons, Option.some.injEq] at hplus
            rw [hplus]
            rfl
        subst h
        refine ⟨ws, ['+'], rest.tail.takeWhile isDecimalDigit,
          rest.tail.dropWhile isDecimalDigit, ?_, hws, Or.inr rfl, h1, ?_, ?_, rfl, h2.2⟩
        · rw [hl, List.append_assoc, List.append_assoc, List.takeWhile_append_dropWhile]
          rw [List.singleton_append, ← hrest]
        · intro c hc
          exact (List.mem_takeWhile_imp hc)
        · intro c hc
          exact head_dropWhile_false isDecimalDigit rest.tail c hc
      · simp only [hplus, hneg, or_self, if_false] at h
        split_ifs at h with h1 h2
        simp only [Option.some.injEq] at h
        subst h
        refine ⟨ws, [], rest.takeWhile isDecimalDigit, rest.dropWhile isDecimalDigit,
          ?_, hws, Or.inl rfl, h1, ?_, ?_, rfl, h2.2⟩
        · rw [hl, List.append_nil, List.append_assoc, List.takeWhile_append_dropWhile]
        · intro c hc
          exact (List.mem_takeWhile_imp hc)
        · intro c hc
          exact head_dropWhile_false isDecimalDigit rest c hc

/-- C30, as stated, fails: `fmt.Sscanf` with `%d` reads a numeral at the start
of the text and leaves the rest unread. The text 5abc is not a numeral as a
whole, yet it parses to 5 and at step 3 it is accepted as lesson 5; and the
text -5 yields -5, not 0. -/
theorem lesson_trailing_text_counterexample :
    "5abc".data.all isDecimalDigit = false ∧
    parseLesson "5abc" = 5 ∧
    parseLesson "-5" = -5 ∧
    (handleTextMessage sampleFirestore
        (some { Mode := "cumulative_query", Publisher := "康軒", Grade := 3, Semester := 1,
                Lesson := 0, Step := 3, PreferredPublisher := "康軒", PreferredGrade := 3,
                PreferredSemester := 1 }) "5abc").ops =
      [StoreOp.set
        { Mode := "cumulative_query", Publisher := "康軒", Grade := 3, Semester := 1,
          Lesson := 5, Step := 4, PreferredPublisher := "康軒", PreferredGrade := 3,
          PreferredSemester := 1 }] := by
  decide

/-- C30, amended: `parseLesson` reads a numeral at the start of the text. For
every text t, `parseLesson t` is a positive n exactly when t consists of white
space without a newline, an optional plus sign, a non-empty run of decimal
digits denoting n with 0 < n < 2^63, and a rest that does not start with a
digit (the rest is ignored). In particular a text that as a whole is the
decimal numeral of such an n parses to n. A text whose parse is not positive is
re-prompted at step 3 without a store operation. -/
theorem parseLesson_pos_iff (fs : Firestore) (state : UserState) (t : String) (n : Int) :
    ((parseLesson t = n ∧ 0 < n) ↔
      ∃ ws sign ds tail : List Char,
        t.data = ws ++ sign ++ ds ++ tail ∧
        (∀ c ∈ ws, isSpace c = true ∧ c ≠ '\n') ∧
        (sign = [] ∨ sign = ['+']) ∧
        ds ≠ [] ∧
        (∀ c ∈ ds, isDecimalDigit c = true) ∧
        (∀ c, tail.head? = some c → isDecimalDigit c = false) ∧
        (digitsValue ds : Int) = n ∧ 0 < n ∧ n < 2 ^ 63) ∧
    (t.data ≠ [] → (∀ c ∈ t.data, isDecimalDigit c = true) →
      0 < (digitsValue t.data : Int) → (digitsValue t.data : Int) < 2 ^ 63 →
      parseLesson t = (digitsValue t.data : Int)) ∧
    (state.Step = 3 → parseLesson t ≤ 0 →
      handleCumulativeQueryMode fs t state =
        { ops := [], reply := Reply.text "請輸入正確的課次數字" }) := by
  refine ⟨⟨?_, ?_⟩, ?_, ?_⟩
  · rintro ⟨hp, hn⟩
    unfold parseLesson at hp
    cases hs : sscanfInt t with
    | none =>
      simp only [hs] at hp
      omega
    | some v =>
      simp only [hs] at hp
      subst hp
      obtain ⟨ws, sign, ds, tail, h1, h2, h3, h4, h5, h6, h7, h8⟩ := sscanfInt_pos t v hs hn
      exact ⟨ws, sign, ds, tail, h1, h2, h3, h4, h5, h6, h7, hn, h8⟩
  · rintro ⟨ws, sign, ds, tail, h1, h2, h3, h4, h5, h6, h7, hn, h8⟩
    have := sscanfInt_parts t ws sign ds tail h1 h2 h3 h4 h5 h6 (by rw [h7]; exact h8)
    unfold parseLesson
    rw [this]
    exact ⟨h7, hn⟩
  · intro hne hds _ hlt
    have := sscanfInt_parts t [] [] t.data [] (by simp) (by simp) (Or.inl rfl) hne hds
      (by simp) hlt
    unfold parseLesson
    rw [this]
  · intro hs hle
    have hnot : ¬ parseLesson t > 0 := by omega
    unfold handleCumulativeQueryMode
    simp [hs, hnot, replyMessage]

/-! ## Text utilities -/

/-- C34: the bound of `TruncateText`. For every text and every `maxLength ≥ 0`
the function returns a text (no slice bound is out of range) of at most
`maxLength` code points; it is the text itself when that has at most
`maxLength` code points; otherwise it is the first `maxLength - 3` code points
of the text followed by `...` when `maxLength > 3`, and the first `maxLength`
code points when `maxLength ≤ 3`. -/
theorem truncateText_bound (text : String) (maxLength : Int) (h : 0 ≤ maxLength) :
    ∃ result, TruncateText text maxLength = some result ∧
      (result.data.length : Int) ≤ maxLength ∧
      ((text.data.length : Int) ≤ maxLength → result = text) ∧
      (maxLength < (text.data.length : Int) → 3 < maxLength →
        result = String.mk (text.data.take (maxLength - 3).toNat) ++ "...") ∧
      (maxLength < (text.data.length : Int) → maxLength ≤ 3 →
        result = String.mk (text.data.take maxLength.toNat)) := by
  unfold TruncateText
  by_cases h1 : (text.data.length : Int) ≤ maxLength
  · refine ⟨text, by rw [if_pos h1], h1, fun _ => rfl, ?_, ?_⟩
    · intro h2
      omega
    · intro h2
      omega
  · by_cases h2 : maxLength ≤ 3
    · refine ⟨String.mk (text.data.take maxLength.toNat), ?_, ?_, ?_, ?_, fun _ _ => rfl⟩
      · rw [if_neg h1]
        simp only [h2, h, if_true]
      · simp only [List.length_take]
        omega
      · intro h3
        exact absurd h3 h1
      · intro _ h3
        omega
    · refine ⟨String.mk (text.data.take (maxLength - 3).toNat) ++ "...", ?_, ?_, ?_,
        fun _ _ => rfl, ?_⟩
      · rw [if_neg h1]
        simp only [h2, if_false]
      · have h3 : ("..." : String).data.length = 3 := by decide
        simp only [String.data_append, List.length_append, List.length_take, h3]
        omega
      · intro h3
        exact absurd h3 h1
      · intro _ h3
        exact absurd h3 h2

theorem truncateText_bound_witness :
    ∃ result, TruncateText "我好喜歡吃飯配菜" 5 = some result ∧
      (result.data.length : Int) ≤ 5 ∧ result = "我好..." := by
  obtain ⟨result, h1, h2, _, h4, _⟩ := truncateText_bound "我好喜歡吃飯配菜" 5 (by decide)
  exact ⟨result, h1, h2, h4 (by decide) (by decide)⟩

/-- The loop of `SplitByLength` appends to `result` the chunks of the code
points from index `i` on. -/
theorem splitLoop_eq (runes : List Char) (n : Nat) (hn : 0 < n) (fuel i : Nat)
    (result : List String) :
    splitLoop runes n fuel i result = result ++ chunksFrom n fuel (runes.drop i) := by
  induction fuel generalizing i result with
  | zero => simp [splitLoop, chunksFrom]
  | succ fuel ih =>
    unfold splitLoop chunksFrom
    by_cases hi : i < runes.length
    · have hne : runes.drop i ≠ [] := by
        intro h
        have := congrArg List.length h
        simp only [List.length_drop, List.length_nil] at this
        omega
      rw [if_pos hi, if_neg hne, ih]
      have htake : (runes.drop i).take
          ((if i + n > runes.length then runes.length else i + n) - i) =
          (runes.drop i).take n := by
        split_ifs with h
        · rw [List.take_of_length_le (by simp only [List.length_drop]; omega),
            List.take_of_length_le (by simp only [List.length_drop]; omega)]
        · congr 1
          omega
      simp only [htake, List.drop_drop, List.append_assoc, List.singleton_append]
    · have hnil : runes.drop i = [] := List.drop_of_length_le (by omega)
      rw [if_neg hi, hnil]
      simp

/-- The chunks put together are the code points they were cut from. -/
theorem chunksFrom_flatten (n : Nat) (hn : 0 < n) (fuel : Nat) (l : List Char)
    (hfuel : l.length ≤ fuel) :
    ((chunksFrom n fuel l).map String.data).flatten = l := by
  induction fuel generalizing l with
  | zero =>
    have : l = [] := List.length_eq_zero.mp (by omega)
    simp [chunksFrom, this]
  | succ fuel ih =>
    unfold chunksFrom
    by_cases hl : l = []
    · simp [hl]
    · rw [if_neg hl]
      have hpos : 0 < l.length := List.length_pos.mpr hl
      have := ih (l.drop n) (by simp only [List.length_drop]; omega)
      simp only [List.map_cons, List.flatten_cons, this, List.take_append_drop]

/-- Every chunk is non-empty and has at most `n` code points. -/
theorem chunksFrom_size (n : Nat) (hn : 0 < n) (fuel : Nat) (l : List Char) (chunk : String)
    (h : chunk ∈ chunksFrom n fuel l) : chunk.data ≠ [] ∧ chunk.data.length ≤ n := by
  induction fuel generalizing l with
  | zero => simp [chunksFrom] at h
  | succ fuel ih =>
    unfold chunksFrom at h
    by_cases hl : l = []
    · simp [hl] at h
    · rw [if_neg hl] at h
      rcases List.mem_cons.mp h with rfl | h
      · have hpos : 0 < l.length := List.length_pos.mpr hl
        constructor
        · intro hnil
          have := congrArg List.length hnil
          simp only [List.length_take, List.length_nil] at this
          omega
        · simp only [List.length_take]
          omega
      · exact ih _ h

/-- Every chunk but the last has exactly `n` code points. -/
theorem chunksFrom_full (n : Nat) (fuel : Nat) (l : List Char) (chunk : String)
    (h : chunk ∈ (chunksFrom n fuel l).dropLast) : chunk.data.length = n := by
  induction fuel generalizing l with
  | zero => simp [chunksFrom] at h
  | succ fuel ih =>
    unfold chunksFrom at h
    by_cases hl : l = []
    · simp [hl] at h
    · rw [if_neg hl] at h
      cases hrest : chunksFrom n fuel (l.drop n) with
      | nil => simp [hrest] at h
      | cons c rest =>
        rw [hrest, List.dropLast_cons₂] at h
        rcases List.mem_cons.mp h with rfl | h
        · have hdrop : l.drop n ≠ [] := by
            intro hnil
            rw [hnil] at hrest
            cases fuel <;> simp [chunksFrom] at hrest
          have hlen : n < l.length := by
            by_contra hle
            exact hdrop (List.drop_of_length_le (by omega))
          simp only [List.length_take]
          omega
        · apply ih (l.drop n)
          rw [hrest]
          exact h

/-- C35: `SplitByLength` is a lossless chunking. For every text and every
length n > 0 the chunks put together in order are the text, every chunk is
non-empty and has at most n code points, and every chunk but the last has
exactly n; for n ≤ 0 the result is the single chunk holding the text. -/
theorem splitByLength_lossless (text : String) (length : Int) :
    (0 < length →
      String.join (SplitByLength text length) = text ∧
      (∀ chunk ∈ SplitByLength text length,
        chunk.data ≠ [] ∧ (chunk.data.length : Int) ≤ length) ∧
      (∀ chunk ∈ (SplitByLength text length).dropLast,
        (chunk.data.length : Int) = length)) ∧
    (length ≤ 0 → SplitByLength text length = [text]) := by
  constructor
  · intro hpos
    have hn : 0 < length.toNat := by omega
    have heq : SplitByLength text length =
        chunksFrom length.toNat text.data.length text.data := by
      unfold SplitByLength
      rw [if_neg (by omega), splitLoop_eq _ _ hn]
      simp
    rw [heq]
    refine ⟨?_, ?_, ?_⟩
    · apply String.ext
      rw [String.data_join]
      exact chunksFrom_flatten _ hn _ _ (le_refl _)
    · intro chunk hc
      have := chunksFrom_size _ hn _ _ chunk hc
      refine ⟨this.1, ?_⟩
      omega
    · intro chunk hc
      have := chunksFrom_full _ _ _ chunk hc
      omega
  · intro hle
    unfold SplitByLength
    rw [if_pos hle]

theorem splitByLength_lossless_witness :
    SplitByLength "我好喜歡吃飯配菜" 3 = ["我好喜", "歡吃飯", "配菜"] ∧
    String.join (SplitByLength "我好喜歡吃飯配菜" 3) = "我好喜歡吃飯配菜" :=
  ⟨by decide, ((splitByLength_lossless "我好喜歡吃飯配菜" 3).1 (by decide)).1⟩

/-! ## Practice questions -/

/-- A sum or difference inside the 64-bit range is not wrapped. -/
theorem wrapInt_of_range (x : Int) (h1 : -(2 ^ 63) ≤ x) (h2 : x < 2 ^ 63) : wrapInt x = x := by
  unfold wrapInt
  omega

/-- `GetRandomCharacters 1` is the result of looking up the first common
character. -/
theorem getRandomCharacters_one (lookupCharacter : String → Option CharacterInfo)
    (char : CharacterInfo) (h : lookupCharacter "學" = some char) :
    GetRandomCharacters lookupCharacter 1 = [char] := by
  simp [GetRandomCharacters, commonChars, h]

/-- The index found by the loop holds the target when the target occurs. -/
theorem correctIndexFrom_spec (options : List String) (target : String) (start : Nat)
    (h : target ∈ options) :
    ∃ k, correctIndexFrom options target start = start + k ∧ options[k]? = some target := by
  induction options generalizing start with
  | nil => simp at h
  | cons o rest ih =>
    unfold correctIndexFrom
    by_cases ho : o = target
    · exact ⟨0, by simp [ho], by simp [ho]⟩
    · rw [if_neg ho]
      have hmem : target ∈ rest := by
        rcases List.mem_cons.mp h with h | h
        · exact absurd h.symm ho
        · exact h
      obtain ⟨k, hk1, hk2⟩ := ih (start + 1) hmem
      exact ⟨k + 1, by rw [hk1]; omega, by simpa using hk2⟩

/-- A question just put into the cache is the one found under its ID. -/
theorem lookup_cacheSet (cache : QuestionCache) (questionID : String)
    (question : PracticeQuestion) :
    (cacheSet cache questionID question).lookup questionID = some question := by
  simp [cacheSet, List.lookup_cons]

/-- The options of a phonetic question before the shuffle: four entries, no
entry twice, the phonetic string among them. -/
theorem phoneticOptions_spec (phonetic : String) :
    (phoneticOptions phonetic).length = 4 ∧ (phoneticOptions phonetic).Nodup ∧
      phonetic ∈ phoneticOptions phonetic := by
  have d12 : ("ㄅㄚ" : String) ≠ "ㄆㄧ" := by decide
  have d13 : ("ㄅㄚ" : String) ≠ "ㄇㄛ" := by decide
  have d14 : ("ㄅㄚ" : String) ≠ "ㄈㄟ" := by decide
  have d23 : ("ㄆㄧ" : String) ≠ "ㄇㄛ" := by decide
  have d24 : ("ㄆㄧ" : String) ≠ "ㄈㄟ" := by decide
  have d34 : ("ㄇㄛ" : String) ≠ "ㄈㄟ" := by decide
  unfold phoneticOptions
  by_cases h1 : "ㄅㄚ" = phonetic
  · subst h1
    simp [d12, d13, d14, d23, d24, d34, d12.symm, d13.symm, d14.symm]
  · by_cases h2 : "ㄆㄧ" = phonetic
    · subst h2
      simp [d12, d13, d14, d23, d24, d34, d12.symm, d23.symm, d24.symm]
    · by_cases h3 : "ㄇㄛ" = phonetic
      · subst h3
        simp [d12, d13, d14, d23, d24, d34, d13.symm, d23.symm, d34.symm]
      · have e1 : phonetic ≠ "ㄅㄚ" := fun h => h1 h.symm
        have e2 : phonetic ≠ "ㄆㄧ" := fun h => h2 h.symm
        have e3 : phonetic ≠ "ㄇㄛ" := fun h => h3 h.symm
        simp [h1, h2, h3, e1, e2, e3, d12, d13, d23]

/-- The result of `GeneratePhoneticQuestion` when the character is found. -/
theorem generatePhoneticQuestion_ok (env : PracticeEnv) (cache : QuestionCache)
    (char : CharacterInfo) (hlookup : env.lookupCharacter "學" = some char) :
    GeneratePhoneticQuestion env cache =
      Except.ok
        ({ ID := "phonetic_" ++ fmtInt env.now,
           QuestionType := "phonetic",
           Character := char.Character,
           Question := "請選擇「" ++ char.Character ++ "」的正確注音：",
           Options := env.shuffle (phoneticOptions char.Phonetic),
           CorrectAnswer :=
             fmtInt (correctIndexFrom (env.shuffle (phoneticOptions char.Phonetic))
               char.Phonetic 0),
           Explanation := "「" ++ char.Character ++ "」的注音是「" ++ char.Phonetic ++ "」",
           Difficulty := 0,
           CreatedAt := 0 },
         cacheSet cache ("phonetic_" ++ fmtInt env.now)
           { ID := "phonetic_" ++ fmtInt env.now,
             QuestionType := "phonetic",
             Character := char.Character,
             Question := "請選擇「" ++ char.Character ++ "」的正確注音：",
             Options := env.shuffle (phoneticOptions char.Phonetic),
             CorrectAnswer :=
               fmtInt (correctIndexFrom (env.shuffle (phoneticOptions char.Phonetic))
                 char.Phonetic 0),
             Explanation := "「" ++ char.Character ++ "」的注音是「" ++ char.Phonetic ++ "」",
             Difficulty := 0,
             CreatedAt := 0 }) := by
  unfold GeneratePhoneticQuestion
  rw [getRandomCharacters_one env.lookupCharacter char hlookup]

/-- C32: `GeneratePhoneticQuestion` builds a well-formed multiple choice. When
the character is found, for every phonetic string of the character and every
permutation applied by the shuffle, the call succeeds with a question whose
`Options` has exactly 4 entries, no entry twice; `CorrectAnswer` is the decimal
rendering of an index at which `Options` holds the phonetic string; and
`CheckAnswer` on the cache after the call returns true for exactly the answer
that is this decimal rendering. -/
theorem phonetic_question_well_formed (env : PracticeEnv) (cache : QuestionCache)
    (char : CharacterInfo)
    (hlookup : env.lookupCharacter "學" = some char)
    (hshuffle : ∀ l, List.Perm (env.shuffle l) l) :
    ∃ (question : PracticeQuestion) (cache' : QuestionCache) (index : Nat),
      GeneratePhoneticQuestion env cache = Except.ok (question, cache') ∧
      question.Options.length = 4 ∧
      question.Options.Nodup ∧
      question.CorrectAnswer = fmtInt index ∧
      question.Options[index]? = some char.Phonetic ∧
      ∀ answer : String,
        (CheckAnswer cache' question.ID answer).1 = true ↔ answer = fmtInt index := by
  obtain ⟨hlen, hnodup, hmem⟩ := phoneticOptions_spec char.Phonetic
  have hperm := hshuffle (phoneticOptions char.Phonetic)
  have hmem' : char.Phonetic ∈ env.shuffle (phoneticOptions char.Phonetic) :=
    hperm.mem_iff.mpr hmem
  obtain ⟨k, hk1, hk2⟩ :=
    correctIndexFrom_spec (env.shuffle (phoneticOptions char.Phonetic)) char.Phonetic 0 hmem'
  rw [Nat.zero_add] at hk1
  refine ⟨_, _, k, generatePhoneticQuestion_ok env cache char hlookup, ?_, ?_, ?_, ?_, ?_⟩
  · simp only
    rw [hperm.length_eq, hlen]
  · simp only
    exact hperm.nodup_iff.mpr hnodup
  · simp only
    rw [hk1]
  · simp only
    exact hk2
  · intro answer
    unfold CheckAnswer
    rw [lookup_cacheSet]
    simp [hk1]

theorem phonetic_question_well_formed_witness :
    ∃ (question : PracticeQuestion) (cache' : QuestionCache) (index : Nat),
      GeneratePhoneticQuestion samplePracticeEnv [] = Except.ok (question, cache') ∧
      question.Options.length = 4 ∧
      question.CorrectAnswer = fmtInt index ∧
      question.Options[index]? = some "ㄒㄩㄝˊ" := by
  obtain ⟨question, cache', index, h1, h2, _, h4, h5, _⟩ :=
    phonetic_question_well_formed samplePracticeEnv []
      { Character := "學", Phonetic := "ㄒㄩㄝˊ", StrokeCount := 16 } rfl
      (fun l => List.reverse_perm l)
  exact ⟨question, cache', index, h1, h2, h4, h5⟩

/-- The options of a stroke question for a stroke count of at least 4: the
count, then the counts one less, one more, two less and three less. -/
theorem strokeOptions_of_ge_four (c : Int) (h4 : 4 ≤ c) (hmax : c < 2 ^ 63 - 1) :
    strokeOptions c = [fmtInt c, fmtInt (c - 1), fmtInt (c + 1), fmtInt (c - 2), fmtInt (c - 3)] := by
  have w1 : wrapInt (c - 1) = c - 1 := wrapInt_of_range _ (by omega) (by omega)
  have w2 : wrapInt (c - 2) = c - 2 := wrapInt_of_range _ (by omega) (by omega)
  have w3 : wrapInt (c - 3) = c - 3 := wrapInt_of_range _ (by omega) (by omega)
  have w4 : wrapInt (c + 1) = c + 1 := wrapInt_of_range _ (by omega) (by omega)
  have p1 : c - 1 > 0 := by omega
  have p2 : c - 2 > 0 := by omega
  have p3 : c - 3 > 0 := by omega
  simp [strokeOptions, strokeRound, strokePad, w1, w2, w3, w4, p1, p2, p3]

/-- The result of `GenerateStrokeQuestion` when the character is found: its
options are the shuffled `strokeOptions` of the stroke count. -/
theorem generateStrokeQuestion_options (env : PracticeEnv) (cache : QuestionCache)
    (char : CharacterInfo) (hlookup : env.lookupCharacter "學" = some char) :
    ∃ question cache', GenerateStrokeQuestion env cache = Except.ok (question, cache') ∧
      question.Options = env.shuffle (strokeOptions char.StrokeCount) := by
  unfold GenerateStrokeQuestion
  rw [getRandomCharacters_one env.lookupCharacter char hlookup]
  exact ⟨_, _, rfl, rfl⟩

/-- C31, the code at the failing input: for the character 學 with 16 strokes
the options before the shuffle are 16, 15, 17, 14, 13, five entries, because
the first append of each round is not guarded by the length; the generated
question has five options (here with the reversing shuffle, and with every
permutation for every stroke count from 4 on). Stroke counts up to 3 give four
options. -/
theorem stroke_question_five_options :
    strokeOptions 16 = ["16", "15", "17", "14", "13"] ∧
    GenerateStrokeQuestion samplePracticeEnv [] =
      Except.ok
        ({ ID := "stroke_0", QuestionType := "stroke", Character := "學",
           Question := "請選擇「學」的筆畫數：",
           Options := ["13", "14", "17", "15", "16"],
           CorrectAnswer := "4",
           Explanation := "「學」的筆畫數是 16 畫",
           Difficulty := 0, CreatedAt := 0 },
         [("stroke_0",
           { ID := "stroke_0", QuestionType := "stroke", Character := "學",
             Question := "請選擇「學」的筆畫數：",
             Options := ["13", "14", "17", "15", "16"],
             CorrectAnswer := "4",
             Explanation := "「學」的筆畫數是 16 畫",
             Difficulty := 0, CreatedAt := 0 })]) ∧
    (∀ (env : PracticeEnv) (cache : QuestionCache) (char : CharacterInfo),
      env.lookupCharacter "學" = some char → (∀ l, List.Perm (env.shuffle l) l) →
      4 ≤ char.StrokeCount → char.StrokeCount < 2 ^ 63 - 1 →
      ∃ question cache', GenerateStrokeQuestion env cache = Except.ok (question, cache') ∧
        question.Options.length = 5) ∧
    strokeOptions 3 = ["3", "2", "4", "1"] ∧ strokeOptions 2 = ["2", "1", "3", "4"] ∧
    strokeOptions 1 = ["1", "2", "3", "4"] := by
  refine ⟨by decide, rfl, ?_, by decide, by decide, by decide⟩
  intro env cache char hlookup hshuffle h4 hmax
  obtain ⟨question, cache', hgen, hopt⟩ := generateStrokeQuestion_options env cache char hlookup
  refine ⟨question, cache', hgen, ?_⟩
  rw [hopt, (hshuffle _).length_eq, strokeOptions_of_ge_four _ h4 hmax]
  rfl

/-- C33, the code at the failing input: a question with ID `stroke_0` (put into
the cache at clock 0) is still in the cache after `CleanupExpiredQuestions` run
more than two hours later, because `extractTimestampFromID` does not read the
ID but returns the clock at the time of the call. Whenever the clock readings
during the sweep are not more than one hour behind the reading at its start,
the sweep deletes nothing at all. -/
theorem cleanup_keeps_expired :
    extractTimestampFromID 7200000000001 "stroke_0" = 7200000000001 ∧
    CleanupExpiredQuestions 7200000000001 (fun _ => 7200000000001)
        [("stroke_0",
          { ID := "stroke_0", QuestionType := "stroke", Character := "學",
            Question := "請選擇「學」的筆畫數：",
            Options := ["13", "14", "17", "15", "16"],
            CorrectAnswer := "4",
            Explanation := "「學」的筆畫數是 16 畫",
            Difficulty := 0, CreatedAt := 0 })] =
      [("stroke_0",
        { ID := "stroke_0", QuestionType := "stroke", Character := "學",
          Question := "請選擇「學」的筆畫數：",
          Options := ["13", "14", "17", "15", "16"],
          CorrectAnswer := "4",
          Explanation := "「學」的筆畫數是 16 畫",
          Difficulty := 0, CreatedAt := 0 })] ∧
    (∀ (currentTime : Int) (clock : String → Int) (cache : QuestionCache),
      -(2 ^ 62) ≤ currentTime → currentTime < 2 ^ 62 →
      (∀ kv ∈ cache, currentTime - hourNanos ≤ clock kv.1 ∧ clock kv.1 < 2 ^ 62) →
      CleanupExpiredQuestions currentTime clock cache = cache) := by
  refine ⟨rfl, by decide, ?_⟩
  intro currentTime clock cache h1 h2 hclock
  unfold CleanupExpiredQuestions
  rw [List.filter_eq_self]
  intro kv hkv
  obtain ⟨h3, h4⟩ := hclock kv hkv
  unfold hourNanos at h3
  have hw : wrapInt (currentTime - extractTimestampFromID (clock kv.1) kv.1) =
      currentTime - clock kv.1 := by
    unfold extractTimestampFromID
    exact wrapInt_of_range _ (by omega) (by omega)
  rw [hw]
  simp only [hourNanos, gt_iff_lt, Bool.not_eq_true', decide_eq_false_iff_not, not_lt]
  omega

end LineBot
